import Mathlib

/-!
# TexturePacker: the packing engine of `src/main.c`

A shallow embedding of the atlas generator: the records (`rect_t`, `texture_t`),
the orderer `sort_textures`, the overlap test `rect_overlaps`, the placement
attempt of `main` (lines 249-303), the dimension loops (lines 227-316), the
emission by `save_atlas` and the page loop of `main` (lines 188-372).

Arrays are lists, indices are natural numbers, loops are recursive functions
that pass the mutated array along.  `unsigned int` values are natural numbers
and every unsigned operation that can wrap is written with `% 4294967296`;
`int` values are integers, and the `int` additions of `rect_overlaps` wrap
(`add32`).
-/

namespace TexturePacker

/-! ## Machine integers -/

/-- Conversion of an `int` to `unsigned int`. -/
def toUnsigned (i : Int) : Nat := (i % 4294967296).toNat

/-- Conversion of an `unsigned int` to `int` (two's complement). -/
def toInt32 (n : Nat) : Int :=
  if n % 4294967296 < 2147483648 then ((n % 4294967296 : Nat) : Int)
  else ((n % 4294967296 : Nat) : Int) - 4294967296

/-! ## Types -/

/-- The `struct rect_t` of the source: four `int` fields. -/
structure rect_t where
  x : Int
  y : Int
  width : Int
  height : Int
deriving DecidableEq, Repr, Inhabited

/-- A decoded bitmap, as far as the packer looks at it: the values returned by
`FreeImage_GetWidth` and `FreeImage_GetHeight`. -/
structure FIBITMAP where
  width : Nat
  height : Nat
deriving DecidableEq, Repr, Inhabited

/-- The `struct texture_t` of the source. -/
structure texture_t where
  filename : String
  dib : FIBITMAP
  pixel_size : Int
  dest : rect_t
deriving DecidableEq, Repr, Inhabited

/-- Array read `textures[i]`. -/
def tex (textures : List texture_t) (i : Nat) : texture_t :=
  textures.getD i default

/-! ## `rect_overlaps` (lines 494-504) -/

/-- Addition of two `int` values in 32 bits: the sum wraps in two's complement,
as it does in the compiled program. -/
def add32 (a b : Int) : Int := toInt32 (toUnsigned (a + b))

/-- The function `rect_overlaps`; the four sums are `int` additions. -/
def rect_overlaps (first second : rect_t) : Bool :=
  if first.x > add32 second.x second.width ∨ second.x > add32 first.x first.width ∨
     first.y > add32 second.y second.height ∨ second.y > add32 first.y first.height then
    false
  else
    true

/-- The right and the bottom edge of the rectangle, `x + width` and
`y + height`, are values of an `int`. -/
def edges_fit (r : rect_t) : Prop :=
  -2147483648 ≤ r.x + r.width ∧ r.x + r.width < 2147483648 ∧
  -2147483648 ≤ r.y + r.height ∧ r.y + r.height < 2147483648

/-! ## `sort_textures` (lines 435-457) -/

/-- Inner loop of `sort_textures` (lines 444-450): `n` indices remain to be
visited, `y` is the loop variable and `min` the index selected so far. -/
def sort_select (textures : List texture_t) : Nat → Nat → Nat → Nat
  | 0, _, min => min
  | n + 1, y, min =>
    if (tex textures min).pixel_size < (tex textures y).pixel_size then
      sort_select textures n (y + 1) y
    else
      sort_select textures n (y + 1) min

/-- Outer loop of `sort_textures` (lines 439-456): `n` values of `x` remain. -/
def sort_loop (count : Nat) : Nat → Nat → List texture_t → List texture_t
  | 0, _, textures => textures
  | n + 1, x, textures =>
    let min := sort_select textures (count - x) x x
    let temp := tex textures x
    let textures := textures.set x (tex textures min)
    let textures := textures.set min temp
    sort_loop count n (x + 1) textures

/-- The function `sort_textures`. -/
def sort_textures (textures : List texture_t) (count : Nat) : List texture_t :=
  sort_loop count count 0 textures

/-! ## Validation loop of `main` (lines 200-221) -/

/-- Body of the validation loop for one record: `none` is the `goto cleanup`. -/
def validate_one (max_width max_height : Nat) (t : texture_t) : Option texture_t :=
  let texture_width := t.dib.width
  let texture_height := t.dib.height
  if texture_width > max_width ∨ texture_height > max_height then
    none
  else
    some { t with
      dest := { t.dest with width := toInt32 texture_width, height := toInt32 texture_height }
      pixel_size := toInt32 ((texture_width * texture_height) % 4294967296) }

/-- The validation loop over the whole array (lines 200-221). -/
def validate (max_width max_height : Nat) : List texture_t → Option (List texture_t)
  | [] => some []
  | t :: rest =>
    match validate_one max_width max_height t with
    | none => none
    | some t' =>
      match validate max_width max_height rest with
      | none => none
      | some rest' => some (t' :: rest')

/-! ## Placement attempt of `main` (lines 249-303) -/

/-- Lines 250-254: every record's `dest.x` and `dest.y` are set to 0. -/
def reset_xy (textures : List texture_t) : List texture_t :=
  textures.map (fun t => { t with dest := { t.dest with x := 0, y := 0 } })

/-- Lines 276-277: the candidate position is written into the record. -/
def set_xy (textures : List texture_t) (current_texture x y : Nat) : List texture_t :=
  let t := tex textures current_texture
  textures.set current_texture { t with dest := { t.dest with x := toInt32 x, y := toInt32 y } }

/-- Lines 280-288: the overlap loop, over every index below `current_texture`. -/
def overlap_any (textures : List texture_t) (current_texture : Nat) : Bool :=
  (List.range current_texture).any
    (fun i => rect_overlaps (tex textures current_texture).dest (tex textures i).dest)

/-- Lines 269-294: the loop over `x`; `n` values of `x` remain below
`current_width`.  The boolean is `fitted`. -/
def scan_x (current_texture current_width y : Nat) :
    Nat → Nat → List texture_t → List texture_t × Bool
  | 0, _, textures => (textures, false)
  | n + 1, x, textures =>
    if (x + toUnsigned (tex textures current_texture).dest.width) % 4294967296 > current_width then
      (textures, false)
    else
      let textures := set_xy textures current_texture x y
      if overlap_any textures current_texture then
        scan_x current_texture current_width y n (x + 1) textures
      else
        (textures, true)

/-- Lines 263-295: the loop over scanlines; `n` values of `y` remain below
`current_height`. -/
def scan_y (current_texture current_width current_height : Nat) :
    Nat → Nat → List texture_t → List texture_t × Bool
  | 0, _, textures => (textures, false)
  | n + 1, y, textures =>
    if (y + toUnsigned (tex textures current_texture).dest.height) % 4294967296
        > current_height then
      (textures, false)
    else
      match scan_x current_texture current_width y current_width 0 textures with
      | (textures, true) => (textures, true)
      | (textures, false) =>
        scan_y current_texture current_width current_height n (y + 1) textures

/-- Result of one placement attempt: the array, the value of `current_texture`
on exit of the fit loop and the flag `success`. -/
structure fit_result where
  textures : List texture_t
  current_texture : Nat
  success : Bool
deriving DecidableEq, Repr

/-- Lines 258-303: the fit loop; `n` records remain from `current_texture`. -/
def fit_loop (current_width current_height : Nat) :
    Nat → Nat → List texture_t → fit_result
  | 0, current_texture, textures => ⟨textures, current_texture, true⟩
  | n + 1, current_texture, textures =>
    match scan_y current_texture current_width current_height current_height 0 textures with
    | (textures, true) => fit_loop current_width current_height n (current_texture + 1) textures
    | (textures, false) => ⟨textures, current_texture, false⟩

/-- Lines 249-303: one placement attempt at `current_width` x `current_height`
for the records from `start_texture` on. -/
def fit (textures : List texture_t) (start_texture current_width current_height : Nat) :
    fit_result :=
  fit_loop current_width current_height (textures.length - start_texture) start_texture
    (reset_xy textures)

/-! ## Dimension loops of `main` (lines 227-316) -/

/-- The four bounds read from the command line (lines 46-49, 88-105). -/
structure bounds where
  min_width : Nat
  min_height : Nat
  max_width : Nat
  max_height : Nat
deriving DecidableEq, Repr

/-- The variables of `main` that the page loop reads and writes. -/
structure state where
  textures : List texture_t
  atlas_count : Nat
  current_texture : Nat
  start_texture : Nat
  generated : Bool
  output_width : Nat
  output_height : Nat
deriving DecidableEq, Repr

/-- Lines 235-310: the loop over `current_width`.  `none` means that `fuel`
iterations did not end the loop. -/
def width_loop (b : bounds) (current_height : Nat) : Nat → Nat → state → Option state
  | fuel, current_width, s =>
    if current_width ≤ b.max_width ∧ s.generated = false then
      match fuel with
      | 0 => none
      | fuel + 1 =>
        let current_width := if current_width > b.max_width then b.max_width else current_width
        let r := fit s.textures s.start_texture current_width current_height
        let s := { s with output_width := current_width, textures := r.textures,
                          current_texture := r.current_texture }
        if r.success then
          some { s with generated := true }
        else
          width_loop b current_height fuel ((current_width * 2) % 4294967296) s
    else
      some s

/-- Lines 228-316: the loop over `current_height`; `width_fuel` bounds each run
of the inner loop.  `none` means that the fuel did not end the loops. -/
def height_loop (b : bounds) (width_fuel : Nat) : Nat → Nat → state → Option state
  | fuel, current_height, s =>
    if current_height ≤ b.max_height ∧ s.generated = false then
      match fuel with
      | 0 => none
      | fuel + 1 =>
        let current_height :=
          if current_height > b.max_height then b.max_height else current_height
        let s := { s with output_height := current_height }
        match width_loop b current_height width_fuel b.min_width s with
        | none => none
        | some s =>
          if s.generated then
            some s
          else
            height_loop b width_fuel fuel ((current_height * 2) % 4294967296) s
    else
      some s

/-! ## `save_atlas` (lines 459-492) and the page loop of `main` (lines 188-372) -/

/-- One line of the manifest, which is also one `FreeImage_Paste`. -/
structure manifest_line where
  filename : String
  x : Int
  y : Int
deriving DecidableEq, Repr

/-- The loop of `save_atlas` (lines 472-476): the records written and pasted.
The codec calls are taken to succeed. -/
def save_atlas (textures : List texture_t) (count : Int) : List manifest_line :=
  (List.range count.toNat).map
    (fun i => ⟨(tex textures i).filename, (tex textures i).dest.x, (tex textures i).dest.y⟩)

/-- Record of one page iteration at its `save_atlas` call (lines 354-355): the
variables of `main` at that point, the `count` argument and what was written. -/
structure page where
  atlas_count : Nat
  output_width : Nat
  output_height : Nat
  textures : List texture_t
  start_texture : Nat
  current_texture : Nat
  count : Int
  written : List manifest_line
deriving DecidableEq, Repr

/-- Lines 322-368: the `save_atlas` call of a page iteration, made with the
array `textures + start_texture` and the count
`current_texture - 1 - start_texture`. -/
def save_page (s : state) : page :=
  let count : Int := (s.current_texture : Int) - 1 - (s.start_texture : Int)
  let written :=
    if s.atlas_count > 0 then save_atlas (s.textures.drop s.start_texture) count else []
  ⟨s.atlas_count, s.output_width, s.output_height, s.textures, s.start_texture,
   s.current_texture, count, written⟩

/-- How the page loop ended: the loop condition failed, the validation jumped
to `cleanup`, or the fuel ran out with the loop still running. -/
inductive outcome where
  | finished
  | aborted
  | running
deriving DecidableEq, Repr

/-- Lines 198-371: one iteration of the page loop.  `Except.error` carries the
way the run stops inside the iteration. -/
def page_iteration (b : bounds) (dim_fuel : Nat) (s : state) : Except outcome (page × state) :=
  let s := { s with start_texture := s.current_texture }
  match validate b.max_width b.max_height s.textures with
  | none => .error .aborted
  | some textures =>
    let s := { s with textures := sort_textures textures textures.length }
    match height_loop b dim_fuel dim_fuel b.min_height s with
    | none => .error .running
    | some s => .ok (save_page s, { s with atlas_count := s.atlas_count + 1 })

/-- Lines 191-372: the page loop, for at most `fuel` iterations. -/
def page_loop (b : bounds) (dim_fuel : Nat) : Nat → state → List page × outcome
  | fuel, s =>
    if s.current_texture < s.textures.length then
      match fuel with
      | 0 => ([], .running)
      | fuel + 1 =>
        match page_iteration b dim_fuel s with
        | .error o => ([], o)
        | .ok (p, s) =>
          let r := page_loop b dim_fuel fuel s
          (p :: r.1, r.2)
    else
      ([], .finished)

/-- Lines 184-190: the variables of `main` on entry of the page loop. -/
def initial_state (b : bounds) (textures : List texture_t) : state :=
  { textures := textures, atlas_count := 1, current_texture := 0, start_texture := 0,
    generated := false, output_width := b.max_width, output_height := b.max_height }

/-- The run of `main` from the loaded records on (lines 184-372). -/
def run (b : bounds) (dim_fuel fuel : Nat) (textures : List texture_t) : List page × outcome :=
  page_loop b dim_fuel fuel (initial_state b textures)

/-- A loaded record: `load_texture` (lines 391-425) sets the file name and the
bitmap only and does not initialise `pixel_size` and `dest`, which start at 0
here.  The validation writes `pixel_size` and the sizes, and a placement
attempt writes the positions, before the program reads them. -/
def loaded (filename : String) (width height : Nat) : texture_t :=
  { filename := filename, dib := ⟨width, height⟩, pixel_size := 0, dest := ⟨0, 0, 0, 0⟩ }

/-! ## Auxiliary definitions for the statements -/

/-- The value of a dimension variable after `k` executions of the step
`current_width *= 2` (or `current_height *= 2`) of the dimension loops. -/
def doubled : Nat → Nat → Nat
  | 0, w => w
  | k + 1, w => doubled k ((w * 2) % 4294967296)

/-- The variables of `main` after one placement attempt at `W` x `H` made from
the variables `s` with `generated` false (lines 244-309). -/
def after_fit (s : state) (W H : Nat) : state :=
  { s with
    output_width := W
    textures := (fit s.textures s.start_texture W H).textures
    current_texture := (fit s.textures s.start_texture W H).current_texture
    generated := (fit s.textures s.start_texture W H).success }

/-- The variables of `main` after the placement attempt at `W` x `H` made from
the variables `s` inside the loop over the heights (lines 233-309). -/
def attempt_state (s : state) (W H : Nat) : state :=
  after_fit { s with output_height := H } W H

/-- Every width of the row at height `H` was tried and failed: the widths
`min_width`, `2 min_width`, ... up to the first one above `max_width`. -/
def row_fails (b : bounds) (ts : List texture_t) (start H : Nat) : Prop :=
  ∃ k, (∀ i, i < k → doubled i b.min_width ≤ b.max_width ∧
          (fit ts start (doubled i b.min_width) H).success = false) ∧
       b.max_width < doubled k b.min_width

/-- Every record from `start` up to `c` overlaps none of the records before it. -/
def placed_clear (ts : List texture_t) (start c : Nat) : Prop :=
  ∀ j, start ≤ j → j < c → ∀ i, i < j → rect_overlaps (tex ts j).dest (tex ts i).dest = false

/-- The variables of `main` on entry of the dimension loops (line 227) of the
page iteration started from `s`, with `ts` the validated array. -/
def search_start (s : state) (ts : List texture_t) : state :=
  { s with start_texture := s.current_texture, textures := sort_textures ts ts.length }

/-- Every record from `start` up to `c` lies inside the canvas `W` x `H`. -/
def placed_inside (ts : List texture_t) (start c W H : Nat) : Prop :=
  ∀ j, start ≤ j → j < c →
    0 ≤ (tex ts j).dest.x ∧ 0 ≤ (tex ts j).dest.y ∧
    (tex ts j).dest.x + (tex ts j).dest.width ≤ (W : Int) ∧
    (tex ts j).dest.y + (tex ts j).dest.height ≤ (H : Int)

/-- The sizes stored in the records are non-negative `int` values. -/
def sized (ts : List texture_t) : Prop :=
  ∀ t ∈ ts, 0 ≤ t.dest.width ∧ t.dest.width < 2147483648 ∧
            0 ≤ t.dest.height ∧ t.dest.height < 2147483648

/-! ## Concrete inputs used in the evaluations -/

/-- Two records of one pixel each. -/
def two_tiles : List texture_t := [loaded "a" 1 1, loaded "b" 1 1]

/-- The page that `two_tiles` gives on a 4 x 4 canvas. -/
def two_tiles_page : page :=
  ⟨1, 4, 4, [⟨"a", ⟨1, 1⟩, 1, ⟨0, 0, 1, 1⟩⟩, ⟨"b", ⟨1, 1⟩, 1, ⟨2, 0, 1, 1⟩⟩], 0, 2, 1,
   [⟨"a", 0, 0⟩]⟩

/-- The variables of `main` after a page iteration of `two_tiles` on a 1 x 1
canvas, with `atlas_count` equal to `k` and `start_texture` equal to `st`. -/
def second_tile_left (k st : Nat) : state :=
  ⟨[⟨"a", ⟨1, 1⟩, 1, ⟨0, 0, 1, 1⟩⟩, ⟨"b", ⟨1, 1⟩, 1, ⟨0, 0, 1, 1⟩⟩], k, 1, st, false, 1, 1⟩

/-- Two validated records of equal `pixel_size` followed by a larger one. -/
def tie_then_larger : List texture_t :=
  [⟨"a", ⟨200, 100⟩, 20000, ⟨0, 0, 200, 100⟩⟩, ⟨"b", ⟨100, 200⟩, 20000, ⟨0, 0, 100, 200⟩⟩,
   ⟨"c", ⟨300, 300⟩, 90000, ⟨0, 0, 300, 300⟩⟩]

/-- A validated array in which a larger record comes first and two records of
equal `pixel_size` follow. -/
def larger_then_tie : List texture_t :=
  [⟨"c", ⟨300, 300⟩, 90000, ⟨0, 0, 300, 300⟩⟩, ⟨"a", ⟨200, 100⟩, 20000, ⟨0, 0, 200, 100⟩⟩,
   ⟨"b", ⟨100, 200⟩, 20000, ⟨0, 0, 100, 200⟩⟩]

/-- A validated array in which a larger record lies between two records of
equal `pixel_size` and a smaller one follows them. -/
def tie_around_larger : List texture_t :=
  [⟨"a", ⟨200, 100⟩, 20000, ⟨0, 0, 200, 100⟩⟩, ⟨"c", ⟨300, 300⟩, 90000, ⟨0, 0, 300, 300⟩⟩,
   ⟨"b", ⟨100, 200⟩, 20000, ⟨0, 0, 100, 200⟩⟩, ⟨"d", ⟨100, 100⟩, 10000, ⟨0, 0, 100, 100⟩⟩]

/-- The variables of `main` on entry of the dimension loops for one validated
record of 2 x 2 pixels and the bounds 1, 1, 4, 4. -/
def one_square : state :=
  initial_state ⟨1, 1, 4, 4⟩ [⟨"a", ⟨2, 2⟩, 4, ⟨0, 0, 2, 2⟩⟩]

/-! ## Command line and output names of `main` (lines 88-105, 321-352) -/

/-- Lines 88-105: the bounds after the optional arguments, given `argc` and the
values `atoi` returns for `argv[3]` .. `argv[6]`.  `none` is the `return 0`
after "Invalid minimum dimensions". -/
def parse_bounds (argc : Nat) (a3 a4 a5 a6 : Int) : Option bounds :=
  let b : bounds := ⟨256, 256, 1024, 1024⟩
  if argc > 4 then
    let b := { b with max_width := toUnsigned a3, max_height := toUnsigned a4 }
    if argc > 6 then
      let b := { b with min_width := toUnsigned a5, min_height := toUnsigned a6 }
      if b.min_width ≤ 0 ∨ b.min_height ≤ 0 then none else some b
    else
      some b
  else
    some b

/-- The call `_itoa(atlas_count, atlas_count_str, 10)` for a positive count:
the decimal digits. -/
def itoa (atlas_count : Nat) : List Char := Nat.toDigits 10 atlas_count

/-- The call `strstr(s, ".")` on a C string: the part of `s` from its first
dot on, `none` (a null pointer) when `s` has no dot. -/
def strstr_dot : List Char → Option (List Char)
  | [] => none
  | c :: cs => if c = '.' then some (c :: cs) else strstr_dot cs

/-- The call `strcpy(strstr(base_filename, "."), src)`: `base_filename` is
overwritten with `src` from its first dot on; `none` when there is no dot. -/
def strcpy_at_dot : List Char → List Char → Option (List Char)
  | [], _ => none
  | c :: cs, src =>
    if c = '.' then some src
    else
      match strcpy_at_dot cs src with
      | none => none
      | some r => some (c :: r)

/-- Lines 322-352: the image file name and the manifest file name of the page
`atlas_count`.  `none` when the names are not built (`atlas_count` is 0) or a
`strstr` returns the null pointer. -/
def page_file_names (output_name : List Char) (atlas_count : Nat) :
    Option (List Char × List Char) :=
  if atlas_count > 0 then
    let atlas_count_str := itoa atlas_count
    match strcpy_at_dot output_name atlas_count_str with
    | none => none
    | some base_filename =>
      match strstr_dot output_name with
      | none => none
      | some extension =>
        some (base_filename ++ extension, base_filename ++ ['.', 't', 'x', 't'])
  else
    none

/-- The placement attempt run on the records from `start_texture` on alone: the
attempt of the source made on that part of the array with start index 0. -/
def fit_suffix (textures : List texture_t) (start_texture current_width current_height : Nat) :
    fit_result :=
  fit (textures.drop start_texture) 0 current_width current_height

/-! ## Further auxiliary definitions for the statements -/

/-- The variables of `main` at the head of the page loop (line 191) each time
the loop condition holds, in the order in which `page_loop` meets them. -/
def iteration_heads (b : bounds) (dim_fuel : Nat) : Nat → state → List state
  | fuel, s =>
    if s.current_texture < s.textures.length then
      match fuel with
      | 0 => [s]
      | fuel + 1 =>
        match page_iteration b dim_fuel s with
        | .error _ => [s]
        | .ok (_, s') => s :: iteration_heads b dim_fuel fuel s'
    else
      []

/-! ## Further concrete inputs -/

/-- Two rectangles that share the boundary line `x = 10`. -/
def left_tile : rect_t := ⟨0, 0, 10, 10⟩

/-- The right neighbour of `left_tile`. -/
def right_tile : rect_t := ⟨10, 0, 5, 10⟩

/-- A rectangle whose right edge is the largest `int`. -/
def wide_tile : rect_t := ⟨0, 0, 2147483647, 1⟩

/-- A rectangle that starts on the right edge of `wide_tile`. -/
def far_tile : rect_t := ⟨2147483647, 0, 1, 1⟩

/-! ## Auxiliary definitions for the scan loops -/

/-- The value of `overlap` after lines 276-288 for the candidate position
`(x, y)` of the record `c`: the candidate overlaps a record below `c`. -/
def clash (ts : List texture_t) (c x y : Nat) : Bool :=
  overlap_any (set_xy ts c x y) c

/-- The array `ts0` is `ts` up to the position written into the record `c`. -/
def same_scan (c : Nat) (ts ts0 : List texture_t) : Prop :=
  ts0 = ts ∨ ∃ x y, ts0 = set_xy ts c x y

/-- The record `j` of the array `F` sits at the first candidate position of the
canvas `W` x `H`, in row-major order, that clashes with no record below it. -/
def first_fit (F : List texture_t) (j W H : Nat) : Prop :=
  ∃ X Y : Nat, (tex F j).dest.x = (X : Int) ∧ (tex F j).dest.y = (Y : Int) ∧ X < W ∧ Y < H ∧
    (X : Int) + (tex F j).dest.width ≤ W ∧ (Y : Int) + (tex F j).dest.height ≤ H ∧
    clash F j X Y = false ∧
    (∀ x', x' < X → clash F j x' Y = true) ∧
    (∀ y' x', y' < Y → x' < W → (x' : Int) + (tex F j).dest.width ≤ W →
      clash F j x' y' = true)

/-! ## Scenario A -/

/-- The three loaded records of Scenario A, with arbitrary file names. -/
def scenario_a (na nb nc : String) : List texture_t :=
  [loaded na 300 300, loaded nb 200 200, loaded nc 100 100]

/-- The records of Scenario A after the validation and `sort_textures`. -/
def scenario_a_sorted (na nb nc : String) : List texture_t :=
  [⟨na, ⟨300, 300⟩, 90000, ⟨0, 0, 300, 300⟩⟩, ⟨nb, ⟨200, 200⟩, 40000, ⟨0, 0, 200, 200⟩⟩,
   ⟨nc, ⟨100, 100⟩, 10000, ⟨0, 0, 100, 100⟩⟩]

/-- The records of Scenario A as placed on the 512 x 512 canvas. -/
def scenario_a_placed (na nb nc : String) : List texture_t :=
  [⟨na, ⟨300, 300⟩, 90000, ⟨0, 0, 300, 300⟩⟩, ⟨nb, ⟨200, 200⟩, 40000, ⟨301, 0, 200, 200⟩⟩,
   ⟨nc, ⟨100, 100⟩, 10000, ⟨301, 201, 100, 100⟩⟩]

/-- The page of Scenario A at its `save_atlas` call. -/
def scenario_a_page (na nb nc : String) : page :=
  ⟨1, 512, 512, scenario_a_placed na nb nc, 0, 3, 2, [⟨na, 0, 0⟩, ⟨nb, 301, 0⟩]⟩

/-- The default bounds of `main` (lines 46-49). -/
def default_bounds : bounds := ⟨256, 256, 1024, 1024⟩

/-- The value of `output_height` after the loop over the heights when no row
makes an attempt: the last height within the bound, `oh` when there is none. -/
def last_height (max_height : Nat) : Nat → Nat → Nat → Nat
  | 0, _, oh => oh
  | fuel + 1, h, oh =>
    if h ≤ max_height then last_height max_height fuel ((h * 2) % 4294967296) h else oh

/-- Bounds with a minimum width above the maximum width. -/
def narrow_bounds : bounds := ⟨256, 256, 100, 1000⟩

/-- Three loaded records of one pixel each. -/
def three_tiles : List texture_t := [loaded "a" 1 1, loaded "b" 1 1, loaded "c" 1 1]

/-- The variables of `main` at the head of the second page iteration of
`three_tiles` with the bounds 4, 1, 4, 1: `a` and `b` are on page 1. -/
def three_tiles_second : state :=
  ⟨[⟨"a", ⟨1, 1⟩, 1, ⟨0, 0, 1, 1⟩⟩, ⟨"b", ⟨1, 1⟩, 1, ⟨2, 0, 1, 1⟩⟩,
    ⟨"c", ⟨1, 1⟩, 1, ⟨3, 0, 1, 1⟩⟩], 2, 2, 0, false, 4, 1⟩

/-- Three loaded records, the largest one in the middle. -/
def mixed_tiles : List texture_t := [loaded "c" 1 1, loaded "a" 2 1, loaded "b" 1 1]

/-- The variables of `main` at the head of the second page iteration of
`mixed_tiles` with the bounds 5, 1, 5, 1: `a` and `c` are on page 1. -/
def mixed_tiles_second : state :=
  ⟨[⟨"a", ⟨2, 1⟩, 2, ⟨0, 0, 2, 1⟩⟩, ⟨"c", ⟨1, 1⟩, 1, ⟨3, 0, 1, 1⟩⟩,
    ⟨"b", ⟨1, 1⟩, 1, ⟨4, 0, 1, 1⟩⟩], 2, 2, 0, false, 5, 1⟩

/-- Two validated records of one pixel each. -/
def two_tiles_valid : List texture_t :=
  [⟨"a", ⟨1, 1⟩, 1, ⟨0, 0, 1, 1⟩⟩, ⟨"b", ⟨1, 1⟩, 1, ⟨0, 0, 1, 1⟩⟩]

/-! ## Array reads and writes -/

theorem tex_set_ne (l : List texture_t) (i k : Nat) (v : texture_t) (h : k ≠ i) :
    tex (l.set i v) k = tex l k := by
  unfold tex
  rw [List.getD_eq_getElem?_getD, List.getD_eq_getElem?_getD, List.getElem?_set]
  have h' : ¬ i = k := fun e => h e.symm
  simp [h']

theorem tex_set_eq (l : List texture_t) (i : Nat) (v : texture_t) (h : i < l.length) :
    tex (l.set i v) i = v := by
  unfold tex
  rw [List.getD_eq_getElem?_getD, List.getElem?_set]
  simp [h]

theorem tex_of_le (l : List texture_t) (i : Nat) (h : l.length ≤ i) : tex l i = default := by
  unfold tex
  rw [List.getD_eq_getElem?_getD, List.getElem?_eq_none h]
  rfl

theorem tex_eq_getElem (l : List texture_t) (i : Nat) (h : i < l.length) : tex l i = l[i] := by
  simp [tex, List.getElem?_eq_getElem h]

theorem rect_overlaps_comm (a b : rect_t) : rect_overlaps a b = rect_overlaps b a := by
  unfold rect_overlaps
  by_cases h : a.x > add32 b.x b.width ∨ b.x > add32 a.x a.width ∨
      a.y > add32 b.y b.height ∨ b.y > add32 a.y a.height
  · have h' : b.x > add32 a.x a.width ∨ a.x > add32 b.x b.width ∨
        b.y > add32 a.y a.height ∨ a.y > add32 b.y b.height := by tauto
    rw [if_pos h, if_pos h']
  · have h' : ¬ (b.x > add32 a.x a.width ∨ a.x > add32 b.x b.width ∨
        b.y > add32 a.y a.height ∨ a.y > add32 b.y b.height) := by tauto
    rw [if_neg h, if_neg h']

/-! ## Frame of the scan loops: only `textures[current_texture]` is written -/

theorem set_xy_length (ts : List texture_t) (c x y : Nat) : (set_xy ts c x y).length = ts.length := by
  simp [set_xy]

theorem set_xy_ne (ts : List texture_t) (c x y k : Nat) (h : k ≠ c) :
    tex (set_xy ts c x y) k = tex ts k := by
  simp only [set_xy]
  exact tex_set_ne _ _ _ _ h

theorem scan_x_length (c W y : Nat) : ∀ (n x : Nat) (ts : List texture_t),
    (scan_x c W y n x ts).1.length = ts.length := by
  intro n
  induction n with
  | zero => intro x ts; rfl
  | succ n ih =>
    intro x ts
    simp only [scan_x]
    split
    · rfl
    · split
      · rw [ih, set_xy_length]
      · exact set_xy_length _ _ _ _

theorem scan_x_ne (c W y k : Nat) (h : k ≠ c) : ∀ (n x : Nat) (ts : List texture_t),
    tex (scan_x c W y n x ts).1 k = tex ts k := by
  intro n
  induction n with
  | zero => intro x ts; rfl
  | succ n ih =>
    intro x ts
    simp only [scan_x]
    split
    · rfl
    · split
      · rw [ih, set_xy_ne _ _ _ _ _ h]
      · exact set_xy_ne _ _ _ _ _ h

theorem scan_x_fitted (c W y : Nat) : ∀ (n x : Nat) (ts : List texture_t),
    (scan_x c W y n x ts).2 = true → overlap_any (scan_x c W y n x ts).1 c = false := by
  intro n
  induction n with
  | zero => intro x ts h; simp [scan_x] at h
  | succ n ih =>
    intro x ts
    simp only [scan_x]
    split
    · intro h; simp at h
    · split
      · exact ih _ _
      · rename_i h; intro _; simpa using h

theorem scan_y_length (c W H : Nat) : ∀ (n y : Nat) (ts : List texture_t),
    (scan_y c W H n y ts).1.length = ts.length := by
  intro n
  induction n with
  | zero => intro y ts; rfl
  | succ n ih =>
    intro y ts
    simp only [scan_y]
    split
    · rfl
    · have hl := scan_x_length c W y W 0 ts
      split
      · rename_i e; rw [e] at hl; exact hl
      · rename_i e; rw [e] at hl; rw [ih]; exact hl

theorem scan_y_ne (c W H k : Nat) (h : k ≠ c) : ∀ (n y : Nat) (ts : List texture_t),
    tex (scan_y c W H n y ts).1 k = tex ts k := by
  intro n
  induction n with
  | zero => intro y ts; rfl
  | succ n ih =>
    intro y ts
    simp only [scan_y]
    split
    · rfl
    · have hl := scan_x_ne c W y k h W 0 ts
      split
      · rename_i e; rw [e] at hl; exact hl
      · rename_i e; rw [e] at hl; rw [ih]; exact hl

theorem scan_y_fitted (c W H : Nat) : ∀ (n y : Nat) (ts : List texture_t),
    (scan_y c W H n y ts).2 = true → overlap_any (scan_y c W H n y ts).1 c = false := by
  intro n
  induction n with
  | zero => intro y ts h; simp [scan_y] at h
  | succ n ih =>
    intro y ts
    simp only [scan_y]
    split
    · intro h; simp at h
    · have hl := scan_x_fitted c W y W 0 ts
      split
      · rename_i e; rw [e] at hl; intro _; exact hl rfl
      · exact ih _ _

/-! ## The placement attempt only writes `dest.x` and `dest.y` -/

theorem map_set_self (f : texture_t → texture_t) (ts : List texture_t) (c : Nat) (v : texture_t)
    (h : f v = f (tex ts c)) : (ts.set c v).map f = ts.map f := by
  rw [List.map_set]
  apply List.ext_getElem?
  intro n
  rw [List.getElem?_set]
  by_cases hc : c = n
  · subst hc
    rw [if_pos rfl]
    by_cases hl : c < ts.length
    · have hl' : c < (List.map f ts).length := by simpa using hl
      rw [if_pos hl', List.getElem?_map, List.getElem?_eq_getElem hl, h]
      simp [tex, List.getElem?_eq_getElem hl]
    · have hl' : ¬ c < (List.map f ts).length := by simpa using hl
      rw [if_neg hl', List.getElem?_map, List.getElem?_eq_none (by omega)]
      rfl
  · rw [if_neg hc]

theorem reset_xy_set_xy (ts : List texture_t) (c x y : Nat) :
    reset_xy (set_xy ts c x y) = reset_xy ts := by
  unfold reset_xy set_xy
  exact map_set_self _ _ _ _ rfl

theorem reset_xy_idem (ts : List texture_t) : reset_xy (reset_xy ts) = reset_xy ts := by
  unfold reset_xy
  rw [List.map_map]
  rfl

theorem reset_xy_length (ts : List texture_t) : (reset_xy ts).length = ts.length := by
  simp [reset_xy]

theorem scan_x_reset (c W y : Nat) : ∀ (n x : Nat) (ts : List texture_t),
    reset_xy (scan_x c W y n x ts).1 = reset_xy ts := by
  intro n
  induction n with
  | zero => intro x ts; rfl
  | succ n ih =>
    intro x ts
    simp only [scan_x]
    split
    · rfl
    · split
      · rw [ih, reset_xy_set_xy]
      · exact reset_xy_set_xy _ _ _ _

theorem scan_y_reset (c W H : Nat) : ∀ (n y : Nat) (ts : List texture_t),
    reset_xy (scan_y c W H n y ts).1 = reset_xy ts := by
  intro n
  induction n with
  | zero => intro y ts; rfl
  | succ n ih =>
    intro y ts
    simp only [scan_y]
    split
    · rfl
    · have hl := scan_x_reset c W y W 0 ts
      split
      · rename_i e; rw [e] at hl; exact hl
      · rename_i e; rw [e] at hl; rw [ih]; exact hl

theorem fit_loop_reset (W H : Nat) : ∀ (n c : Nat) (ts : List texture_t),
    reset_xy (fit_loop W H n c ts).textures = reset_xy ts := by
  intro n
  induction n with
  | zero => intro c ts; rfl
  | succ n ih =>
    intro c ts
    simp only [fit_loop]
    have hl := scan_y_reset c W H H 0 ts
    split
    · rename_i e; rw [e] at hl; rw [ih]; exact hl
    · rename_i e; rw [e] at hl; exact hl

theorem fit_loop_length (W H : Nat) : ∀ (n c : Nat) (ts : List texture_t),
    (fit_loop W H n c ts).textures.length = ts.length := by
  intro n c ts
  have h := congrArg List.length (fit_loop_reset W H n c ts)
  simpa [reset_xy_length] using h

theorem fit_reset (ts : List texture_t) (st W H : Nat) :
    reset_xy (fit ts st W H).textures = reset_xy ts := by
  unfold fit
  rw [fit_loop_reset, reset_xy_idem]

theorem fit_length (ts : List texture_t) (st W H : Nat) :
    (fit ts st W H).textures.length = ts.length := by
  have h := congrArg List.length (fit_reset ts st W H)
  simpa [reset_xy_length] using h

theorem fit_congr (ts ts' : List texture_t) (st W H : Nat) (h : reset_xy ts = reset_xy ts') :
    fit ts st W H = fit ts' st W H := by
  have hl : ts.length = ts'.length := by
    have := congrArg List.length h
    simpa [reset_xy_length] using this
  unfold fit
  rw [h, hl]

/-- The attempt made from the array an earlier attempt left behind is the
attempt made from the original array. -/
theorem fit_after_fit (ts : List texture_t) (st W H W' H' : Nat) :
    fit (fit ts st W H).textures st W' H' = fit ts st W' H' :=
  fit_congr _ _ _ _ _ (fit_reset ts st W H)

/-! ## What the fit loop establishes for the records it places -/

theorem overlap_any_false (ts : List texture_t) (c : Nat) (h : overlap_any ts c = false)
    (i : Nat) (hi : i < c) : rect_overlaps (tex ts c).dest (tex ts i).dest = false := by
  unfold overlap_any at h
  rw [List.any_eq_false] at h
  have := h i (List.mem_range.mpr hi)
  simpa using this

theorem fit_loop_clear (W H start : Nat) : ∀ (n c : Nat) (ts : List texture_t),
    placed_clear ts start c →
    placed_clear (fit_loop W H n c ts).textures start (fit_loop W H n c ts).current_texture := by
  intro n
  induction n with
  | zero => intro c ts h; exact h
  | succ n ih =>
    intro c ts h
    simp only [fit_loop]
    have hne := fun k (hk : k ≠ c) => scan_y_ne c W H k hk H 0 ts
    have hfit := scan_y_fitted c W H H 0 ts
    split
    · rename_i ts' e
      rw [e] at hne hfit
      apply ih
      intro j hsj hj i hij
      by_cases hjc : j = c
      · subst hjc
        exact overlap_any_false _ _ (hfit rfl) i hij
      · have hj' : j < c := by omega
        rw [hne j hjc, hne i (by omega)]
        exact h j hsj hj' i hij
    · rename_i ts' e
      rw [e] at hne
      intro j hsj hj i hij
      have hj : j < c := hj
      rw [hne j (by omega), hne i (by omega)]
      exact h j hsj hj i hij

theorem fit_clear (ts : List texture_t) (start W H : Nat) :
    placed_clear (fit ts start W H).textures start (fit ts start W H).current_texture := by
  unfold fit
  apply fit_loop_clear
  intro j hsj hj
  omega

/-! ## Machine integers in range -/

theorem toInt32_small (n : Nat) (h : n < 2147483648) : toInt32 n = (n : Int) := by
  unfold toInt32
  have h1 : n % 4294967296 = n := Nat.mod_eq_of_lt (by omega)
  rw [h1, if_pos h]

theorem toUnsigned_small (i : Int) (h0 : 0 ≤ i) (h1 : i < 2147483648) :
    ((toUnsigned i : Nat) : Int) = i := by
  unfold toUnsigned
  have : i % 4294967296 = i := Int.emod_eq_of_lt h0 (by omega)
  rw [this, Int.toNat_of_nonneg h0]

/-! ## The placed records lie inside the canvas -/

theorem set_xy_eq (ts : List texture_t) (c x y : Nat) (h : c < ts.length) :
    tex (set_xy ts c x y) c =
      { tex ts c with dest := { (tex ts c).dest with x := toInt32 x, y := toInt32 y } } := by
  simp only [set_xy]
  exact tex_set_eq _ _ _ h

theorem scan_x_inside (c W y : Nat) (hW : W < 2147483648) :
    ∀ (n x : Nat) (ts : List texture_t), x + n ≤ W → c < ts.length →
    0 ≤ (tex ts c).dest.width → (tex ts c).dest.width < 2147483648 →
    (scan_x c W y n x ts).2 = true →
    0 ≤ (tex (scan_x c W y n x ts).1 c).dest.x ∧
    (tex (scan_x c W y n x ts).1 c).dest.x + (tex ts c).dest.width ≤ (W : Int) ∧
    (tex (scan_x c W y n x ts).1 c).dest.y = toInt32 y := by
  intro n
  induction n with
  | zero => intro x ts _ _ _ _ h; simp [scan_x] at h
  | succ n ih =>
    intro x ts hx hc hw0 hw1
    simp only [scan_x]
    split
    · intro h; simp at h
    · rename_i hchk
      have hset := set_xy_eq ts c x y hc
      split
      · intro h
        have hc' : c < (set_xy ts c x y).length := by rw [set_xy_length]; exact hc
        have hwid : (tex (set_xy ts c x y) c).dest.width = (tex ts c).dest.width := by
          rw [hset]
        have := ih (x + 1) (set_xy ts c x y) (by omega) hc' (by rw [hwid]; exact hw0)
          (by rw [hwid]; exact hw1) h
        rw [hwid] at this
        exact this
      · intro _
        have hu := toUnsigned_small _ hw0 hw1
        have hlt : x + toUnsigned (tex ts c).dest.width < 4294967296 := by omega
        rw [Nat.mod_eq_of_lt hlt] at hchk
        rw [hset]
        simp only
        rw [toInt32_small x (by omega)]
        refine ⟨by omega, by omega, trivial⟩

theorem scan_y_inside (c W H : Nat) (hW : W < 2147483648) (hH : H < 2147483648) :
    ∀ (n y : Nat) (ts : List texture_t), y + n ≤ H → c < ts.length →
    0 ≤ (tex ts c).dest.width → (tex ts c).dest.width < 2147483648 →
    0 ≤ (tex ts c).dest.height → (tex ts c).dest.height < 2147483648 →
    (scan_y c W H n y ts).2 = true →
    0 ≤ (tex (scan_y c W H n y ts).1 c).dest.x ∧
    0 ≤ (tex (scan_y c W H n y ts).1 c).dest.y ∧
    (tex (scan_y c W H n y ts).1 c).dest.x + (tex ts c).dest.width ≤ (W : Int) ∧
    (tex (scan_y c W H n y ts).1 c).dest.y + (tex ts c).dest.height ≤ (H : Int) := by
  intro n
  induction n with
  | zero => intro y ts _ _ _ _ _ _ h; simp [scan_y] at h
  | succ n ih =>
    intro y ts hy hc hw0 hw1 hh0 hh1
    simp only [scan_y]
    split
    · intro h; simp at h
    · rename_i hchk
      have hin := scan_x_inside c W y hW W 0 ts (by omega) hc hw0 hw1
      have hlen := scan_x_length c W y W 0 ts
      have hres := scan_x_reset c W y W 0 ts
      split
      · rename_i ts' e
        rw [e] at hin
        intro _
        obtain ⟨a1, a2, a3⟩ := hin rfl
        have hu := toUnsigned_small _ hh0 hh1
        have hlt : y + toUnsigned (tex ts c).dest.height < 4294967296 := by omega
        rw [Nat.mod_eq_of_lt hlt] at hchk
        simp only at a1 a2 a3 ⊢
        rw [a3, toInt32_small y (by omega)]
        refine ⟨a1, by omega, a2, by omega⟩
      · rename_i ts' e
        rw [e] at hlen hres
        simp only at hlen hres
        intro h
        have hsame : (tex ts' c).dest.width = (tex ts c).dest.width ∧
            (tex ts' c).dest.height = (tex ts c).dest.height := by
          have h1 : tex (reset_xy ts') c = tex (reset_xy ts) c := by rw [hres]
          have e1 : ∀ l : List texture_t, tex (reset_xy l) c
              = { tex l c with dest := { (tex l c).dest with x := 0, y := 0 } } := by
            intro l
            unfold tex reset_xy
            exact List.getD_map l default _
          rw [e1, e1] at h1
          have := congrArg (fun t => t.dest) h1
          simp only at this
          have hw := congrArg rect_t.width this
          have hh := congrArg rect_t.height this
          exact ⟨hw, hh⟩
        have := ih (y + 1) ts' (by omega) (by rw [hlen]; exact hc)
          (by rw [hsame.1]; exact hw0) (by rw [hsame.1]; exact hw1)
          (by rw [hsame.2]; exact hh0) (by rw [hsame.2]; exact hh1) h
        rw [hsame.1, hsame.2] at this
        exact this

theorem tex_mem_or_default (ts : List texture_t) (k : Nat) : tex ts k ∈ ts ∨ tex ts k = default := by
  by_cases h : k < ts.length
  · left; rw [tex_eq_getElem ts k h]; exact List.getElem_mem h
  · right; exact tex_of_le ts k (by omega)

theorem sized_tex (ts : List texture_t) (h : sized ts) (k : Nat) :
    0 ≤ (tex ts k).dest.width ∧ (tex ts k).dest.width < 2147483648 ∧
    0 ≤ (tex ts k).dest.height ∧ (tex ts k).dest.height < 2147483648 := by
  rcases tex_mem_or_default ts k with hm | hd
  · exact h _ hm
  · rw [hd]; decide

theorem tex_reset_xy (l : List texture_t) (k : Nat) :
    tex (reset_xy l) k = { tex l k with dest := { (tex l k).dest with x := 0, y := 0 } } := by
  unfold tex reset_xy
  exact List.getD_map l default _

/-- Arrays that agree after `reset_xy` hold the same sizes. -/
theorem size_of_reset_eq (ts ts' : List texture_t) (h : reset_xy ts' = reset_xy ts) (k : Nat) :
    (tex ts' k).dest.width = (tex ts k).dest.width ∧
    (tex ts' k).dest.height = (tex ts k).dest.height := by
  have h1 : tex (reset_xy ts') k = tex (reset_xy ts) k := by rw [h]
  rw [tex_reset_xy, tex_reset_xy] at h1
  have := congrArg (fun t => t.dest) h1
  simp only at this
  have hw := congrArg rect_t.width this
  have hh := congrArg rect_t.height this
  exact ⟨hw, hh⟩

theorem fit_loop_inside (W H start : Nat) (hW : W < 2147483648) (hH : H < 2147483648) :
    ∀ (n c : Nat) (ts : List texture_t), n ≤ ts.length - c →
    (∀ k, 0 ≤ (tex ts k).dest.width ∧ (tex ts k).dest.width < 2147483648 ∧
          0 ≤ (tex ts k).dest.height ∧ (tex ts k).dest.height < 2147483648) →
    placed_inside ts start c W H →
    placed_inside (fit_loop W H n c ts).textures start (fit_loop W H n c ts).current_texture W H := by
  intro n
  induction n with
  | zero => intro c ts _ _ h; exact h
  | succ n ih =>
    intro c ts hn hsz h
    simp only [fit_loop]
    have hc : c < ts.length := by omega
    have hne := fun k (hk : k ≠ c) => scan_y_ne c W H k hk H 0 ts
    have hlen := scan_y_length c W H H 0 ts
    have hres := scan_y_reset c W H H 0 ts
    obtain ⟨w0, w1, h0, h1⟩ := hsz c
    have hin := scan_y_inside c W H hW hH H 0 ts (by omega) hc w0 w1 h0 h1
    split
    · rename_i ts' e
      rw [e] at hne hlen hres hin
      simp only at hne hlen hres hin
      have hsame := size_of_reset_eq ts ts' hres
      apply ih (c + 1) ts' (by omega)
      · intro k
        rw [(hsame k).1, (hsame k).2]
        exact hsz k
      · intro j hsj hj
        by_cases hjc : j = c
        · subst hjc
          rw [(hsame j).1, (hsame j).2]
          exact hin trivial
        · rw [hne j hjc]
          exact h j hsj (by omega)
    · rename_i ts' e
      rw [e] at hne
      simp only at hne
      intro j hsj hj
      have hj : j < c := hj
      rw [hne j (by omega)]
      exact h j hsj hj

theorem fit_inside (ts : List texture_t) (start W H : Nat) (hW : W < 2147483648)
    (hH : H < 2147483648) (hsz : sized ts) :
    placed_inside (fit ts start W H).textures start (fit ts start W H).current_texture W H := by
  unfold fit
  apply fit_loop_inside W H start hW hH
  · rw [reset_xy_length]
  · intro k
    have := size_of_reset_eq ts (reset_xy ts) (reset_xy_idem ts) k
    rw [this.1, this.2]
    exact sized_tex ts hsz k
  · intro j hsj hj
    omega

/-! ## The validation loop -/

theorem validate_none_iff (mw mh : Nat) (ts : List texture_t) :
    validate mw mh ts = none ↔ ∃ t ∈ ts, t.dib.width > mw ∨ t.dib.height > mh := by
  induction ts with
  | nil => simp [validate]
  | cons t rest ih =>
    simp only [validate, validate_one]
    by_cases h : t.dib.width > mw ∨ t.dib.height > mh
    · rw [if_pos h]
      simp only [true_iff]
      exact ⟨t, List.mem_cons_self _ _, h⟩
    · rw [if_neg h]
      simp only
      cases hr : validate mw mh rest with
      | none =>
        simp only [true_iff]
        obtain ⟨t', ht', ho⟩ := ih.mp hr
        exact ⟨t', List.mem_cons_of_mem _ ht', ho⟩
      | some r =>
        simp only [reduceCtorEq, false_iff]
        rintro ⟨t', ht', ho⟩
        rcases List.mem_cons.mp ht' with e | e
        · subst e; exact h ho
        · have := ih.mpr ⟨t', e, ho⟩
          rw [hr] at this
          cases this

theorem validate_sized (mw mh : Nat) (hw : mw < 2147483648) (hh : mh < 2147483648) :
    ∀ (ts ts' : List texture_t), validate mw mh ts = some ts' → sized ts' := by
  intro ts
  induction ts with
  | nil =>
    intro ts' h
    simp only [validate] at h
    cases h
    intro t ht
    cases ht
  | cons t rest ih =>
    intro ts' h
    simp only [validate, validate_one] at h
    by_cases ho : t.dib.width > mw ∨ t.dib.height > mh
    · rw [if_pos ho] at h; cases h
    · rw [if_neg ho] at h
      simp only at h
      cases hr : validate mw mh rest with
      | none => rw [hr] at h; cases h
      | some r =>
        rw [hr] at h
        simp only at h
        cases h
        intro t' ht'
        rcases List.mem_cons.mp ht' with e | e
        · subst e
          simp only
          rw [toInt32_small _ (by omega), toInt32_small _ (by omega)]
          omega
        · exact ih r hr t' e

theorem sized_perm (ts ts' : List texture_t) (h : ts'.Perm ts) (hs : sized ts) : sized ts' :=
  fun t ht => hs t (h.mem_iff.mp ht)

/-! ## `sort_textures` -/

/-- Exchanging two entries of an array permutes it. -/
theorem swap_perm (l : List texture_t) (i j : Nat) (hi : i < l.length) (hj : j < l.length) :
    ((l.set i (tex l j)).set j (tex l i)).Perm l := by
  rw [List.perm_iff_count]
  intro a
  have hj' : j < (l.set i (tex l j)).length := by simpa using hj
  rw [List.count_set _ _ _ _ hj', List.count_set _ _ _ _ hi]
  have hget : (l.set i (tex l j))[j] = l[j] := by
    rw [List.getElem_set]
    split
    · exact tex_eq_getElem l j hj
    · rfl
  rw [hget, tex_eq_getElem l i hi, tex_eq_getElem l j hj]
  have hpos : (if (l[i] == a) = true then 1 else 0) ≤ List.count a l := by
    split
    · rename_i h
      have : l[i] = a := by simpa using h
      have hm : a ∈ l := this ▸ List.getElem_mem hi
      exact List.count_pos_iff.mpr hm
    · omega
  omega

theorem tex_swap (l : List texture_t) (i j k : Nat) (hi : i < l.length) (hj : j < l.length) :
    tex ((l.set i (tex l j)).set j (tex l i)) k =
      if k = j then tex l i else if k = i then tex l j else tex l k := by
  by_cases hkj : k = j
  · subst hkj
    rw [if_pos rfl, tex_set_eq _ _ _ (by simpa using hj)]
  · rw [if_neg hkj, tex_set_ne _ _ _ _ hkj]
    by_cases hki : k = i
    · subst hki
      rw [if_pos rfl, tex_set_eq _ _ _ hi]
    · rw [if_neg hki, tex_set_ne _ _ _ _ hki]

/-- The inner loop selects the first index of the largest `pixel_size` among
`min` and the indices visited. -/
theorem sort_select_spec (ts : List texture_t) : ∀ (n y min : Nat), min ≤ y →
    (sort_select ts n y min = min ∨ (y ≤ sort_select ts n y min ∧ sort_select ts n y min < y + n)) ∧
    (tex ts min).pixel_size ≤ (tex ts (sort_select ts n y min)).pixel_size ∧
    (∀ k, y ≤ k → k < y + n →
      (tex ts k).pixel_size ≤ (tex ts (sort_select ts n y min)).pixel_size) ∧
    (∀ k, y ≤ k → k < sort_select ts n y min →
      (tex ts k).pixel_size < (tex ts (sort_select ts n y min)).pixel_size) ∧
    (sort_select ts n y min ≠ min →
      (tex ts min).pixel_size < (tex ts (sort_select ts n y min)).pixel_size) := by
  intro n
  induction n with
  | zero =>
    intro y min hmin
    have e : sort_select ts 0 y min = min := rfl
    rw [e]
    refine ⟨Or.inl rfl, le_refl _, ?_, ?_, ?_⟩
    · intro k h1 h2; omega
    · intro k h1 h2; omega
    · intro h; exact absurd rfl h
  | succ n ih =>
    intro y min hmin
    simp only [sort_select]
    split
    · rename_i hlt
      obtain ⟨h1, h2, h3, h4, h5⟩ := ih (y + 1) y (by omega)
      refine ⟨Or.inr (by omega), by omega, ?_, ?_, ?_⟩
      · intro k hk1 hk2
        by_cases hky : k = y
        · subst hky; exact h2
        · exact h3 k (by omega) (by omega)
      · intro k hk1 hk2
        by_cases hky : k = y
        · subst hky; exact h5 (by omega)
        · exact h4 k (by omega) hk2
      · intro _; omega
    · rename_i hge
      obtain ⟨h1, h2, h3, h4, h5⟩ := ih (y + 1) min (by omega)
      refine ⟨by omega, h2, ?_, ?_, h5⟩
      · intro k hk1 hk2
        by_cases hky : k = y
        · subst hky; omega
        · exact h3 k (by omega) (by omega)
      · intro k hk1 hk2
        by_cases hky : k = y
        · subst hky
          have := h5 (by omega)
          omega
        · exact h4 k (by omega) hk2

/-- The selection made at position `x` of the outer loop. -/
theorem sort_select_top (ts : List texture_t) (count x : Nat) (hx : x < count) :
    x ≤ sort_select ts (count - x) x x ∧ sort_select ts (count - x) x x < count ∧
    (∀ k, x ≤ k → k < count →
      (tex ts k).pixel_size ≤ (tex ts (sort_select ts (count - x) x x)).pixel_size) ∧
    (∀ k, x ≤ k → k < sort_select ts (count - x) x x →
      (tex ts k).pixel_size < (tex ts (sort_select ts (count - x) x x)).pixel_size) := by
  obtain ⟨h1, _, h3, h4, _⟩ := sort_select_spec ts (count - x) x x (le_refl _)
  refine ⟨by omega, by omega, ?_, h4⟩
  intro k hk1 hk2
  exact h3 k hk1 (by omega)

theorem sort_loop_length (count : Nat) : ∀ (n x : Nat) (ts : List texture_t),
    (sort_loop count n x ts).length = ts.length := by
  intro n
  induction n with
  | zero => intro x ts; rfl
  | succ n ih => intro x ts; simp only [sort_loop]; rw [ih]; simp

theorem sort_loop_perm (count : Nat) : ∀ (n x : Nat) (ts : List texture_t),
    x + n ≤ count → count ≤ ts.length → (sort_loop count n x ts).Perm ts := by
  intro n
  induction n with
  | zero => intro x ts _ _; exact List.Perm.refl _
  | succ n ih =>
    intro x ts hx hc
    simp only [sort_loop]
    obtain ⟨h1, h2, _, _⟩ := sort_select_top ts count x (by omega)
    refine (ih (x + 1) _ (by omega) (by simpa using hc)).trans ?_
    exact swap_perm ts x _ (by omega) (by omega)

/-- Invariant of the outer loop: every entry below `x` is at least as large as
every entry after it. -/
theorem sort_loop_sorted (count : Nat) : ∀ (n x : Nat) (ts : List texture_t),
    x + n = count → count ≤ ts.length →
    (∀ i j, i < x → i < j → j < count → (tex ts j).pixel_size ≤ (tex ts i).pixel_size) →
    ∀ i j, i < j → j < count →
      (tex (sort_loop count n x ts) j).pixel_size ≤ (tex (sort_loop count n x ts) i).pixel_size := by
  intro n
  induction n with
  | zero =>
    intro x ts hx _ hinv i j hij hj
    exact hinv i j (by omega) hij hj
  | succ n ih =>
    intro x ts hx hc hinv
    simp only [sort_loop]
    obtain ⟨h1, h2, h3, _⟩ := sort_select_top ts count x (by omega)
    apply ih (x + 1) _ (by omega) (by simpa using hc)
    intro i j hi hij hj
    -- the entry read at `j` after the exchange is the old entry at `j` or one of the old tail
    have hjt : ∃ j', (x ≤ j' ∨ j' = j) ∧ j' < count ∧
        tex ((ts.set x (tex ts (sort_select ts (count - x) x x))).set
          (sort_select ts (count - x) x x) (tex ts x)) j = tex ts j' := by
      rw [tex_swap ts x _ j (by omega) (by omega)]
      by_cases hjm : j = sort_select ts (count - x) x x
      · exact ⟨x, Or.inl (le_refl _), by omega, by rw [if_pos hjm]⟩
      · by_cases hjx : j = x
        · exact ⟨_, Or.inl h1, h2, by rw [if_neg hjm, if_pos hjx]⟩
        · exact ⟨j, Or.inr rfl, hj, by rw [if_neg hjm, if_neg hjx]⟩
    obtain ⟨j', hj1, hj2, hj3⟩ := hjt
    rw [hj3, tex_swap ts x _ i (by omega) (by omega)]
    by_cases hix : i = x
    · have e1 : (if i = sort_select ts (count - x) x x then tex ts x
          else if i = x then tex ts (sort_select ts (count - x) x x) else tex ts i)
          = tex ts (sort_select ts (count - x) x x) := by
        by_cases him : i = sort_select ts (count - x) x x
        · rw [if_pos him, ← him, hix]
        · rw [if_neg him, if_pos hix]
      rw [e1]
      exact h3 j' (by omega) hj2
    · have hlt : i < x := by omega
      have him : ¬ i = sort_select ts (count - x) x x := by omega
      rw [if_neg him, if_neg hix]
      exact hinv i j' hlt (by omega) hj2

theorem sort_textures_perm (ts : List texture_t) : (sort_textures ts ts.length).Perm ts :=
  sort_loop_perm _ _ _ _ (by omega) (le_refl _)

theorem sort_textures_length (ts : List texture_t) :
    (sort_textures ts ts.length).length = ts.length :=
  sort_loop_length _ _ _ _

/-- C6: `sort_textures` returns a permutation of its input array (so no record
is lost, duplicated or changed in any field) and the result is in non-increasing
order of `pixel_size`. -/
theorem C6_sort_textures_perm_sorted (textures : List texture_t) :
    (sort_textures textures textures.length).Perm textures ∧
    List.Pairwise (fun a b => b.pixel_size ≤ a.pixel_size)
      (sort_textures textures textures.length) := by
  refine ⟨sort_textures_perm textures, ?_⟩
  rw [List.pairwise_iff_getElem]
  intro i j hi hj hij
  have hlen := sort_textures_length textures
  have := sort_loop_sorted textures.length textures.length 0 textures (by omega) (le_refl _)
    (by intro i j hi; omega) i j hij (by omega)
  have e : sort_loop textures.length textures.length 0 textures
      = sort_textures textures textures.length := rfl
  rw [e, tex_eq_getElem _ j hj, tex_eq_getElem _ i hi] at this
  exact this

/-! ## Ties in `sort_textures` -/

/-- The outer loop keeps two tied records in order when no entry after the
later one is larger than they are. -/
theorem sort_loop_keeps_tie (count : Nat) (a b : texture_t) :
    ∀ (n x : Nat) (t : List texture_t), x + n = count → count ≤ t.length →
    ∀ pa pb, pa < pb → pb < count → tex t pa = a → tex t pb = b →
      a.pixel_size = b.pixel_size →
      (∀ k, pb < k → k < count → (tex t k).pixel_size ≤ a.pixel_size) →
      ∃ pa' pb', pa' < pb' ∧ pb' < count ∧
        tex (sort_loop count n x t) pa' = a ∧ tex (sort_loop count n x t) pb' = b := by
  intro n
  induction n with
  | zero =>
    intro x t _ _ pa pb h1 h2 h3 h4 _ _
    exact ⟨pa, pb, h1, h2, h3, h4⟩
  | succ n ih =>
    intro x t hx hc pa pb hab hpb ha hb hv hmax
    simp only [sort_loop]
    obtain ⟨m1, m2, m3, m4⟩ := sort_select_top t count x (by omega)
    have hsw := fun k => tex_swap t x (sort_select t (count - x) x x) k (by omega) (by omega)
    have hlen : count ≤ ((t.set x (tex t (sort_select t (count - x) x x))).set
        (sort_select t (count - x) x x) (tex t x)).length := by simpa using hc
    generalize hm : sort_select t (count - x) x x = m at m1 m2 m3 m4 hsw hlen
    generalize ht' : (t.set x (tex t m)).set m (tex t x) = t' at hsw hlen
    -- the records after the exchange
    have hsame : ∀ k, k ≠ m → k ≠ x → tex t' k = tex t k := by
      intro k h1 h2
      rw [hsw, if_neg h1, if_neg h2]
    have hatm : tex t' m = tex t x := by rw [hsw, if_pos rfl]
    have hatx : x ≠ m → tex t' x = tex t m := by
      intro h; rw [hsw, if_neg h, if_pos rfl]
    by_cases hpx : pa < x
    · have hpa : tex t' pa = a := by rw [hsame pa (by omega) (by omega)]; exact ha
      by_cases hbx : pb = x
      · -- the later record moves to the selected index
        refine ih (x + 1) t' (by omega) hlen pa m (by omega) m2 hpa (by rw [hatm, ← hbx]; exact hb)
          hv ?_
        intro k hk1 hk2
        rw [hsame k (by omega) (by omega)]
        exact hmax k (by omega) hk2
      · by_cases hbm : pb = m
        · -- the later record is selected and moves to `x`
          have hvm : (tex t m).pixel_size = a.pixel_size := by rw [← hbm, hb, hv]
          refine ih (x + 1) t' (by omega) hlen pa x (by omega) (by omega) hpa
            (by rw [hatx (by omega), ← hbm]; exact hb) hv ?_
          intro k hk1 hk2
          by_cases hkm : k = m
          · rw [hkm, hatm, ← hvm]; exact m3 x (le_refl _) (by omega)
          · rw [hsame k hkm (by omega), ← hvm]; exact m3 k (by omega) hk2
        · refine ih (x + 1) t' (by omega) hlen pa pb hab hpb hpa
            (by rw [hsame pb hbm hbx]; exact hb) hv ?_
          intro k hk1 hk2
          by_cases hkm : k = m
          · by_cases hxm : x = m
            · rw [hkm, hatm, hxm]; exact hmax m (by omega) m2
            · rw [hkm, hatm]
              by_cases hxb : pb < x
              · exact hmax x hxb (by omega)
              · have h1 := m3 x (le_refl _) (by omega)
                have h2 := hmax m (by omega) m2
                omega
          · by_cases hkx : k = x
            · have hxm : x ≠ m := by omega
              rw [hkx, hatx hxm]
              exact hmax m (by omega) m2
            · rw [hsame k hkm hkx]; exact hmax k hk1 hk2
    · have hxa : x ≤ pa := by omega
      -- the selected index lies before the later record
      have hmb : m < pb := by
        by_contra hge
        have h1 := m4 pa hxa (by omega)
        rw [ha] at h1
        by_cases hmeq : m = pb
        · rw [hmeq, hb] at h1; omega
        · have h2 := hmax m (by omega) m2
          omega
      have hpb2 : tex t' pb = b := by rw [hsame pb (by omega) (by omega)]; exact hb
      have hmax2 : ∀ k, pb < k → k < count → (tex t' k).pixel_size ≤ a.pixel_size := by
        intro k hk1 hk2
        rw [hsame k (by omega) (by omega)]
        exact hmax k hk1 hk2
      by_cases hma : m = pa
      · -- the earlier record is selected and moves to `x`
        have hpa : tex t' x = a := by
          by_cases hxm : x = m
          · rw [hxm, hatm, hxm, hma]; exact ha
          · rw [hatx hxm, hma]; exact ha
        exact ih (x + 1) t' (by omega) hlen x pb (by omega) hpb hpa hpb2 hv hmax2
      · by_cases hax : pa = x
        · -- the earlier record moves to the selected index, before the later one
          have hpa : tex t' m = a := by rw [hatm, ← hax]; exact ha
          exact ih (x + 1) t' (by omega) hlen m pb hmb hpb hpa hpb2 hv hmax2
        · have hpa : tex t' pa = a := by rw [hsame pa (by omega) hax]; exact ha
          exact ih (x + 1) t' (by omega) hlen pa pb hab hpb hpa hpb2 hv hmax2

/-- C7 (amended): two records of equal `pixel_size` keep their relative order
in the output of `sort_textures` whenever no record after the later one in the
input has a strictly larger `pixel_size`. -/
theorem C7_ties_keep_order (textures : List texture_t) (i j : Nat) (hij : i < j)
    (hj : j < textures.length)
    (heq : (tex textures i).pixel_size = (tex textures j).pixel_size)
    (hmax : ∀ k, j < k → k < textures.length →
      (tex textures k).pixel_size ≤ (tex textures i).pixel_size) :
    (∃ i' j', i' < j' ∧ j' < textures.length ∧
      tex (sort_textures textures textures.length) i' = tex textures i ∧
      tex (sort_textures textures textures.length) j' = tex textures j) ∧
    (textures.Nodup → ∀ i' j', i' < textures.length → j' < textures.length →
      tex (sort_textures textures textures.length) i' = tex textures i →
      tex (sort_textures textures textures.length) j' = tex textures j → i' < j') := by
  have hex : ∃ i' j', i' < j' ∧ j' < textures.length ∧
      tex (sort_textures textures textures.length) i' = tex textures i ∧
      tex (sort_textures textures textures.length) j' = tex textures j :=
    sort_loop_keeps_tie textures.length (tex textures i) (tex textures j)
      textures.length 0 textures (by omega) (le_refl _) i j hij hj rfl rfl heq hmax
  refine ⟨hex, ?_⟩
  intro hnd i' j' hi' hj' e1 e2
  obtain ⟨i0, j0, h1, h2, h3, h4⟩ := hex
  have hlen := sort_textures_length textures
  have hnd' : (sort_textures textures textures.length).Nodup :=
    (sort_textures_perm textures).nodup_iff.mpr hnd
  have hinj : ∀ p q, p < textures.length → q < textures.length →
      tex (sort_textures textures textures.length) p
        = tex (sort_textures textures textures.length) q → p = q := by
    intro p q hp hq e
    rw [tex_eq_getElem _ p (by omega), tex_eq_getElem _ q (by omega)] at e
    exact (hnd'.getElem_inj_iff).mp e
  have hi0 : i' = i0 := hinj _ _ hi' (by omega) (by rw [e1, h3])
  have hj0 : j' = j0 := hinj _ _ hj' h2 (by rw [e2, h4])
  omega

/-! ## The dimension loops -/

theorem after_fit_after_fit (s : state) (W H W' H' : Nat) :
    after_fit (after_fit s W H) W' H' = after_fit s W' H' := by
  simp only [after_fit, fit_after_fit]

theorem after_fit_generated (s : state) (W H : Nat) :
    (after_fit s W H).generated = (fit s.textures s.start_texture W H).success := rfl

/-- What the loop over the widths returns when it is entered with `generated`
false: `k` failing attempts at the widths `w`, `2w`, ... and then either the
bound is exceeded or the next attempt succeeds. -/
theorem width_loop_spec (b : bounds) (H : Nat) : ∀ (fuel w : Nat) (s s' : state),
    s.generated = false → width_loop b H fuel w s = some s' →
    ∃ k, (∀ i, i < k → doubled i w ≤ b.max_width ∧
            (fit s.textures s.start_texture (doubled i w) H).success = false) ∧
      ((b.max_width < doubled k w ∧ s'.generated = false ∧ (k = 0 → s' = s) ∧
          (∀ k', k = k' + 1 → s' = after_fit s (doubled k' w) H)) ∨
       (doubled k w ≤ b.max_width ∧
          (fit s.textures s.start_texture (doubled k w) H).success = true ∧
          s' = after_fit s (doubled k w) H)) := by
  intro fuel
  induction fuel with
  | zero =>
    intro w s s' hg h
    rw [width_loop] at h
    by_cases hc : w ≤ b.max_width ∧ s.generated = false
    · rw [if_pos hc] at h; simp at h
    · rw [if_neg hc] at h
      have hw : b.max_width < w := by
        by_contra hh; exact hc ⟨by omega, hg⟩
      refine ⟨0, by intro i hi; omega, Or.inl ⟨hw, ?_, ?_, ?_⟩⟩
      · cases h; exact hg
      · intro _; cases h; rfl
      · intro k' hk; omega
  | succ fuel ih =>
    intro w s s' hg h
    rw [width_loop] at h
    by_cases hc : w ≤ b.max_width ∧ s.generated = false
    · rw [if_pos hc] at h
      have hw : ¬ w > b.max_width := by omega
      simp only [if_neg hw] at h
      by_cases hs : (fit s.textures s.start_texture w H).success = true
      · rw [if_pos hs] at h
        refine ⟨0, by intro i hi; omega, Or.inr ⟨hc.1, hs, ?_⟩⟩
        cases h
        simp [after_fit, doubled, hs]
      · rw [if_neg hs] at h
        have hs' : (fit s.textures s.start_texture w H).success = false := by simpa using hs
        have hst : ∀ (ts : List texture_t) (c : Nat) (g : Bool), s.generated = g →
            ({ s with output_width := w, textures := ts, current_texture := c } : state)
            = { s with output_width := w, textures := ts, current_texture := c, generated := g } := by
          intro ts c g hgg; subst hgg; rfl
        rw [hst _ _ _ (hg.trans hs'.symm)] at h
        change width_loop b H fuel (w * 2 % 4294967296) (after_fit s w H) = some s' at h
        obtain ⟨k, hk, hor⟩ := ih _ _ _ (by rw [after_fit_generated]; exact hs') h
        have hfit : ∀ W', fit (after_fit s w H).textures (after_fit s w H).start_texture W' H
            = fit s.textures s.start_texture W' H := fun W' => fit_after_fit _ _ _ _ _ _
        refine ⟨k + 1, ?_, ?_⟩
        · intro i hi
          cases i with
          | zero => exact ⟨hc.1, hs'⟩
          | succ i =>
            have := hk i (by omega)
            rw [hfit] at this
            exact this
        · rcases hor with ⟨h1, h2, h3, h4⟩ | ⟨h1, h2, h3⟩
          · refine Or.inl ⟨h1, h2, by intro h0; omega, ?_⟩
            intro k' hk'
            have hk'' : k = k' := by omega
            subst hk''
            cases k with
            | zero => rw [h3 rfl]; rfl
            | succ k =>
              rw [h4 k rfl, after_fit_after_fit]
              rfl
          · refine Or.inr ⟨h1, ?_, ?_⟩
            · rw [hfit] at h2; exact h2
            · rw [h3, after_fit_after_fit]; rfl
    · rw [if_neg hc] at h
      have hw : b.max_width < w := by
        by_contra hh; exact hc ⟨by omega, hg⟩
      refine ⟨0, by intro i hi; omega, Or.inl ⟨hw, ?_, ?_, ?_⟩⟩
      · cases h; exact hg
      · intro _; cases h; rfl
      · intro k' hk; omega

theorem attempt_state_congr (s s1 : state) (W H : Nat) (h1 : s1.atlas_count = s.atlas_count)
    (h2 : s1.start_texture = s.start_texture) (h3 : reset_xy s1.textures = reset_xy s.textures) :
    attempt_state s1 W H = attempt_state s W H := by
  simp only [attempt_state, after_fit, h1, h2, fit_congr _ _ _ _ _ h3]

theorem attempt_state_generated (s : state) (W H : Nat) :
    (attempt_state s W H).generated = (fit s.textures s.start_texture W H).success := rfl

/-- What the loop over the heights returns when it is entered with `generated`
false: `m` rows in which every width fails, and then either the height bound is
exceeded or a row with a succeeding attempt. -/
theorem height_loop_spec (b : bounds) (wf : Nat) : ∀ (fuel h : Nat) (s s' : state),
    s.generated = false → height_loop b wf fuel h s = some s' →
    ∃ m, (∀ j, j < m → doubled j h ≤ b.max_height ∧
            row_fails b s.textures s.start_texture (doubled j h)) ∧
      ((b.max_height < doubled m h ∧ s'.generated = false ∧ (m = 0 → s' = s) ∧
          (∀ m', m = m' + 1 →
            (b.max_width < b.min_width ∧ s' = { s with output_height := doubled m' h }) ∨
            (∃ k', doubled k' b.min_width ≤ b.max_width ∧
               b.max_width < doubled (k' + 1) b.min_width ∧
               s' = attempt_state s (doubled k' b.min_width) (doubled m' h)))) ∨
       (doubled m h ≤ b.max_height ∧
          ∃ k, (∀ i, i < k → doubled i b.min_width ≤ b.max_width ∧
                  (fit s.textures s.start_texture (doubled i b.min_width) (doubled m h)).success
                    = false) ∧
               doubled k b.min_width ≤ b.max_width ∧
               (fit s.textures s.start_texture (doubled k b.min_width) (doubled m h)).success
                 = true ∧
               s' = attempt_state s (doubled k b.min_width) (doubled m h))) := by
  intro fuel
  induction fuel with
  | zero =>
    intro h s s' hg hr
    rw [height_loop] at hr
    by_cases hc : h ≤ b.max_height ∧ s.generated = false
    · rw [if_pos hc] at hr; simp at hr
    · rw [if_neg hc] at hr
      have hw : b.max_height < h := by
        by_contra hh; exact hc ⟨by omega, hg⟩
      refine ⟨0, by intro i hi; omega, Or.inl ⟨hw, ?_, ?_, ?_⟩⟩
      · cases hr; exact hg
      · intro _; cases hr; rfl
      · intro k' hk; omega
  | succ fuel ih =>
    intro h s s' hg hr
    rw [height_loop] at hr
    by_cases hc : h ≤ b.max_height ∧ s.generated = false
    · rw [if_pos hc] at hr
      have hw : ¬ h > b.max_height := by omega
      simp only [if_neg hw] at hr
      cases hrow : width_loop b h wf b.min_width { s with output_height := h } with
      | none => rw [hrow] at hr; simp at hr
      | some s1 =>
        rw [hrow] at hr
        simp only at hr
        obtain ⟨k, hk, hor⟩ :=
          width_loop_spec b h wf b.min_width ({ s with output_height := h } : state) s1 hg hrow
        simp only at hk hor
        rcases hor with ⟨h1, h2, h3, h4⟩ | ⟨h1, h2, h3⟩
        · -- the row fails
          rw [h2] at hr
          simp only [Bool.false_eq_true, if_false] at hr
          have hbase : s1.atlas_count = s.atlas_count ∧ s1.start_texture = s.start_texture ∧
              reset_xy s1.textures = reset_xy s.textures := by
            cases k with
            | zero => rw [h3 rfl]; exact ⟨rfl, rfl, rfl⟩
            | succ k => rw [h4 k rfl]; exact ⟨rfl, rfl, fit_reset _ _ _ _⟩
          have hfit : ∀ W' H', fit s1.textures s1.start_texture W' H'
              = fit s.textures s.start_texture W' H' := by
            intro W' H'
            rw [hbase.2.1]
            exact fit_congr _ _ _ _ _ hbase.2.2
          obtain ⟨m, hm, hor⟩ := ih _ _ _ h2 hr
          refine ⟨m + 1, ?_, ?_⟩
          · intro j hj
            cases j with
            | zero => exact ⟨hc.1, k, hk, h1⟩
            | succ j =>
              have := hm j (by omega)
              rw [hbase.2.1] at this
              refine ⟨this.1, ?_⟩
              obtain ⟨kk, hkk, hkk'⟩ := this.2
              refine ⟨kk, ?_, hkk'⟩
              intro i hi
              have := hkk i hi
              rw [fit_congr _ _ _ _ _ hbase.2.2] at this
              exact this
          · rcases hor with ⟨g1, g2, g3, g4⟩ | ⟨g1, kk, g2, g3, g4, g5⟩
            · refine Or.inl ⟨g1, g2, by intro h0; omega, ?_⟩
              intro m' hm'
              have hmm : m = m' := by omega
              subst hmm
              cases m with
              | zero =>
                rw [g3 rfl]
                cases k with
                | zero =>
                  left
                  exact ⟨h1, h3 rfl⟩
                | succ k =>
                  right
                  exact ⟨k, (hk k (by omega)).1, h1, h4 k rfl⟩
              | succ m =>
                rcases g4 m rfl with ⟨e1, e2⟩ | ⟨k', e1, e2, e3⟩
                · left
                  refine ⟨e1, ?_⟩
                  cases k with
                  | zero => rw [e2, h3 rfl]; rfl
                  | succ k =>
                    have := (hk 0 (by omega)).1
                    simp only [doubled] at this
                    omega
                · right
                  refine ⟨k', e1, e2, ?_⟩
                  rw [e3]
                  exact attempt_state_congr _ _ _ _ hbase.1 hbase.2.1 hbase.2.2
            · refine Or.inr ⟨g1, kk, ?_, g3, ?_, ?_⟩
              · intro i hi
                have := g2 i hi
                rw [hfit] at this
                exact this
              · rw [hfit] at g4; exact g4
              · rw [g5]
                exact attempt_state_congr _ _ _ _ hbase.1 hbase.2.1 hbase.2.2
        · -- an attempt of the row succeeds
          have hgen : s1.generated = true := by rw [h3, after_fit_generated]; exact h2
          rw [hgen] at hr
          simp only [if_true] at hr
          refine ⟨0, by intro j hj; omega, Or.inr ⟨hc.1, k, hk, h1, h2, ?_⟩⟩
          cases hr
          rw [h3]
          rfl
    · rw [if_neg hc] at hr
      have hw : b.max_height < h := by
        by_contra hh; exact hc ⟨by omega, hg⟩
      refine ⟨0, by intro i hi; omega, Or.inl ⟨hw, ?_, ?_, ?_⟩⟩
      · cases hr; exact hg
      · intro _; cases hr; rfl
      · intro k' hk; omega

/-! ## The doubling sequence below 2^31 -/

theorem doubled_succ (k w : Nat) : doubled (k + 1) w = doubled k ((w * 2) % 4294967296) := rfl

/-- While the values stay within a bound below 2^31 the doubling does not wrap. -/
theorem doubled_eq (M : Nat) (hM : M < 2147483648) : ∀ (k w : Nat),
    (∀ i, i < k → doubled i w ≤ M) → doubled k w = w * 2 ^ k := by
  intro k
  induction k with
  | zero => intro w _; simp [doubled]
  | succ k ih =>
    intro w h
    have h0 : w ≤ M := h 0 (by omega)
    have hmod : (w * 2) % 4294967296 = w * 2 := Nat.mod_eq_of_lt (by omega)
    rw [doubled_succ, hmod, ih (w * 2)]
    · rw [Nat.pow_succ]; ring
    · intro i hi
      have := h (i + 1) (by omega)
      rw [doubled_succ, hmod] at this
      exact this

theorem doubled_le_eq (M : Nat) (hM : M < 2147483648) (k w : Nat)
    (h : ∀ i, i < k → doubled i w ≤ M) (i : Nat) (hi : i ≤ k) : doubled i w = w * 2 ^ i :=
  doubled_eq M hM i w (fun j hj => h j (by omega))

/-- A row that fails has failed at every width of the doubling sequence within
the bound. -/
theorem row_fails_at (b : bounds) (hw : b.max_width < 2147483648) (ts : List texture_t)
    (start H : Nat) (h : row_fails b ts start H) (a : Nat)
    (ha : b.min_width * 2 ^ a ≤ b.max_width) :
    (fit ts start (b.min_width * 2 ^ a) H).success = false := by
  obtain ⟨k, hk, hout⟩ := h
  have hall : ∀ i, i < k → doubled i b.min_width ≤ b.max_width := fun i hi => (hk i hi).1
  have hkeq : doubled k b.min_width = b.min_width * 2 ^ k :=
    doubled_eq _ hw k _ hall
  have hak : a < k := by
    by_contra hge
    have hle : k ≤ a := by omega
    have : b.min_width * 2 ^ k ≤ b.min_width * 2 ^ a :=
      Nat.mul_le_mul_left _ (Nat.pow_le_pow_right (by omega) hle)
    omega
  have := (hk a hak).2
  rw [doubled_le_eq _ hw k _ hall a (by omega)] at this
  exact this

/-! ## One page iteration -/

theorem height_loop_generated (b : bounds) (wf fuel h : Nat) (s : state)
    (hg : s.generated = true) : height_loop b wf fuel h s = some s := by
  have hc : ¬ (h ≤ b.max_height ∧ s.generated = false) := by
    rw [hg]; simp
  cases fuel with
  | zero => rw [height_loop, if_neg hc]
  | succ fuel => rw [height_loop, if_neg hc]

theorem page_iteration_ok (b : bounds) (df : Nat) (s : state) (p : page) (s2 : state)
    (h : page_iteration b df s = .ok (p, s2)) :
    ∃ ts0 s', validate b.max_width b.max_height s.textures = some ts0 ∧
      height_loop b df df b.min_height (search_start s ts0) = some s' ∧
      p = save_page s' ∧ s2 = { s' with atlas_count := s'.atlas_count + 1 } := by
  simp only [page_iteration] at h
  cases hv : validate b.max_width b.max_height s.textures with
  | none => rw [hv] at h; cases h
  | some ts0 =>
    rw [hv] at h
    simp only at h
    cases hh : height_loop b df df b.min_height (search_start s ts0) with
    | none =>
      simp only [search_start] at hh
      rw [hh] at h
      cases h
    | some s' =>
      simp only [search_start] at hh
      rw [hh] at h
      simp only [Except.ok.injEq, Prod.mk.injEq] at h
      exact ⟨ts0, s', rfl, by simp only [search_start]; exact hh, h.1.symm, h.2.symm⟩

/-- The dimension loops either make no placement attempt and leave the array and
`current_texture` alone, or leave the variables of one attempt within the bounds. -/
theorem height_loop_result (b : bounds) (wf fuel h : Nat) (s s' : state)
    (hr : height_loop b wf fuel h s = some s') :
    (s'.textures = s.textures ∧ s'.current_texture = s.current_texture ∧
      s'.start_texture = s.start_texture ∧ s'.atlas_count = s.atlas_count ∧
      s'.generated = s.generated) ∨
    (∃ W H, W ≤ b.max_width ∧ H ≤ b.max_height ∧ s.generated = false ∧
      s' = attempt_state s W H) := by
  cases hg : s.generated with
  | true =>
    rw [height_loop_generated b wf fuel h s hg] at hr
    cases hr
    exact Or.inl ⟨rfl, rfl, rfl, rfl, hg⟩
  | false =>
    obtain ⟨m, hm, hor⟩ := height_loop_spec b wf fuel h s s' hg hr
    rcases hor with ⟨g1, g2, g3, g4⟩ | ⟨g1, k, g2, g3, g4, g5⟩
    · cases m with
      | zero => rw [g3 rfl]; exact Or.inl ⟨rfl, rfl, rfl, rfl, hg⟩
      | succ m =>
        rcases g4 m rfl with ⟨_, e2⟩ | ⟨k', e1, _, e3⟩
        · rw [e2]; exact Or.inl ⟨rfl, rfl, rfl, rfl, hg⟩
        · exact Or.inr ⟨_, _, e1, (hm m (by omega)).1, rfl, e3⟩
    · exact Or.inr ⟨_, _, g3, g1, rfl, g5⟩

theorem page_loop_forall (P : page → Prop) (b : bounds) (df : Nat)
    (hP : ∀ s p s2, page_iteration b df s = .ok (p, s2) → P p) :
    ∀ (fuel : Nat) (s : state), ∀ p ∈ (page_loop b df fuel s).1, P p := by
  intro fuel
  induction fuel with
  | zero =>
    intro s p hp
    rw [page_loop] at hp
    split at hp <;> simp at hp
  | succ fuel ih =>
    intro s p hp
    rw [page_loop] at hp
    split at hp
    · cases hi : page_iteration b df s with
      | error o => rw [hi] at hp; simp at hp
      | ok r =>
        obtain ⟨p1, s1⟩ := r
        rw [hi] at hp
        simp only [List.mem_cons] at hp
        rcases hp with e | e
        · rw [e]; exact hP s p1 s1 hi
        · exact ih s1 p e
    · simp at hp

/-- C1: on every page the run produces, any two distinct members of the page
(the records from `start_texture` up to `current_texture`, placed in the
accepted placement attempt) have placement rectangles on which `rect_overlaps`
is false. -/
theorem C1_no_overlap (b : bounds) (dim_fuel fuel : Nat) (textures : List texture_t)
    (p : page) (hp : p ∈ (run b dim_fuel fuel textures).1) (i j : Nat)
    (hi : p.start_texture ≤ i ∧ i < p.current_texture)
    (hj : p.start_texture ≤ j ∧ j < p.current_texture) (hij : i ≠ j) :
    rect_overlaps (tex p.textures i).dest (tex p.textures j).dest = false := by
  have key : ∀ p ∈ (run b dim_fuel fuel textures).1,
      placed_clear p.textures p.start_texture p.current_texture := by
    refine page_loop_forall
      (fun p => placed_clear p.textures p.start_texture p.current_texture) b dim_fuel ?_
      fuel (initial_state b textures)
    intro s p s2 h
    obtain ⟨ts0, s', _, hh, hp, _⟩ := page_iteration_ok b dim_fuel s p s2 h
    rw [hp]
    simp only [save_page]
    rcases height_loop_result b _ _ _ _ _ hh with ⟨_, e2, e3, _⟩ | ⟨W, H, _, _, _, e⟩
    · intro j h1 h2
      rw [e2, e3] at *
      simp only [search_start] at h1 h2
      omega
    · rw [e]
      exact fit_clear _ _ _ _
  have hc := key p hp
  rcases Nat.lt_or_gt_of_ne hij with h | h
  · rw [rect_overlaps_comm]
    exact hc j hj.1 hj.2 i h
  · exact hc i hi.1 hi.2 j h

/-- C2: with maxima below 2^31, every record placed on a page of the run lies
inside the page dimensions passed to `save_atlas`: its `x` and `y` are not
negative, `x + width <= output_width` and `y + height <= output_height`. -/
theorem C2_in_bounds (b : bounds) (hw : b.max_width < 2147483648)
    (hh : b.max_height < 2147483648) (dim_fuel fuel : Nat) (textures : List texture_t)
    (p : page) (hp : p ∈ (run b dim_fuel fuel textures).1) (j : Nat)
    (hj : p.start_texture ≤ j ∧ j < p.current_texture) :
    0 ≤ (tex p.textures j).dest.x ∧ 0 ≤ (tex p.textures j).dest.y ∧
    (tex p.textures j).dest.x + (tex p.textures j).dest.width ≤ (p.output_width : Int) ∧
    (tex p.textures j).dest.y + (tex p.textures j).dest.height ≤ (p.output_height : Int) := by
  have key : ∀ p ∈ (run b dim_fuel fuel textures).1,
      placed_inside p.textures p.start_texture p.current_texture p.output_width
        p.output_height := by
    refine page_loop_forall
      (fun p => placed_inside p.textures p.start_texture p.current_texture p.output_width
        p.output_height) b dim_fuel ?_ fuel (initial_state b textures)
    intro s p s2 h
    obtain ⟨ts0, s', hv, hh', hp, _⟩ := page_iteration_ok b dim_fuel s p s2 h
    rw [hp]
    simp only [save_page]
    rcases height_loop_result b _ _ _ _ _ hh' with ⟨_, e2, e3, _⟩ | ⟨W, H, hW, hH, _, e⟩
    · intro j h1 h2
      rw [e2, e3] at *
      simp only [search_start] at h1 h2
      omega
    · rw [e]
      have hs : sized (sort_textures ts0 ts0.length) :=
        sized_perm _ _ (sort_textures_perm ts0) (validate_sized _ _ hw hh _ _ hv)
      exact fit_inside _ _ W H (by omega) (by omega) hs
  exact key p hp j hj.1 hj.2

/-! ## The validation never changes the bitmaps -/

theorem validate_dib (mw mh : Nat) : ∀ (ts ts' : List texture_t),
    validate mw mh ts = some ts' → ts'.map (fun t => t.dib) = ts.map (fun t => t.dib) := by
  intro ts
  induction ts with
  | nil =>
    intro ts' h
    simp only [validate] at h
    cases h
    rfl
  | cons t rest ih =>
    intro ts' h
    simp only [validate, validate_one] at h
    by_cases ho : t.dib.width > mw ∨ t.dib.height > mh
    · rw [if_pos ho] at h; cases h
    · rw [if_neg ho] at h
      simp only at h
      cases hr : validate mw mh rest with
      | none => rw [hr] at h; cases h
      | some r =>
        rw [hr] at h
        simp only at h
        cases h
        simp only [List.map_cons]
        rw [ih r hr]

theorem reset_xy_dib (ts : List texture_t) :
    (reset_xy ts).map (fun t => t.dib) = ts.map (fun t => t.dib) := by
  unfold reset_xy
  rw [List.map_map]
  rfl

theorem dib_of_reset_eq (ts ts' : List texture_t) (h : reset_xy ts' = reset_xy ts) :
    ts'.map (fun t => t.dib) = ts.map (fun t => t.dib) := by
  rw [← reset_xy_dib ts', ← reset_xy_dib ts, h]

/-- A page iteration permutes the bitmaps of the array. -/
theorem page_iteration_dib (b : bounds) (df : Nat) (s : state) (p : page) (s2 : state)
    (h : page_iteration b df s = .ok (p, s2)) :
    (s2.textures.map (fun t => t.dib)).Perm (s.textures.map (fun t => t.dib)) := by
  obtain ⟨ts0, s', hv, hh, _, hs2⟩ := page_iteration_ok b df s p s2 h
  have h1 : ((sort_textures ts0 ts0.length).map (fun t => t.dib)).Perm
      (s.textures.map (fun t => t.dib)) := by
    rw [← validate_dib _ _ _ _ hv]
    exact (sort_textures_perm ts0).map _
  rw [hs2]
  simp only
  rcases height_loop_result b _ _ _ _ _ hh with ⟨e1, _⟩ | ⟨W, H, _, _, _, e⟩
  · rw [e1]; exact h1
  · rw [e]
    simp only [attempt_state, after_fit]
    rw [dib_of_reset_eq _ _ (fit_reset _ _ _ _)]
    exact h1

theorem page_iteration_aborted (b : bounds) (df : Nat) (s : state)
    (h : page_iteration b df s = .error .aborted) :
    validate b.max_width b.max_height s.textures = none := by
  simp only [page_iteration] at h
  cases hv : validate b.max_width b.max_height s.textures with
  | none => rfl
  | some ts0 =>
    rw [hv] at h
    simp only at h
    split at h <;> cases h

theorem page_loop_not_aborted (b : bounds) (df : Nat) : ∀ (fuel : Nat) (s : state),
    (∀ d ∈ s.textures.map (fun t => t.dib), d.width ≤ b.max_width ∧ d.height ≤ b.max_height) →
    (page_loop b df fuel s).2 ≠ .aborted := by
  intro fuel
  induction fuel with
  | zero =>
    intro s _
    rw [page_loop]
    split <;> simp
  | succ fuel ih =>
    intro s hs
    rw [page_loop]
    split
    · cases hi : page_iteration b df s with
      | error o =>
        simp only
        intro ho
        rw [ho] at hi
        have hv := page_iteration_aborted b df s hi
        obtain ⟨t, ht, hbig⟩ := (validate_none_iff _ _ _).mp hv
        have := hs t.dib (List.mem_map.mpr ⟨t, ht, rfl⟩)
        omega
      | ok r =>
        obtain ⟨p1, s1⟩ := r
        simp only
        apply ih s1
        intro d hd
        exact hs d ((page_iteration_dib b df s p1 s1 hi).mem_iff.mp hd)
    · simp

/-- C5: when some record is wider than `max_width` or taller than `max_height`,
the run stops in the validation of the first page iteration with no page
emitted; when no record is, the run is never stopped by the validation. -/
theorem C5_oversize_abort (b : bounds) (dim_fuel fuel : Nat) (textures : List texture_t) :
    ((∃ t ∈ textures, t.dib.width > b.max_width ∨ t.dib.height > b.max_height) →
      run b dim_fuel (fuel + 1) textures = ([], outcome.aborted)) ∧
    ((∀ t ∈ textures, t.dib.width ≤ b.max_width ∧ t.dib.height ≤ b.max_height) →
      (run b dim_fuel fuel textures).2 ≠ outcome.aborted) := by
  constructor
  · intro hbig
    have hv : validate b.max_width b.max_height textures = none :=
      (validate_none_iff _ _ _).mpr hbig
    obtain ⟨t, ht, _⟩ := hbig
    have hlen : 0 < textures.length := List.length_pos_of_mem ht
    simp only [run, initial_state]
    rw [page_loop]
    simp only [hlen, if_true, page_iteration, hv]
  · intro hok
    apply page_loop_not_aborted
    intro d hd
    obtain ⟨t, ht, e⟩ := List.mem_map.mp hd
    rw [← e]
    exact hok t ht

/-- C9: when the dimension loops, entered with `generated` false, end with
`generated` true, the accepted pair `(output_width, output_height)` is a pair
`(min_width * 2^A, min_height * 2^B)` of the doubling sequences at which the
placement attempt on the same records succeeds, the variables are those of that
attempt, and the attempt fails at every pair tried earlier in height-major,
width-minor order; in particular at every doubling-sequence pair `(w, h)` with
`w <= output_width`, `h <= output_height` other than the accepted pair. -/
theorem C9_dimension_minimality (b : bounds) (hw : b.max_width < 2147483648)
    (hh : b.max_height < 2147483648) (hminw : 0 < b.min_width) (hminh : 0 < b.min_height)
    (width_fuel fuel : Nat) (s s' : state) (hg : s.generated = false)
    (hr : height_loop b width_fuel fuel b.min_height s = some s')
    (hacc : s'.generated = true) :
    (fit s.textures s.start_texture s'.output_width s'.output_height).success = true ∧
    s' = attempt_state s s'.output_width s'.output_height ∧
    ∃ A B, s'.output_width = b.min_width * 2 ^ A ∧ s'.output_height = b.min_height * 2 ^ B ∧
      (∀ a c, b.min_width * 2 ^ a ≤ b.max_width → (c < B ∨ (c = B ∧ a < A)) →
        (fit s.textures s.start_texture (b.min_width * 2 ^ a) (b.min_height * 2 ^ c)).success
          = false) ∧
      (∀ a c, b.min_width * 2 ^ a ≤ s'.output_width →
        b.min_height * 2 ^ c ≤ s'.output_height →
        (b.min_width * 2 ^ a, b.min_height * 2 ^ c) ≠ (s'.output_width, s'.output_height) →
        (fit s.textures s.start_texture (b.min_width * 2 ^ a) (b.min_height * 2 ^ c)).success
          = false) := by
  obtain ⟨m, hm, hor⟩ := height_loop_spec b width_fuel fuel b.min_height s s' hg hr
  rcases hor with ⟨_, g2, _, _⟩ | ⟨g1, k, g2, g3, g4, g5⟩
  · rw [g2] at hacc; cases hacc
  · have hW : doubled k b.min_width = b.min_width * 2 ^ k :=
      doubled_eq _ hw k _ (fun i hi => (g2 i hi).1)
    have hH : doubled m b.min_height = b.min_height * 2 ^ m :=
      doubled_eq _ hh m _ (fun j hj => (hm j hj).1)
    have how : s'.output_width = doubled k b.min_width := by rw [g5]; rfl
    have hoh : s'.output_height = doubled m b.min_height := by rw [g5]; rfl
    have hearlier : ∀ a c, b.min_width * 2 ^ a ≤ b.max_width → (c < m ∨ (c = m ∧ a < k)) →
        (fit s.textures s.start_texture (b.min_width * 2 ^ a) (b.min_height * 2 ^ c)).success
          = false := by
      intro a c ha hc
      rcases hc with hc | ⟨hc, hak⟩
      · have hrow := (hm c hc).2
        rw [doubled_le_eq _ hh m _ (fun j hj => (hm j hj).1) c (by omega)] at hrow
        exact row_fails_at b hw _ _ _ hrow a ha
      · have := (g2 a hak).2
        rw [doubled_le_eq _ hw k _ (fun i hi => (g2 i hi).1) a (by omega), hH, ← hc] at this
        exact this
    refine ⟨?_, ?_, k, m, by rw [how, hW], by rw [hoh, hH], hearlier, ?_⟩
    · rw [how, hoh]; exact g4
    · rw [how, hoh]; exact g5
    · intro a c ha hc hne
      rw [how, hW] at ha
      rw [hoh, hH] at hc
      have hak : a ≤ k := by
        have := Nat.le_of_mul_le_mul_left ha hminw
        exact (Nat.pow_le_pow_iff_right (by omega)).mp this
      have hcm : c ≤ m := by
        have := Nat.le_of_mul_le_mul_left hc hminh
        exact (Nat.pow_le_pow_iff_right (by omega)).mp this
      have hmax : b.min_width * 2 ^ a ≤ b.max_width := by
        rw [hW] at g3
        omega
      apply hearlier a c hmax
      by_cases hcm' : c = m
      · right
        refine ⟨hcm', ?_⟩
        by_contra hnot
        have hak' : a = k := by omega
        apply hne
        rw [how, hoh, hW, hH, hak', hcm']
      · left; omega

/-! ## Evaluations on concrete inputs -/

/-- Witness of C1 on the page of two one-pixel records on a 4 x 4 canvas. -/
theorem C1_no_overlap_witness :
    two_tiles_page ∈ (run ⟨4, 4, 4, 4⟩ 2 2 two_tiles).1 ∧
    rect_overlaps (tex two_tiles_page.textures 0).dest (tex two_tiles_page.textures 1).dest
      = false :=
  ⟨by decide,
   C1_no_overlap ⟨4, 4, 4, 4⟩ 2 2 two_tiles two_tiles_page (by decide) 0 1 (by decide)
     (by decide) (by decide)⟩

/-- Witness of C2 on the page of two one-pixel records on a 4 x 4 canvas. -/
theorem C2_in_bounds_witness :
    two_tiles_page ∈ (run ⟨4, 4, 4, 4⟩ 2 2 two_tiles).1 ∧
    (0 ≤ (tex two_tiles_page.textures 1).dest.x ∧ 0 ≤ (tex two_tiles_page.textures 1).dest.y ∧
     (tex two_tiles_page.textures 1).dest.x + (tex two_tiles_page.textures 1).dest.width
       ≤ (two_tiles_page.output_width : Int) ∧
     (tex two_tiles_page.textures 1).dest.y + (tex two_tiles_page.textures 1).dest.height
       ≤ (two_tiles_page.output_height : Int)) :=
  ⟨by decide,
   C2_in_bounds ⟨4, 4, 4, 4⟩ (by decide) (by decide) 2 2 two_tiles two_tiles_page (by decide) 1
     (by decide)⟩

/-- C3 (evaluation): with the default bounds and a single record the run
finishes after one page whose manifest is empty: the record is written on no
page. -/
theorem C3_single_record_not_emitted :
    (run ⟨256, 256, 1024, 1024⟩ 3 2 [loaded "a" 1 1]).2 = outcome.finished ∧
    (run ⟨256, 256, 1024, 1024⟩ 3 2 [loaded "a" 1 1]).1.map
      (fun p => (p.start_texture, p.current_texture, p.count, p.written)) = [(0, 1, 0, [])] := by
  decide

/-- Witness of C5: a 2000 x 2000 record with the default bounds stops the run
with no page; a record within the bounds does not stop it. -/
theorem C5_oversize_abort_witness :
    ((∃ t ∈ [loaded "big" 2000 2000], t.dib.width > 1024 ∨ t.dib.height > 1024) ∧
      run ⟨256, 256, 1024, 1024⟩ 3 (0 + 1) [loaded "big" 2000 2000] = ([], outcome.aborted)) ∧
    ((∀ t ∈ two_tiles, t.dib.width ≤ 4 ∧ t.dib.height ≤ 4) ∧
      (run ⟨4, 4, 4, 4⟩ 2 2 two_tiles).2 ≠ outcome.aborted) :=
  ⟨⟨⟨loaded "big" 2000 2000, by simp, by decide⟩,
    (C5_oversize_abort ⟨256, 256, 1024, 1024⟩ 3 0 [loaded "big" 2000 2000]).1
      ⟨loaded "big" 2000 2000, by simp, by decide⟩⟩,
   ⟨by decide, (C5_oversize_abort ⟨4, 4, 4, 4⟩ 2 2 two_tiles).2 (by decide)⟩⟩

/-- C7 (counterexample): in the array that the validation makes of 200 x 100,
100 x 200 and 300 x 300, `a` and `b` have equal `pixel_size` and `a` comes
first, yet `sort_textures` returns `b` before `a`. -/
theorem C7_stability_counterexample :
    validate 1024 1024 [loaded "a" 200 100, loaded "b" 100 200, loaded "c" 300 300]
      = some tie_then_larger ∧
    (tex tie_then_larger 0).pixel_size = (tex tie_then_larger 1).pixel_size ∧
    (tie_then_larger.map (fun t => t.filename) = ["a", "b", "c"]) ∧
    (sort_textures tie_then_larger 3).map (fun t => t.filename) = ["c", "b", "a"] := by
  decide

/-- Witness of C7 (amended): the two tied records `a` and `b` with the larger
record between them and a smaller one after them. -/
theorem C7_ties_keep_order_witness :
    ((0 < 2 ∧ 2 < tie_around_larger.length) ∧
     (tex tie_around_larger 0).pixel_size = (tex tie_around_larger 2).pixel_size ∧
     (∀ k, 2 < k → k < tie_around_larger.length →
       (tex tie_around_larger k).pixel_size ≤ (tex tie_around_larger 0).pixel_size)) ∧
    ((∃ i' j', i' < j' ∧ j' < tie_around_larger.length ∧
       tex (sort_textures tie_around_larger tie_around_larger.length) i'
         = tex tie_around_larger 0 ∧
       tex (sort_textures tie_around_larger tie_around_larger.length) j'
         = tex tie_around_larger 2) ∧
     (tie_around_larger.Nodup → ∀ i' j', i' < tie_around_larger.length →
       j' < tie_around_larger.length →
       tex (sort_textures tie_around_larger tie_around_larger.length) i'
         = tex tie_around_larger 0 →
       tex (sort_textures tie_around_larger tie_around_larger.length) j'
         = tex tie_around_larger 2 →
       i' < j')) := by
  have hmax : ∀ k, 2 < k → k < tie_around_larger.length →
      (tex tie_around_larger k).pixel_size ≤ (tex tie_around_larger 0).pixel_size := by
    intro k h1 h2
    have h3 : k < 4 := h2
    have hk : k = 3 := by omega
    subst hk
    decide
  exact ⟨⟨⟨by decide, by decide⟩, by decide, hmax⟩,
    C7_ties_keep_order tie_around_larger 0 2 (by decide) (by decide) (by decide) hmax⟩

/-- C8 (evaluation): with minimum 256 and maximum 1000 in both axes and one
record of 600 x 600, the loops try 256 and 512 only; the page is saved with the
dimensions 512 x 512 and no record placed, although the attempt at 1000 x 1000
places the record. -/
theorem C8_maximum_never_tried :
    (run ⟨256, 256, 1000, 1000⟩ 3 1 [loaded "a" 600 600]).1.map
      (fun p => (p.output_width, p.output_height, p.start_texture, p.current_texture))
      = [(512, 512, 0, 0)] ∧
    (validate 1000 1000 [loaded "a" 600 600]).map
      (fun ts => ((fit ts 0 1000 1000).success, (fit ts 0 1000 1000).current_texture))
      = some (true, 1) := by
  decide!

/-- Witness of C9: one 2 x 2 record with the bounds 1, 1, 4, 4 is accepted at
2 x 2 and fails at 1 x 1. -/
theorem C9_dimension_minimality_witness :
    (one_square.generated = false ∧
     height_loop ⟨1, 1, 4, 4⟩ 4 4 1 one_square = some (attempt_state one_square 2 2) ∧
     (attempt_state one_square 2 2).generated = true) ∧
    (fit one_square.textures one_square.start_texture (attempt_state one_square 2 2).output_width
      (attempt_state one_square 2 2).output_height).success = true :=
  by
  have hg : one_square.generated = false := by decide
  have hr : height_loop ⟨1, 1, 4, 4⟩ 4 4 1 one_square = some (attempt_state one_square 2 2) := by
    decide
  have hacc : (attempt_state one_square 2 2).generated = true := by decide
  have h := C9_dimension_minimality ⟨1, 1, 4, 4⟩ (by decide) (by decide) (by decide) (by decide)
    4 4 one_square (attempt_state one_square 2 2) hg hr hacc
  exact ⟨⟨hg, hr, hacc⟩, h.1⟩

/-- C10 (evaluation): on a 4 x 4 canvas both one-pixel records are placed
(`current_texture - start_texture = 2`), but `save_atlas` is called with the
count 1 and writes the first record only. -/
theorem C10_emitted_one_short :
    run ⟨4, 4, 4, 4⟩ 2 2 two_tiles = ([two_tiles_page], outcome.finished) ∧
    (two_tiles_page.start_texture, two_tiles_page.current_texture, two_tiles_page.count,
      two_tiles_page.written) = (0, 2, 1, [⟨"a", 0, 0⟩]) := by
  decide

/-! ## A run that never ends -/

/-- One turn of the page loop, read off the page iteration. -/
theorem page_loop_step (b : bounds) (df fuel : Nat) (s s2 : state) (a c : Nat)
    (hc : s.current_texture < s.textures.length)
    (h : (page_iteration b df s).map (fun r => (r.1.start_texture, r.1.current_texture, r.2))
      = .ok (a, c, s2)) :
    (page_loop b df (fuel + 1) s).1.map (fun p => (p.start_texture, p.current_texture))
      = (a, c) :: (page_loop b df fuel s2).1.map (fun p => (p.start_texture, p.current_texture)) ∧
    (page_loop b df (fuel + 1) s).2 = (page_loop b df fuel s2).2 := by
  rw [page_loop, if_pos hc]
  cases hi : page_iteration b df s with
  | error o => rw [hi] at h; cases h
  | ok r =>
    obtain ⟨p, s'⟩ := r
    rw [hi] at h
    simp only [Except.map, Except.ok.injEq, Prod.mk.injEq] at h
    obtain ⟨h1, h2, h3⟩ := h
    subst h3
    simp only [List.map_cons, h1, h2, and_self]

/-- With the second one-pixel record left over on a 1 x 1 canvas, a page
iteration places nothing and changes `atlas_count` only. -/
theorem second_tile_left_iteration (k st : Nat) :
    (page_iteration ⟨1, 1, 1, 1⟩ 2 (second_tile_left k st)).map
      (fun r => (r.1.start_texture, r.1.current_texture, r.2))
      = .ok (1, 1, second_tile_left (k + 1) 1) := by
  rfl

theorem second_tile_left_loop : ∀ (fuel k st : Nat),
    (page_loop ⟨1, 1, 1, 1⟩ 2 fuel (second_tile_left k st)).1.map
      (fun p => (p.start_texture, p.current_texture)) = List.replicate fuel (1, 1) ∧
    (page_loop ⟨1, 1, 1, 1⟩ 2 fuel (second_tile_left k st)).2 = outcome.running := by
  intro fuel
  induction fuel with
  | zero => intro k st; exact ⟨rfl, rfl⟩
  | succ fuel ih =>
    intro k st
    obtain ⟨h1, h2⟩ := page_loop_step ⟨1, 1, 1, 1⟩ 2 fuel (second_tile_left k st)
      (second_tile_left (k + 1) 1) 1 1 (by show 1 < 2; decide) (second_tile_left_iteration k st)
    rw [h1, h2, (ih (k + 1) 1).1, (ih (k + 1) 1).2]
    exact ⟨rfl, rfl⟩

/-- C4 (evaluation): two one-pixel records with all four bounds equal to 1.
The first page iteration places the first record; every later iteration starts
and ends with `current_texture = 1`, places nothing, and the page loop is still
running after any number of iterations. -/
theorem C4_pages_never_end (fuel : Nat) :
    (run ⟨1, 1, 1, 1⟩ 2 (fuel + 1) two_tiles).1.map
      (fun p => (p.start_texture, p.current_texture)) = (0, 1) :: List.replicate fuel (1, 1) ∧
    (run ⟨1, 1, 1, 1⟩ 2 (fuel + 1) two_tiles).2 = outcome.running := by
  have hfirst : (page_iteration ⟨1, 1, 1, 1⟩ 2 (initial_state ⟨1, 1, 1, 1⟩ two_tiles)).map
      (fun r => (r.1.start_texture, r.1.current_texture, r.2))
      = .ok (0, 1, second_tile_left 2 0) := by rfl
  obtain ⟨h1, h2⟩ := page_loop_step ⟨1, 1, 1, 1⟩ 2 fuel (initial_state ⟨1, 1, 1, 1⟩ two_tiles)
    (second_tile_left 2 0) 0 1 (by decide) hfirst
  unfold run
  rw [h1, h2, (second_tile_left_loop fuel 2 0).1, (second_tile_left_loop fuel 2 0).2]
  exact ⟨rfl, rfl⟩

/-- The same with the default bounds and two records of 1024 x 1024: the second
record is never placed. -/
theorem default_bounds_second_page_empty :
    (run ⟨256, 256, 1024, 1024⟩ 3 3
        [loaded "a" 1024 1024, loaded "b" 1024 1024]).1.map
      (fun p => (p.atlas_count, p.start_texture, p.current_texture, p.written))
      = [(1, 0, 1, []), (2, 1, 1, []), (3, 1, 1, [])] ∧
    (run ⟨256, 256, 1024, 1024⟩ 3 3
        [loaded "a" 1024 1024, loaded "b" 1024 1024]).2 = outcome.running := by
  decide!

/-! ## The overlap predicate -/

/-- A sum that is a value of an `int` is not changed by the 32-bit addition. -/
theorem add32_small (a b : Int) (h0 : -2147483648 ≤ a + b) (h1 : a + b < 2147483648) :
    add32 a b = a + b := by
  unfold add32 toInt32 toUnsigned
  generalize a + b = z at *
  have hz : 0 ≤ z % 4294967296 := Int.emod_nonneg _ (by decide)
  have hlt : z % 4294967296 < 4294967296 := Int.emod_lt_of_pos _ (by decide)
  have hn : (((z % 4294967296).toNat : Nat) : Int) = z % 4294967296 := Int.toNat_of_nonneg hz
  have hm : (z % 4294967296).toNat % 4294967296 = (z % 4294967296).toNat :=
    Nat.mod_eq_of_lt (by omega)
  rw [hm]
  split <;> omega

theorem rect_overlaps_true_iff (A B : rect_t) (hA : edges_fit A) (hB : edges_fit B) :
    rect_overlaps A B = true ↔
      ¬ (A.x > B.x + B.width ∨ B.x > A.x + A.width ∨
         A.y > B.y + B.height ∨ B.y > A.y + A.height) := by
  unfold rect_overlaps
  rw [add32_small A.x A.width hA.1 hA.2.1, add32_small A.y A.height hA.2.2.1 hA.2.2.2,
    add32_small B.x B.width hB.1 hB.2.1, add32_small B.y B.height hB.2.2.1 hB.2.2.2]
  split
  · rename_i h; simp only [Bool.false_eq_true, false_iff, not_not]; exact h
  · rename_i h; simp only [true_iff]; exact h

theorem rect_overlaps_false_iff (A B : rect_t) (hA : edges_fit A) (hB : edges_fit B) :
    rect_overlaps A B = false ↔
      (A.x > B.x + B.width ∨ B.x > A.x + A.width ∨
       A.y > B.y + B.height ∨ B.y > A.y + A.height) := by
  rw [← Bool.not_eq_true, rect_overlaps_true_iff A B hA hB, not_not]

/-- C17 (amended): for rectangles `A` and `B` whose edges `x + width` and
`y + height` are values of an `int`, `rect_overlaps A B` is true exactly when
none of `A.x > B.x + B.width`, `B.x > A.x + A.width`, `A.y > B.y + B.height`,
`B.y > A.y + A.height` holds; in particular, for non-negative sizes, a rectangle
`B` that starts on the right edge of `A` (`B.x = A.x + A.width`, same `y` and
`height`) is reported as overlapping `A`. -/
theorem C17_overlap_predicate (A B : rect_t) (hA : edges_fit A) (hB : edges_fit B) :
    (rect_overlaps A B = true ↔
      ¬ (A.x > B.x + B.width ∨ B.x > A.x + A.width ∨
         A.y > B.y + B.height ∨ B.y > A.y + A.height)) ∧
    (0 ≤ A.width → 0 ≤ A.height → 0 ≤ B.width → 0 ≤ B.height →
      B.x = A.x + A.width → B.y = A.y → B.height = A.height →
      rect_overlaps A B = true) := by
  have hiff := rect_overlaps_true_iff A B hA hB
  refine ⟨hiff, ?_⟩
  intro hw hh hbw hbh hx hy hhe
  rw [hiff]
  omega

/-- Witness of C17: `left_tile` and `right_tile` share a boundary line only. -/
theorem C17_overlap_predicate_witness :
    edges_fit left_tile ∧ edges_fit right_tile ∧
    (rect_overlaps left_tile right_tile = true ↔
      ¬ (left_tile.x > right_tile.x + right_tile.width ∨
         right_tile.x > left_tile.x + left_tile.width ∨
         left_tile.y > right_tile.y + right_tile.height ∨
         right_tile.y > left_tile.y + left_tile.height)) ∧
    (0 ≤ left_tile.width ∧ 0 ≤ left_tile.height ∧ 0 ≤ right_tile.width ∧
      0 ≤ right_tile.height ∧ right_tile.x = left_tile.x + left_tile.width ∧
      right_tile.y = left_tile.y ∧ right_tile.height = left_tile.height) ∧
    rect_overlaps left_tile right_tile = true := by
  have hl : edges_fit left_tile := by unfold edges_fit; decide
  have hr : edges_fit right_tile := by unfold edges_fit; decide
  exact ⟨hl, hr, (C17_overlap_predicate left_tile right_tile hl hr).1, by decide,
    (C17_overlap_predicate left_tile right_tile hl hr).2 (by decide) (by decide) (by decide)
      (by decide) (by decide) (by decide) (by decide)⟩

/-- C17 (counterexample): the rectangles `wide_tile` and `far_tile` have
non-negative coordinates and sizes and share the boundary line `x = 2147483647`,
and none of the four comparisons of the claim holds for them; the sum
`far_tile.x + far_tile.width` wraps to a negative `int` and `rect_overlaps`
returns false. -/
theorem C17_sum_wraps :
    (0 ≤ wide_tile.x ∧ 0 ≤ wide_tile.y ∧ 0 ≤ wide_tile.width ∧ 0 ≤ wide_tile.height ∧
      0 ≤ far_tile.x ∧ 0 ≤ far_tile.y ∧ 0 ≤ far_tile.width ∧ 0 ≤ far_tile.height) ∧
    far_tile.x = wide_tile.x + wide_tile.width ∧
    ¬ (wide_tile.x > far_tile.x + far_tile.width ∨ far_tile.x > wide_tile.x + wide_tile.width ∨
       wide_tile.y > far_tile.y + far_tile.height ∨
       far_tile.y > wide_tile.y + wide_tile.height) ∧
    add32 far_tile.x far_tile.width = -2147483648 ∧
    rect_overlaps wide_tile far_tile = false := by
  decide

/-! ## Sorting a sorted array -/

theorem set_tex_self (l : List texture_t) (i : Nat) : l.set i (tex l i) = l := by
  apply List.ext_getElem?
  intro n
  rw [List.getElem?_set]
  by_cases h : i = n
  · subst h
    rw [if_pos rfl]
    by_cases hl : i < l.length
    · rw [if_pos hl, tex_eq_getElem l i hl, List.getElem?_eq_getElem hl]
    · rw [if_neg hl, List.getElem?_eq_none (by omega)]
  · rw [if_neg h]

/-- The inner loop keeps `min` when no visited entry is larger. -/
theorem sort_select_stays (ts : List texture_t) (n y min : Nat) (hmin : min ≤ y)
    (h : ∀ k, y ≤ k → k < y + n → (tex ts k).pixel_size ≤ (tex ts min).pixel_size) :
    sort_select ts n y min = min := by
  obtain ⟨h1, _, _, _, h5⟩ := sort_select_spec ts n y min hmin
  by_contra hne
  have hlt := h5 hne
  rcases h1 with e | ⟨e1, e2⟩
  · exact hne e
  · have := h _ e1 e2
    omega

theorem sort_loop_sorted_id (count : Nat) : ∀ (n x : Nat) (ts : List texture_t),
    x + n ≤ count →
    (∀ i j, i < j → j < count → (tex ts j).pixel_size ≤ (tex ts i).pixel_size) →
    sort_loop count n x ts = ts := by
  intro n
  induction n with
  | zero => intro x ts _ _; rfl
  | succ n ih =>
    intro x ts hx hs
    simp only [sort_loop]
    have hsel : sort_select ts (count - x) x x = x := by
      apply sort_select_stays ts (count - x) x x (le_refl _)
      intro k hk1 hk2
      by_cases hkx : k = x
      · subst hkx; exact le_refl _
      · exact hs x k (by omega) (by omega)
    rw [hsel, set_tex_self, set_tex_self]
    exact ih (x + 1) ts (by omega) hs

theorem sort_textures_sorted_id (ts : List texture_t)
    (hs : ∀ i j, i < j → j < ts.length → (tex ts j).pixel_size ≤ (tex ts i).pixel_size) :
    sort_textures ts ts.length = ts :=
  sort_loop_sorted_id ts.length ts.length 0 ts (by omega) hs

theorem sort_textures_idem (ts : List texture_t) :
    sort_textures (sort_textures ts ts.length) (sort_textures ts ts.length).length
      = sort_textures ts ts.length := by
  apply sort_textures_sorted_id
  intro i j hij hj
  rw [sort_textures_length] at hj
  exact sort_loop_sorted ts.length ts.length 0 ts (by omega) (le_refl _)
    (by intro i j hi; omega) i j hij hj

/-! ## The flag `generated` -/

theorem fit_loop_count (W H : Nat) : ∀ (n c : Nat) (ts : List texture_t),
    c ≤ (fit_loop W H n c ts).current_texture ∧
    (fit_loop W H n c ts).current_texture ≤ c + n ∧
    ((fit_loop W H n c ts).success = true ↔ (fit_loop W H n c ts).current_texture = c + n) := by
  intro n
  induction n with
  | zero => intro c ts; simp [fit_loop]
  | succ n ih =>
    intro c ts
    simp only [fit_loop]
    split
    · rename_i ts' _
      obtain ⟨h1, h2, h3⟩ := ih (c + 1) ts'
      refine ⟨by omega, by omega, ?_⟩
      rw [h3]
      omega
    · simp only [Bool.false_eq_true, false_iff]
      refine ⟨le_refl _, by omega, by omega⟩

/-- The placed count of an attempt lies between 0 and the number of remaining
records, and `success` says that all of them were placed. -/
theorem fit_count (ts : List texture_t) (start W H : Nat) (hs : start ≤ ts.length) :
    start ≤ (fit ts start W H).current_texture ∧
    (fit ts start W H).current_texture ≤ ts.length ∧
    ((fit ts start W H).success = true ↔ (fit ts start W H).current_texture = ts.length) := by
  unfold fit
  obtain ⟨h1, h2, h3⟩ := fit_loop_count W H (ts.length - start) start (reset_xy ts)
  refine ⟨h1, by omega, ?_⟩
  rw [h3]
  omega

theorem validate_length (mw mh : Nat) (ts ts' : List texture_t)
    (h : validate mw mh ts = some ts') : ts'.length = ts.length := by
  have := congrArg List.length (validate_dib mw mh ts ts' h)
  simpa using this

/-- A page iteration keeps `current_texture` within the array and sets
`generated` only together with `current_texture = texture_count`. -/
theorem page_iteration_generated (b : bounds) (df : Nat) (s : state) (p : page) (s2 : state)
    (hc : s.current_texture ≤ s.textures.length)
    (hg : s.generated = true → s.current_texture = s.textures.length)
    (h : page_iteration b df s = .ok (p, s2)) :
    s2.current_texture ≤ s2.textures.length ∧
    (s2.generated = true → s2.current_texture = s2.textures.length) := by
  obtain ⟨ts0, s', hv, hh, _, hs2⟩ := page_iteration_ok b df s p s2 h
  have hlen : (sort_textures ts0 ts0.length).length = s.textures.length := by
    rw [sort_textures_length, validate_length _ _ _ _ hv]
  rw [hs2]
  simp only
  rcases height_loop_result b _ _ _ _ _ hh with ⟨e1, e2, _, _, e5⟩ | ⟨W, H, _, _, _, e⟩
  · rw [e1, e2, e5]
    simp only [search_start]
    rw [hlen]
    exact ⟨hc, hg⟩
  · rw [e]
    simp only [attempt_state, after_fit, search_start]
    have hst : s.current_texture ≤ (sort_textures ts0 ts0.length).length := by
      rw [hlen]; exact hc
    obtain ⟨_, h2, h3⟩ := fit_count (sort_textures ts0 ts0.length) s.current_texture W H hst
    rw [fit_length]
    exact ⟨h2, h3.mp⟩

theorem iteration_heads_generated (b : bounds) (df : Nat) : ∀ (fuel : Nat) (s : state),
    s.current_texture ≤ s.textures.length →
    (s.generated = true → s.current_texture = s.textures.length) →
    ∀ s0 ∈ iteration_heads b df fuel s,
      s0.generated = false ∧
      ∀ p s2, page_iteration b df s0 = .ok (p, s2) →
        s2.generated = true → s2.current_texture = s2.textures.length := by
  intro fuel
  induction fuel with
  | zero =>
    intro s hc hg s0 hs0
    rw [iteration_heads] at hs0
    split at hs0
    · rename_i hlt
      simp only [List.mem_singleton] at hs0
      subst hs0
      refine ⟨?_, fun p s2 h => (page_iteration_generated b df s0 p s2 hc hg h).2⟩
      cases hgen : s0.generated with
      | false => rfl
      | true => have := hg hgen; omega
    · simp at hs0
  | succ fuel ih =>
    intro s hc hg s0 hs0
    rw [iteration_heads] at hs0
    split at hs0
    · rename_i hlt
      have hhead : s.generated = false ∧
          ∀ p s2, page_iteration b df s = .ok (p, s2) →
            s2.generated = true → s2.current_texture = s2.textures.length := by
        refine ⟨?_, fun p s2 h => (page_iteration_generated b df s p s2 hc hg h).2⟩
        cases hgen : s.generated with
        | false => rfl
        | true => have := hg hgen; omega
      cases hi : page_iteration b df s with
      | error o =>
        rw [hi] at hs0
        simp only [List.mem_singleton] at hs0
        subst hs0
        exact hhead
      | ok r =>
        obtain ⟨p1, s1⟩ := r
        rw [hi] at hs0
        simp only [List.mem_cons] at hs0
        rcases hs0 with e | e
        · subst e; exact hhead
        · obtain ⟨a1, a2⟩ := page_iteration_generated b df s p1 s1 hc hg hi
          exact ih s1 a1 a2 s0 e
    · simp at hs0

/-- C19: at the head of every page iteration of a run `generated` is false;
an iteration leaves it true only together with `current_texture` equal to the
number of records, after which the loop condition fails, so the dimension loops
are never skipped because of a flag set on an earlier page. -/
theorem C19_generated_false_at_iteration_start (b : bounds) (dim_fuel fuel : Nat)
    (textures : List texture_t) (s : state)
    (hs : s ∈ iteration_heads b dim_fuel fuel (initial_state b textures)) :
    s.generated = false ∧
    ∀ p s2, page_iteration b dim_fuel s = .ok (p, s2) →
      s2.generated = true → s2.current_texture = s2.textures.length :=
  iteration_heads_generated b dim_fuel fuel (initial_state b textures) (Nat.zero_le _)
    (fun h => by simp [initial_state] at h) s hs

/-- Witness of C19: the run of three one-pixel records with the bounds 4, 1,
4, 1 has two page iterations; at the head of the second one, after page 1 with
`a` and `b`, `generated` is false, and that iteration sets it together with
`current_texture = 3`. -/
theorem C19_generated_false_at_iteration_start_witness :
    iteration_heads ⟨4, 1, 4, 1⟩ 2 3 (initial_state ⟨4, 1, 4, 1⟩ three_tiles)
      = [initial_state ⟨4, 1, 4, 1⟩ three_tiles, three_tiles_second] ∧
    three_tiles_second.atlas_count = 2 ∧
    three_tiles_second.generated = false ∧
    (∀ p s2, page_iteration ⟨4, 1, 4, 1⟩ 2 three_tiles_second = .ok (p, s2) →
      s2.generated = true → s2.current_texture = s2.textures.length) ∧
    (page_iteration ⟨4, 1, 4, 1⟩ 2 three_tiles_second).map
      (fun r => (r.2.generated, r.2.current_texture, r.2.textures.length)) = .ok (true, 3, 3) := by
  have he : iteration_heads ⟨4, 1, 4, 1⟩ 2 3 (initial_state ⟨4, 1, 4, 1⟩ three_tiles)
      = [initial_state ⟨4, 1, 4, 1⟩ three_tiles, three_tiles_second] := by decide!
  have hm : three_tiles_second
      ∈ iteration_heads ⟨4, 1, 4, 1⟩ 2 3 (initial_state ⟨4, 1, 4, 1⟩ three_tiles) := by
    rw [he]; exact List.mem_cons_of_mem _ (List.mem_singleton_self _)
  have h := C19_generated_false_at_iteration_start ⟨4, 1, 4, 1⟩ 2 3 three_tiles
    three_tiles_second hm
  exact ⟨he, rfl, h.1, h.2, rfl⟩

/-! ## Output names -/

theorem strstr_dot_append (stem rest : List Char) (h : '.' ∉ stem) :
    strstr_dot (stem ++ '.' :: rest) = some ('.' :: rest) := by
  induction stem with
  | nil => simp [strstr_dot]
  | cons c cs ih =>
    have hc : c ≠ '.' := fun e => h (by simp [e])
    have hcs : '.' ∉ cs := fun e => h (List.mem_cons_of_mem _ e)
    simp only [List.cons_append, strstr_dot, if_neg hc]
    exact ih hcs

theorem strcpy_at_dot_append (stem rest src : List Char) (h : '.' ∉ stem) :
    strcpy_at_dot (stem ++ '.' :: rest) src = some (stem ++ src) := by
  induction stem with
  | nil => simp [strcpy_at_dot]
  | cons c cs ih =>
    have hc : c ≠ '.' := fun e => h (by simp [e])
    have hcs : '.' ∉ cs := fun e => h (List.mem_cons_of_mem _ e)
    rw [List.cons_append, strcpy_at_dot, if_neg hc, ih hcs]
    rfl

/-- C13: for an output name `stem.ext` whose stem has no dot and a page number
`N >= 1`, the image file of page `N` is named `stem`, the decimal digits of
`N`, a dot and `ext`, and the manifest file `stem`, the digits of `N` and
`.txt`. -/
theorem C13_page_file_names (stem ext : List Char) (N : Nat) (hstem : '.' ∉ stem)
    (hN : 1 ≤ N) :
    page_file_names (stem ++ '.' :: ext) N =
      some (stem ++ Nat.toDigits 10 N ++ '.' :: ext,
            stem ++ Nat.toDigits 10 N ++ ['.', 't', 'x', 't']) := by
  have hpos : N > 0 := hN
  simp only [page_file_names, if_pos hpos, itoa, strcpy_at_dot_append _ _ _ hstem,
    strstr_dot_append _ _ hstem]

/-- Witness of C13: page 2 of `atlas.png` is `atlas2.png` with `atlas2.txt`. -/
theorem C13_page_file_names_witness :
    ('.' ∉ "atlas".data ∧ 1 ≤ 2) ∧
    (page_file_names "atlas.png".data 2 = some ("atlas2.png".data, "atlas2.txt".data)) :=
  ⟨⟨by decide, by decide⟩, C13_page_file_names "atlas".data "png".data 2 (by decide) (by decide)⟩

/-! ## Minimum dimensions on the command line -/

/-- C14 (evaluation): a minimum of zero is reported and ends the run, but the
minimum -1 is stored in the unsigned variable as 4294967295, passes the test
`min_width <= 0` and the run goes on with it. -/
theorem C14_negative_minimum_accepted :
    parse_bounds 7 1024 1024 0 256 = none ∧
    parse_bounds 7 1024 1024 (-1) 256 = some ⟨4294967295, 256, 1024, 1024⟩ := by
  decide

/-! ## Records of earlier pages in the overlap test -/

/-- C15 (evaluation): two one-pixel records with all four bounds equal to 1.
On the second page the attempt of the run places no record (`current_texture`
stays at `start_texture = 1`), while the same attempt on the remaining record
alone places it. -/
theorem C15_second_page_differs :
    (run ⟨1, 1, 1, 1⟩ 2 2 two_tiles).1.map
      (fun p => (p.start_texture, p.current_texture - p.start_texture,
        (fit_suffix p.textures p.start_texture p.output_width p.output_height).current_texture,
        (fit_suffix p.textures p.start_texture p.output_width p.output_height).success))
      = [(0, 1, 1, false), (1, 0, 1, true)] := by
  decide!

/-! ## What the scan loops compute -/

theorem set_xy_set_xy (ts : List texture_t) (c x y x' y' : Nat) :
    set_xy (set_xy ts c x y) c x' y' = set_xy ts c x' y' := by
  by_cases hc : c < ts.length
  · have h1 := set_xy_eq ts c x y hc
    simp only [set_xy] at h1 ⊢
    rw [h1, List.set_set]
  · have e : ∀ a b, set_xy ts c a b = ts := by
      intro a b
      simp only [set_xy]
      exact List.set_eq_of_length_le (by omega)
    rw [e x y, e x' y']

theorem set_xy_size (ts : List texture_t) (c x y : Nat) :
    (tex (set_xy ts c x y) c).dest.width = (tex ts c).dest.width ∧
    (tex (set_xy ts c x y) c).dest.height = (tex ts c).dest.height :=
  size_of_reset_eq ts (set_xy ts c x y) (reset_xy_set_xy ts c x y) c

theorem same_scan_refl (c : Nat) (ts : List texture_t) : same_scan c ts ts := Or.inl rfl

theorem same_scan_set (c : Nat) (ts ts0 : List texture_t) (h : same_scan c ts ts0) (x y : Nat) :
    set_xy ts0 c x y = set_xy ts c x y := by
  rcases h with e | ⟨a, b, e⟩
  · rw [e]
  · rw [e, set_xy_set_xy]

theorem same_scan_size (c : Nat) (ts ts0 : List texture_t) (h : same_scan c ts ts0) :
    (tex ts0 c).dest.width = (tex ts c).dest.width ∧
    (tex ts0 c).dest.height = (tex ts c).dest.height := by
  rcases h with e | ⟨a, b, e⟩
  · rw [e]; exact ⟨rfl, rfl⟩
  · rw [e]; exact set_xy_size ts c a b

theorem same_scan_clash (c : Nat) (ts ts0 : List texture_t) (h : same_scan c ts ts0)
    (x y : Nat) : clash ts0 c x y = clash ts c x y := by
  unfold clash
  rw [same_scan_set c ts ts0 h]

/-- The loop over `x`: the array changes in the position of the record `c`
only; a fitted record sits at the first candidate of the row that clashes with
no record below it; an unfitted one clashes at every candidate of the row. -/
theorem scan_x_spec (c W y : Nat) (ts : List texture_t) (hW : W < 2147483648)
    (hw0 : 0 ≤ (tex ts c).dest.width) (hw1 : (tex ts c).dest.width < 2147483648) :
    ∀ (n x0 : Nat) (ts0 : List texture_t), same_scan c ts ts0 → x0 + n ≤ W →
    same_scan c ts (scan_x c W y n x0 ts0).1 ∧
    ((scan_x c W y n x0 ts0).2 = true →
      ∃ X, x0 ≤ X ∧ X < x0 + n ∧ (X : Int) + (tex ts c).dest.width ≤ W ∧
        (scan_x c W y n x0 ts0).1 = set_xy ts c X y ∧ clash ts c X y = false ∧
        ∀ x', x0 ≤ x' → x' < X → clash ts c x' y = true) ∧
    ((scan_x c W y n x0 ts0).2 = false →
      ∀ x', x0 ≤ x' → x' < x0 + n → (x' : Int) + (tex ts c).dest.width ≤ W →
        clash ts c x' y = true) := by
  intro n
  induction n with
  | zero =>
    intro x0 ts0 hs _
    simp only [scan_x]
    refine ⟨hs, fun h => by simp at h, ?_⟩
    intro _ x' h1 h2
    omega
  | succ n ih =>
    intro x0 ts0 hs hx
    simp only [scan_x]
    have hwid := (same_scan_size c ts ts0 hs).1
    have hu := toUnsigned_small _ hw0 hw1
    rw [hwid]
    have hlt : x0 + toUnsigned (tex ts c).dest.width < 4294967296 := by omega
    rw [Nat.mod_eq_of_lt hlt, same_scan_set c ts ts0 hs]
    split
    · rename_i hchk
      refine ⟨hs, fun h => by simp at h, ?_⟩
      intro _ x' h1 h2 h3
      omega
    · rename_i hchk
      have hs1 : same_scan c ts (set_xy ts c x0 y) := Or.inr ⟨x0, y, rfl⟩
      have hcl : overlap_any (set_xy ts c x0 y) c = clash ts c x0 y := rfl
      split
      · rename_i hov
        obtain ⟨i1, i2, i3⟩ := ih (x0 + 1) (set_xy ts c x0 y) hs1 (by omega)
        refine ⟨i1, ?_, ?_⟩
        · intro h
          obtain ⟨X, a1, a2, a3, a4, a5, a6⟩ := i2 h
          refine ⟨X, by omega, by omega, a3, a4, a5, ?_⟩
          intro x' b1 b2
          by_cases hx' : x' = x0
          · subst hx'; rw [← hcl]; exact hov
          · exact a6 x' (by omega) b2
        · intro h x' b1 b2 b3
          by_cases hx' : x' = x0
          · subst hx'; rw [← hcl]; exact hov
          · exact i3 h x' (by omega) (by omega) b3
      · rename_i hov
        refine ⟨hs1, ?_, fun h => by simp at h⟩
        intro _
        refine ⟨x0, le_refl _, by omega, by omega, rfl, ?_, ?_⟩
        · rw [← hcl]; simpa using hov
        · intro x' b1 b2; omega

/-- The loop over the scanlines: a fitted record sits at the first candidate in
row-major order that clashes with no record below it; an unfitted one clashes
at every candidate. -/
theorem scan_y_spec (c W H : Nat) (ts : List texture_t) (hW : W < 2147483648)
    (hH : H < 2147483648)
    (hw0 : 0 ≤ (tex ts c).dest.width) (hw1 : (tex ts c).dest.width < 2147483648)
    (hh0 : 0 ≤ (tex ts c).dest.height) (hh1 : (tex ts c).dest.height < 2147483648) :
    ∀ (n y0 : Nat) (ts0 : List texture_t), same_scan c ts ts0 → y0 + n ≤ H →
    same_scan c ts (scan_y c W H n y0 ts0).1 ∧
    ((scan_y c W H n y0 ts0).2 = true →
      ∃ X Y, y0 ≤ Y ∧ Y < y0 + n ∧ X < W ∧ (X : Int) + (tex ts c).dest.width ≤ W ∧
        (Y : Int) + (tex ts c).dest.height ≤ H ∧
        (scan_y c W H n y0 ts0).1 = set_xy ts c X Y ∧ clash ts c X Y = false ∧
        (∀ x', x' < X → clash ts c x' Y = true) ∧
        (∀ y' x', y0 ≤ y' → y' < Y → x' < W → (x' : Int) + (tex ts c).dest.width ≤ W →
          clash ts c x' y' = true)) ∧
    ((scan_y c W H n y0 ts0).2 = false →
      ∀ y' x', y0 ≤ y' → y' < y0 + n → (y' : Int) + (tex ts c).dest.height ≤ H →
        x' < W → (x' : Int) + (tex ts c).dest.width ≤ W → clash ts c x' y' = true) := by
  intro n
  induction n with
  | zero =>
    intro y0 ts0 hs _
    simp only [scan_y]
    refine ⟨hs, fun h => by simp at h, ?_⟩
    intro _ y' x' h1 h2
    omega
  | succ n ih =>
    intro y0 ts0 hs hy
    simp only [scan_y]
    have hhei := (same_scan_size c ts ts0 hs).2
    have hu := toUnsigned_small _ hh0 hh1
    rw [hhei]
    have hlt : y0 + toUnsigned (tex ts c).dest.height < 4294967296 := by omega
    rw [Nat.mod_eq_of_lt hlt]
    split
    · rename_i hchk
      refine ⟨hs, fun h => by simp at h, ?_⟩
      intro _ y' x' h1 h2 h3
      omega
    · rename_i hchk
      obtain ⟨r1, r2, r3⟩ := scan_x_spec c W y0 ts hW hw0 hw1 W 0 ts0 hs (by omega)
      split
      · rename_i ts1 e
        rw [e] at r1 r2
        simp only at r1 r2
        refine ⟨r1, ?_, fun h => by simp at h⟩
        intro _
        obtain ⟨X, a1, a2, a3, a4, a5, a6⟩ := r2 trivial
        refine ⟨X, y0, le_refl _, by omega, by omega, a3, by omega, a4, a5, ?_, ?_⟩
        · intro x' b; exact a6 x' (by omega) b
        · intro y' x' b1 b2; omega
      · rename_i ts1 e
        rw [e] at r1 r3
        simp only at r1 r3
        have hrow := r3 trivial
        obtain ⟨i1, i2, i3⟩ := ih (y0 + 1) ts1 r1 (by omega)
        refine ⟨i1, ?_, ?_⟩
        · intro h
          obtain ⟨X, Y, a1, a2, a3, a4, a5, a6, a7, a8, a9⟩ := i2 h
          refine ⟨X, Y, by omega, by omega, a3, a4, a5, a6, a7, a8, ?_⟩
          intro y' x' b1 b2 b3 b4
          by_cases hy' : y' = y0
          · subst hy'; exact hrow x' (by omega) (by omega) b4
          · exact a9 y' x' (by omega) b2 b3 b4
        · intro h y' x' b1 b2 b3 b4 b5
          by_cases hy' : y' = y0
          · subst hy'; exact hrow x' (by omega) (by omega) b5
          · exact i3 h y' x' (by omega) (by omega) b3 b4 b5

theorem clash_iff (ts : List texture_t) (c x y : Nat) (hc : c < ts.length) :
    clash ts c x y = true ↔
      ∃ i, i < c ∧ rect_overlaps
        ⟨toInt32 x, toInt32 y, (tex ts c).dest.width, (tex ts c).dest.height⟩
        (tex ts i).dest = true := by
  unfold clash overlap_any
  rw [List.any_eq_true]
  constructor
  · rintro ⟨i, hi, h⟩
    have hi' : i < c := List.mem_range.mp hi
    rw [set_xy_eq ts c x y hc, set_xy_ne ts c x y i (by omega)] at h
    exact ⟨i, hi', h⟩
  · rintro ⟨i, hi, h⟩
    refine ⟨i, List.mem_range.mpr hi, ?_⟩
    rw [set_xy_eq ts c x y hc, set_xy_ne ts c x y i (by omega)]
    exact h

theorem clash_congr (ts ts' : List texture_t) (c x y : Nat) (hc : c < ts.length)
    (hc' : c < ts'.length) (h : ∀ k, k ≤ c → tex ts' k = tex ts k) :
    clash ts' c x y = clash ts c x y := by
  rw [Bool.eq_iff_iff, clash_iff ts c x y hc, clash_iff ts' c x y hc', h c (le_refl _)]
  constructor
  · rintro ⟨i, hi, e⟩
    rw [h i (by omega)] at e
    exact ⟨i, hi, e⟩
  · rintro ⟨i, hi, e⟩
    rw [← h i (by omega)] at e
    exact ⟨i, hi, e⟩

theorem first_fit_congr (ts ts' : List texture_t) (j W H : Nat) (hj : j < ts.length)
    (hj' : j < ts'.length) (h : ∀ k, k ≤ j → tex ts' k = tex ts k)
    (hf : first_fit ts j W H) : first_fit ts' j W H := by
  obtain ⟨X, Y, a1, a2, a3, a4, a5, a6, a7, a8, a9⟩ := hf
  have hcl : ∀ x y, clash ts' j x y = clash ts j x y :=
    fun x y => clash_congr ts ts' j x y hj hj' h
  refine ⟨X, Y, ?_, ?_, a3, a4, ?_, ?_, ?_, ?_, ?_⟩
  · rw [h j (le_refl _)]; exact a1
  · rw [h j (le_refl _)]; exact a2
  · rw [h j (le_refl _)]; exact a5
  · rw [h j (le_refl _)]; exact a6
  · rw [hcl]; exact a7
  · intro x' b; rw [hcl]; exact a8 x' b
  · intro y' x' b1 b2 b3
    rw [hcl]
    rw [h j (le_refl _)] at b3
    exact a9 y' x' b1 b2 b3

theorem same_scan_ne (c : Nat) (ts ts0 : List texture_t) (h : same_scan c ts ts0) (k : Nat)
    (hk : k ≠ c) : tex ts0 k = tex ts k := by
  rcases h with e | ⟨a, b, e⟩
  · rw [e]
  · rw [e]; exact set_xy_ne ts c a b k hk

theorem same_scan_length (c : Nat) (ts ts0 : List texture_t) (h : same_scan c ts ts0) :
    ts0.length = ts.length := by
  rcases h with e | ⟨a, b, e⟩
  · rw [e]
  · rw [e]; exact set_xy_length ts c a b

theorem same_scan_reset (c : Nat) (ts ts0 : List texture_t) (h : same_scan c ts ts0) :
    reset_xy ts0 = reset_xy ts := by
  rcases h with e | ⟨a, b, e⟩
  · rw [e]
  · rw [e]; exact reset_xy_set_xy ts c a b

/-- The fit loop: every record it places is first-fitted, and when it stops
without success the record `current_texture` clashes at every candidate. -/
theorem fit_loop_first_fit (W H start : Nat) (hW : W < 2147483648) (hH : H < 2147483648) :
    ∀ (n c : Nat) (ts : List texture_t), n ≤ ts.length - c →
    (∀ k, 0 ≤ (tex ts k).dest.width ∧ (tex ts k).dest.width < 2147483648 ∧
          0 ≤ (tex ts k).dest.height ∧ (tex ts k).dest.height < 2147483648) →
    (∀ j, start ≤ j → j < c → first_fit ts j W H) →
    (∀ j, start ≤ j → j < (fit_loop W H n c ts).current_texture →
      first_fit (fit_loop W H n c ts).textures j W H) ∧
    ((fit_loop W H n c ts).success = false →
      ∀ y' x', y' < H →
        (y' : Int) + (tex (fit_loop W H n c ts).textures
          (fit_loop W H n c ts).current_texture).dest.height ≤ H →
        x' < W →
        (x' : Int) + (tex (fit_loop W H n c ts).textures
          (fit_loop W H n c ts).current_texture).dest.width ≤ W →
        clash (fit_loop W H n c ts).textures (fit_loop W H n c ts).current_texture x' y'
          = true) := by
  intro n
  induction n with
  | zero =>
    intro c ts _ _ h
    simp only [fit_loop]
    exact ⟨h, fun h => by simp at h⟩
  | succ n ih =>
    intro c ts hn hsz h
    simp only [fit_loop]
    have hc : c < ts.length := by omega
    obtain ⟨w0, w1, h0, h1⟩ := hsz c
    obtain ⟨r1, r2, r3⟩ := scan_y_spec c W H ts hW hH w0 w1 h0 h1 H 0 ts
      (same_scan_refl c ts) (by omega)
    split
    · rename_i ts' e
      rw [e] at r1 r2
      simp only at r1 r2
      obtain ⟨X, Y, a1, a2, a3, a4, a5, a6, a7, a8, a9⟩ := r2 trivial
      have hlen := same_scan_length c ts ts' r1
      have hsame := size_of_reset_eq ts ts' (same_scan_reset c ts ts' r1)
      apply ih (c + 1) ts' (by omega)
      · intro k
        rw [(hsame k).1, (hsame k).2]
        exact hsz k
      · intro j hsj hj
        by_cases hjc : j = c
        · subst hjc
          have hx : (tex ts' j).dest.x = (X : Int) := by
            rw [a6, set_xy_eq ts j X Y hc]
            exact toInt32_small X (by omega)
          have hy : (tex ts' j).dest.y = (Y : Int) := by
            rw [a6, set_xy_eq ts j X Y hc]
            exact toInt32_small Y (by omega)
          have hcl : ∀ x y, clash ts' j x y = clash ts j x y :=
            fun x y => same_scan_clash j ts ts' r1 x y
          refine ⟨X, Y, hx, hy, a3, by omega, ?_, ?_, ?_, ?_, ?_⟩
          · rw [(hsame j).1]; exact a4
          · rw [(hsame j).2]; exact a5
          · rw [hcl]; exact a7
          · intro x' b; rw [hcl]; exact a8 x' b
          · intro y' x' b1 b2 b3
            rw [hcl]
            rw [(hsame j).1] at b3
            exact a9 y' x' (by omega) b1 b2 b3
        · have hjlt : j < c := by omega
          apply first_fit_congr ts ts' j W H (by omega) (by omega) _ (h j hsj hjlt)
          intro k hk
          exact same_scan_ne c ts ts' r1 k (by omega)
    · rename_i ts' e
      rw [e] at r1 r3
      simp only at r1 r3
      have hlen := same_scan_length c ts ts' r1
      have hsame := size_of_reset_eq ts ts' (same_scan_reset c ts ts' r1)
      refine ⟨?_, ?_⟩
      · intro j hsj hj
        have hjlt : j < c := hj
        apply first_fit_congr ts ts' j W H (by omega) (by omega) _ (h j hsj hjlt)
        intro k hk
        exact same_scan_ne c ts ts' r1 k (by omega)
      · intro _ y' x' b1 b2 b3 b4
        simp only at b2 b4 ⊢
        rw [(hsame c).2] at b2
        rw [(hsame c).1] at b4
        rw [same_scan_clash c ts ts' r1]
        exact r3 trivial y' x' (by omega) (by omega) b2 b3 b4

theorem fit_first_fit (ts : List texture_t) (start W H : Nat) (hW : W < 2147483648)
    (hH : H < 2147483648) (hsz : sized ts) :
    (∀ j, start ≤ j → j < (fit ts start W H).current_texture →
      first_fit (fit ts start W H).textures j W H) ∧
    ((fit ts start W H).success = false →
      ∀ y' x', y' < H →
        (y' : Int) + (tex (fit ts start W H).textures
          (fit ts start W H).current_texture).dest.height ≤ H →
        x' < W →
        (x' : Int) + (tex (fit ts start W H).textures
          (fit ts start W H).current_texture).dest.width ≤ W →
        clash (fit ts start W H).textures (fit ts start W H).current_texture x' y' = true) := by
  unfold fit
  apply fit_loop_first_fit W H start hW hH
  · rw [reset_xy_length]
  · intro k
    have := size_of_reset_eq ts (reset_xy ts) (reset_xy_idem ts) k
    rw [this.1, this.2]
    exact sized_tex ts hsz k
  · intro j hsj hj
    omega

/-- C12: for a placement attempt on the records from `start` on at a canvas
`W` x `H` (sizes within `int`): the placed count `current_texture - start` is
between 0 and the number of remaining records; `success` holds exactly when all
remaining records are placed; every record placed lies in the canvas and
overlaps no record before it; and when `success` is false the record at
`current_texture` overlaps a record before it at every candidate position. -/
theorem C12_placement_result (ts : List texture_t) (start W H : Nat)
    (hstart : start ≤ ts.length) (hW : W < 2147483648) (hH : H < 2147483648)
    (hsz : sized ts) :
    (start ≤ (fit ts start W H).current_texture ∧
      (fit ts start W H).current_texture - start ≤ ts.length - start) ∧
    ((fit ts start W H).success = true ↔
      (fit ts start W H).current_texture - start = ts.length - start) ∧
    placed_inside (fit ts start W H).textures start (fit ts start W H).current_texture W H ∧
    placed_clear (fit ts start W H).textures start (fit ts start W H).current_texture ∧
    ((fit ts start W H).success = false →
      ∀ x y : Nat, x < W → y < H →
        (x : Int) + (tex (fit ts start W H).textures
          (fit ts start W H).current_texture).dest.width ≤ W →
        (y : Int) + (tex (fit ts start W H).textures
          (fit ts start W H).current_texture).dest.height ≤ H →
        ∃ i, i < (fit ts start W H).current_texture ∧
          rect_overlaps
            ⟨x, y,
             (tex (fit ts start W H).textures (fit ts start W H).current_texture).dest.width,
             (tex (fit ts start W H).textures (fit ts start W H).current_texture).dest.height⟩
            (tex (fit ts start W H).textures i).dest = true) := by
  obtain ⟨c1, c2, c3⟩ := fit_count ts start W H hstart
  refine ⟨⟨c1, by omega⟩, ?_, fit_inside ts start W H hW hH hsz, fit_clear ts start W H, ?_⟩
  · rw [c3]; omega
  · intro hf x y hx hy hxw hyh
    have hne : (fit ts start W H).current_texture ≠ ts.length := by
      intro e
      rw [c3.mpr e] at hf
      cases hf
    have hlt : (fit ts start W H).current_texture < (fit ts start W H).textures.length := by
      rw [fit_length]; omega
    have hcl := (fit_first_fit ts start W H hW hH hsz).2 hf y x hy hyh hx hxw
    rw [clash_iff _ _ _ _ hlt, toInt32_small x (by omega), toInt32_small y (by omega)] at hcl
    exact hcl

/-- C16: in a placement attempt from start index 0 on a canvas `W` x `H`
(sizes within `int`), every candidate position of a placed record of positive
size that lies in the canvas and precedes the record's position in row-major
order overlaps a record placed before it in the attempt; in particular the
first record, when placed, is at (0, 0). -/
theorem C16_first_fit_row_major (ts : List texture_t) (W H : Nat) (hW : W < 2147483648)
    (hH : H < 2147483648) (hsz : sized ts) :
    (∀ j x' y' : Nat, j < (fit ts 0 W H).current_texture →
      0 < (tex (fit ts 0 W H).textures j).dest.width →
      0 < (tex (fit ts 0 W H).textures j).dest.height →
      (x' : Int) + (tex (fit ts 0 W H).textures j).dest.width ≤ W →
      (y' : Int) + (tex (fit ts 0 W H).textures j).dest.height ≤ H →
      ((y' : Int) < (tex (fit ts 0 W H).textures j).dest.y ∨
        ((y' : Int) = (tex (fit ts 0 W H).textures j).dest.y ∧
          (x' : Int) < (tex (fit ts 0 W H).textures j).dest.x)) →
      ∃ i, i < j ∧ rect_overlaps
        ⟨x', y', (tex (fit ts 0 W H).textures j).dest.width,
          (tex (fit ts 0 W H).textures j).dest.height⟩
        (tex (fit ts 0 W H).textures i).dest = true) ∧
    (0 < (fit ts 0 W H).current_texture →
      (tex (fit ts 0 W H).textures 0).dest.x = 0 ∧
      (tex (fit ts 0 W H).textures 0).dest.y = 0) := by
  obtain ⟨_, c2, _⟩ := fit_count ts 0 W H (Nat.zero_le _)
  have hff := (fit_first_fit ts 0 W H hW hH hsz).1
  constructor
  · intro j x' y' hj hw hh hx hy hprec
    obtain ⟨X, Y, a1, a2, a3, a4, a5, a6, a7, a8, a9⟩ := hff j (Nat.zero_le _) hj
    have hlt : j < (fit ts 0 W H).textures.length := by rw [fit_length]; omega
    have hcl : clash (fit ts 0 W H).textures j x' y' = true := by
      rcases hprec with hlt' | ⟨he, hlt'⟩
      · exact a9 y' x' (by omega) (by omega) hx
      · have hy' : y' = Y := by omega
        rw [hy']
        exact a8 x' (by omega)
    rw [clash_iff _ _ _ _ hlt, toInt32_small x' (by omega), toInt32_small y' (by omega)] at hcl
    exact hcl
  · intro h0
    obtain ⟨X, Y, a1, a2, a3, a4, a5, a6, a7, a8, a9⟩ := hff 0 (le_refl _) h0
    have hnone : ∀ x y, clash (fit ts 0 W H).textures 0 x y = false := by
      intro x y
      simp [clash, overlap_any]
    have hX : X = 0 := by
      by_contra hne
      have := a8 0 (by omega)
      rw [hnone] at this
      cases this
    have hY : Y = 0 := by
      by_contra hne
      have := a9 0 X (by omega) a3 a5
      rw [hnone] at this
      cases this
    rw [a1, a2, hX, hY]
    exact ⟨rfl, rfl⟩

/-! ## Computing a placement from its first-fit description -/

/-- The scan of the record `c` ends at `(X, Y)` when it is the first candidate
in row-major order that clashes with no record below `c`. -/
theorem scan_y_found (c W H : Nat) (ts : List texture_t) (hW : W < 2147483648)
    (hH : H < 2147483648)
    (hw0 : 0 ≤ (tex ts c).dest.width) (hw1 : (tex ts c).dest.width < 2147483648)
    (hh0 : 0 ≤ (tex ts c).dest.height) (hh1 : (tex ts c).dest.height < 2147483648)
    (X Y : Nat) (hX : X < W) (hY : Y < H)
    (hXw : (X : Int) + (tex ts c).dest.width ≤ W) (hYh : (Y : Int) + (tex ts c).dest.height ≤ H)
    (hfree : clash ts c X Y = false)
    (hrow : ∀ x', x' < X → clash ts c x' Y = true)
    (habove : ∀ y' x', y' < Y → x' < W → (x' : Int) + (tex ts c).dest.width ≤ W →
      clash ts c x' y' = true) :
    scan_y c W H H 0 ts = (set_xy ts c X Y, true) := by
  obtain ⟨_, r2, r3⟩ := scan_y_spec c W H ts hW hH hw0 hw1 hh0 hh1 H 0 ts
    (same_scan_refl c ts) (by omega)
  cases hres : (scan_y c W H H 0 ts).2 with
  | false =>
    have := r3 hres Y X (by omega) (by omega) hYh hX hXw
    rw [hfree] at this
    cases this
  | true =>
    obtain ⟨X', Y', _, _, a3, a4, a5, a6, a7, a8, a9⟩ := r2 hres
    have hYY : Y' = Y := by
      by_contra hne
      rcases Nat.lt_or_gt_of_ne hne with h | h
      · have := habove Y' X' h a3 a4
        rw [a7] at this
        cases this
      · have := a9 Y X (by omega) h hX hXw
        rw [hfree] at this
        cases this
    subst hYY
    have hXX : X' = X := by
      by_contra hne
      rcases Nat.lt_or_gt_of_ne hne with h | h
      · have := hrow X' h
        rw [a7] at this
        cases this
      · have := a8 X h
        rw [hfree] at this
        cases this
    subst hXX
    exact Prod.ext a6 hres

/-- A record wider or taller than the canvas is not fitted. -/
theorem scan_y_too_big (c W H : Nat) (ts : List texture_t) (hW : W < 2147483648)
    (hH : H < 2147483648)
    (hw0 : 0 ≤ (tex ts c).dest.width) (hw1 : (tex ts c).dest.width < 2147483648)
    (hh0 : 0 ≤ (tex ts c).dest.height) (hh1 : (tex ts c).dest.height < 2147483648)
    (hbig : (W : Int) < (tex ts c).dest.width ∨ (H : Int) < (tex ts c).dest.height) :
    (scan_y c W H H 0 ts).2 = false := by
  obtain ⟨_, r2, _⟩ := scan_y_spec c W H ts hW hH hw0 hw1 hh0 hh1 H 0 ts
    (same_scan_refl c ts) (by omega)
  cases hres : (scan_y c W H H 0 ts).2 with
  | false => rfl
  | true =>
    obtain ⟨X', Y', _, _, _, a4, a5, _⟩ := r2 hres
    omega

theorem fit_loop_fitted (W H n c : Nat) (ts ts' : List texture_t)
    (h : scan_y c W H H 0 ts = (ts', true)) :
    fit_loop W H (n + 1) c ts = fit_loop W H n (c + 1) ts' := by
  simp only [fit_loop, h]

theorem fit_loop_unfitted (W H n c : Nat) (ts : List texture_t)
    (h : (scan_y c W H H 0 ts).2 = false) :
    (fit_loop W H (n + 1) c ts).success = false := by
  simp only [fit_loop]
  split
  · rename_i e; rw [e] at h; cases h
  · rfl

/-- The first record of an attempt does not fit a canvas that is narrower or
lower than it: the attempt fails. -/
theorem fit_first_too_big (ts : List texture_t) (start W H : Nat) (hs : start < ts.length)
    (hW : W < 2147483648) (hH : H < 2147483648) (hsz : sized ts)
    (hbig : (W : Int) < (tex ts start).dest.width ∨ (H : Int) < (tex ts start).dest.height) :
    (fit ts start W H).success = false := by
  unfold fit
  obtain ⟨n, hn⟩ : ∃ n, ts.length - start = n + 1 := ⟨ts.length - start - 1, by omega⟩
  rw [hn]
  apply fit_loop_unfitted
  have hsame := size_of_reset_eq ts (reset_xy ts) (reset_xy_idem ts) start
  obtain ⟨w0, w1, h0, h1⟩ := sized_tex ts hsz start
  apply scan_y_too_big start W H (reset_xy ts) hW hH
  · rw [hsame.1]; exact w0
  · rw [hsame.1]; exact w1
  · rw [hsame.2]; exact h0
  · rw [hsame.2]; exact h1
  · rw [hsame.1, hsame.2]; exact hbig

/-! ## Scenario A: the attempt at 512 x 512 -/

theorem clash_zero (ts : List texture_t) (x y : Nat) : clash ts 0 x y = false := by
  simp [clash, overlap_any]

theorem clash_one (ts : List texture_t) (x y : Nat) (h : 1 < ts.length) :
    clash ts 1 x y = rect_overlaps
      ⟨toInt32 x, toInt32 y, (tex ts 1).dest.width, (tex ts 1).dest.height⟩ (tex ts 0).dest := by
  unfold clash overlap_any
  rw [show List.range 1 = [0] from rfl]
  simp only [List.any_cons, List.any_nil, Bool.or_false]
  rw [set_xy_eq ts 1 x y h, set_xy_ne ts 1 x y 0 (by omega)]

theorem clash_two (ts : List texture_t) (x y : Nat) (h : 2 < ts.length) :
    clash ts 2 x y =
      (rect_overlaps
        ⟨toInt32 x, toInt32 y, (tex ts 2).dest.width, (tex ts 2).dest.height⟩ (tex ts 0).dest ||
       rect_overlaps
        ⟨toInt32 x, toInt32 y, (tex ts 2).dest.width, (tex ts 2).dest.height⟩ (tex ts 1).dest) := by
  unfold clash overlap_any
  rw [show List.range 2 = [0, 1] from rfl]
  simp only [List.any_cons, List.any_nil, Bool.or_false]
  rw [set_xy_eq ts 2 x y h, set_xy_ne ts 2 x y 0 (by omega), set_xy_ne ts 2 x y 1 (by omega)]

/-- The second record of Scenario A on the 512 x 512 canvas: the candidates
`(0, 0)` .. `(300, 0)` overlap the first record, `(301, 0)` does not. -/
theorem scenario_a_second (na nb nc : String) :
    scan_y 1 512 512 512 0 (scenario_a_sorted na nb nc)
      = (set_xy (scenario_a_sorted na nb nc) 1 301 0, true) := by
  have hcl : ∀ x y : Nat, x < 512 → y < 512 →
      clash (scenario_a_sorted na nb nc) 1 x y
        = rect_overlaps ⟨x, y, 200, 200⟩ ⟨0, 0, 300, 300⟩ := by
    intro x y hx hy
    rw [clash_one _ _ _ (by show 1 < 3; decide), toInt32_small x (by omega),
      toInt32_small y (by omega)]
    rfl
  apply scan_y_found 1 512 512 (scenario_a_sorted na nb nc) (by decide) (by decide)
    (by show (0 : Int) ≤ 200; decide) (by show (200 : Int) < 2147483648; decide)
    (by show (0 : Int) ≤ 200; decide) (by show (200 : Int) < 2147483648; decide)
    301 0 (by decide) (by decide)
    (by show ((301 : Nat) : Int) + 200 ≤ (512 : Nat); decide)
    (by show ((0 : Nat) : Int) + 200 ≤ (512 : Nat); decide)
  · rw [hcl 301 0 (by decide) (by decide), rect_overlaps_false_iff]
    · decide
    all_goals (unfold edges_fit; decide)
  · intro x' hx'
    rw [hcl x' 0 (by omega) (by decide), rect_overlaps_true_iff]
    · simp only
      omega
    all_goals (unfold edges_fit; simp only; omega)
  · intro y' x' hy' _ _
    omega

/-- The third record of Scenario A on the 512 x 512 canvas: every candidate
before `(301, 201)` overlaps one of the first two records. -/
theorem scenario_a_third (na nb nc : String) :
    scan_y 2 512 512 512 0 (set_xy (scenario_a_sorted na nb nc) 1 301 0)
      = (scenario_a_placed na nb nc, true) := by
  have hcl : ∀ x y : Nat, x < 512 → y < 512 →
      clash (set_xy (scenario_a_sorted na nb nc) 1 301 0) 2 x y
        = (rect_overlaps ⟨x, y, 100, 100⟩ ⟨0, 0, 300, 300⟩ ||
           rect_overlaps ⟨x, y, 100, 100⟩ ⟨301, 0, 200, 200⟩) := by
    intro x y hx hy
    rw [clash_two _ _ _ (by show 2 < 3; decide), toInt32_small x (by omega),
      toInt32_small y (by omega)]
    rfl
  have hres : set_xy (set_xy (scenario_a_sorted na nb nc) 1 301 0) 2 301 201
      = scenario_a_placed na nb nc := rfl
  rw [← hres]
  apply scan_y_found 2 512 512 (set_xy (scenario_a_sorted na nb nc) 1 301 0) (by decide)
    (by decide)
    (by show (0 : Int) ≤ 100; decide) (by show (100 : Int) < 2147483648; decide)
    (by show (0 : Int) ≤ 100; decide) (by show (100 : Int) < 2147483648; decide)
    301 201 (by decide) (by decide)
    (by show ((301 : Nat) : Int) + 100 ≤ (512 : Nat); decide)
    (by show ((201 : Nat) : Int) + 100 ≤ (512 : Nat); decide)
  · rw [hcl 301 201 (by decide) (by decide), Bool.or_eq_false_iff, rect_overlaps_false_iff,
      rect_overlaps_false_iff]
    · decide
    all_goals (unfold edges_fit; decide)
  · intro x' hx'
    rw [hcl x' 201 (by omega) (by decide), Bool.or_eq_true, rect_overlaps_true_iff,
      rect_overlaps_true_iff]
    · simp only
      omega
    all_goals (unfold edges_fit; simp only; omega)
  · intro y' x' hy' hx' hxw
    have hxw' : (x' : Int) + 100 ≤ 512 := hxw
    rw [hcl x' y' hx' (by omega), Bool.or_eq_true, rect_overlaps_true_iff,
      rect_overlaps_true_iff]
    · simp only
      omega
    all_goals (unfold edges_fit; simp only; omega)

/-- The attempt of Scenario A at 512 x 512 places all three records. -/
theorem scenario_a_fit (na nb nc : String) :
    fit (scenario_a_sorted na nb nc) 0 512 512 = ⟨scenario_a_placed na nb nc, 3, true⟩ := by
  have hfirst : scan_y 0 512 512 512 0 (scenario_a_sorted na nb nc)
      = (scenario_a_sorted na nb nc, true) := by
    have hres : set_xy (scenario_a_sorted na nb nc) 0 0 0 = scenario_a_sorted na nb nc := rfl
    rw [← hres]
    apply scan_y_found 0 512 512 (scenario_a_sorted na nb nc) (by decide) (by decide)
      (by show (0 : Int) ≤ 300; decide) (by show (300 : Int) < 2147483648; decide)
      (by show (0 : Int) ≤ 300; decide) (by show (300 : Int) < 2147483648; decide)
      0 0 (by decide) (by decide)
      (by show ((0 : Nat) : Int) + 300 ≤ (512 : Nat); decide)
      (by show ((0 : Nat) : Int) + 300 ≤ (512 : Nat); decide) (clash_zero _ _ _)
    · intro x' hx'; omega
    · intro y' x' hy'; omega
  show fit_loop 512 512 (2 + 1) 0 (scenario_a_sorted na nb nc) = _
  rw [fit_loop_fitted _ _ _ _ _ _ hfirst, fit_loop_fitted _ _ _ _ _ _ (scenario_a_second na nb nc),
    fit_loop_fitted _ _ _ _ _ _ (scenario_a_third na nb nc)]
  rfl

/-! ## Stepping through the dimension loops -/

theorem width_loop_exit (b : bounds) (H fuel w : Nat) (s : state) (h : b.max_width < w) :
    width_loop b H fuel w s = some s := by
  have hc : ¬ (w ≤ b.max_width ∧ s.generated = false) := by omega
  cases fuel with
  | zero => rw [width_loop, if_neg hc]
  | succ fuel => rw [width_loop, if_neg hc]

theorem width_loop_fail (b : bounds) (H fuel w : Nat) (s : state) (hw : w ≤ b.max_width)
    (hg : s.generated = false) (hf : (fit s.textures s.start_texture w H).success = false) :
    width_loop b H (fuel + 1) w s
      = width_loop b H fuel ((w * 2) % 4294967296) (after_fit s w H) := by
  rw [width_loop, if_pos ⟨hw, hg⟩]
  have hw' : ¬ w > b.max_width := by omega
  simp only [if_neg hw', hf, Bool.false_eq_true, if_false]
  have hst : ∀ (ts : List texture_t) (c : Nat) (g : Bool), s.generated = g →
      ({ s with output_width := w, textures := ts, current_texture := c } : state)
      = { s with output_width := w, textures := ts, current_texture := c, generated := g } := by
    intro ts c g hgg; subst hgg; rfl
  rw [hst _ _ _ (hg.trans hf.symm)]
  rfl

theorem width_loop_success (b : bounds) (H fuel w : Nat) (s : state) (hw : w ≤ b.max_width)
    (hg : s.generated = false) (hf : (fit s.textures s.start_texture w H).success = true) :
    width_loop b H (fuel + 1) w s = some (after_fit s w H) := by
  rw [width_loop, if_pos ⟨hw, hg⟩]
  have hw' : ¬ w > b.max_width := by omega
  simp only [if_neg hw', hf, if_true]
  simp [after_fit, hf]

theorem height_loop_exit (b : bounds) (wf fuel h : Nat) (s : state) (hh : b.max_height < h) :
    height_loop b wf fuel h s = some s := by
  have hc : ¬ (h ≤ b.max_height ∧ s.generated = false) := by omega
  cases fuel with
  | zero => rw [height_loop, if_neg hc]
  | succ fuel => rw [height_loop, if_neg hc]

theorem height_loop_row (b : bounds) (wf fuel h : Nat) (s s1 : state) (hh : h ≤ b.max_height)
    (hg : s.generated = false)
    (hrow : width_loop b h wf b.min_width { s with output_height := h } = some s1) :
    height_loop b wf (fuel + 1) h s
      = if s1.generated then some s1
        else height_loop b wf fuel ((h * 2) % 4294967296) s1 := by
  rw [height_loop, if_pos ⟨hh, hg⟩]
  have hh' : ¬ h > b.max_height := by omega
  simp only [if_neg hh', hrow]

theorem page_loop_done (b : bounds) (df fuel : Nat) (s : state)
    (h : ¬ s.current_texture < s.textures.length) :
    page_loop b df fuel s = ([], outcome.finished) := by
  cases fuel with
  | zero => rw [page_loop, if_neg h]
  | succ fuel => rw [page_loop, if_neg h]

theorem fit_after_fit_state (s : state) (W H W' H' : Nat) :
    fit (after_fit s W H).textures (after_fit s W H).start_texture W' H'
      = fit s.textures s.start_texture W' H' :=
  fit_after_fit _ _ _ _ _ _

/-! ## Scenario A: the dimension loops and the run -/

theorem scenario_a_sized (na nb nc : String) : sized (scenario_a_sorted na nb nc) := by
  intro t ht
  simp only [scenario_a_sorted, List.mem_cons, List.mem_singleton, List.not_mem_nil,
    or_false] at ht
  rcases ht with e | e | e <;> subst e <;> simp only <;> omega

theorem scenario_a_too_low (na nb nc : String) (W : Nat) (hW : W < 2147483648) :
    (fit (scenario_a_sorted na nb nc) 0 W 256).success = false :=
  fit_first_too_big _ 0 W 256 (by show 0 < 3; decide) hW (by decide) (scenario_a_sized na nb nc)
    (Or.inr (by show ((256 : Nat) : Int) < 300; decide))

theorem scenario_a_too_narrow (na nb nc : String) (H : Nat) (hH : H < 2147483648) :
    (fit (scenario_a_sorted na nb nc) 0 256 H).success = false :=
  fit_first_too_big _ 0 256 H (by show 0 < 3; decide) (by decide) hH (scenario_a_sized na nb nc)
    (Or.inl (by show ((256 : Nat) : Int) < 300; decide))

/-- The row of height 256: the widths 256, 512 and 1024 fail. -/
theorem scenario_a_row_256 (na nb nc : String) (s : state) (k : Nat)
    (hg : s.generated = false)
    (hfit : ∀ W H, fit s.textures s.start_texture W H = fit (scenario_a_sorted na nb nc) 0 W H) :
    width_loop default_bounds 256 (k + 3) 256 s = some (after_fit s 1024 256) ∧
    (after_fit s 1024 256).generated = false := by
  have f1 : (fit s.textures s.start_texture 256 256).success = false := by
    rw [hfit]; exact scenario_a_too_low na nb nc 256 (by decide)
  have f2 : (fit s.textures s.start_texture 512 256).success = false := by
    rw [hfit]; exact scenario_a_too_low na nb nc 512 (by decide)
  have f3 : (fit s.textures s.start_texture 1024 256).success = false := by
    rw [hfit]; exact scenario_a_too_low na nb nc 1024 (by decide)
  refine ⟨?_, f3⟩
  rw [width_loop_fail default_bounds 256 (k + 2) 256 s (by decide) hg f1]
  show width_loop default_bounds 256 (k + 1 + 1) 512 (after_fit s 256 256) = _
  rw [width_loop_fail default_bounds 256 (k + 1) 512 (after_fit s 256 256) (by decide) f1
    (by rw [fit_after_fit_state]; exact f2), after_fit_after_fit]
  show width_loop default_bounds 256 (k + 1) 1024 (after_fit s 512 256) = _
  rw [width_loop_fail default_bounds 256 k 1024 (after_fit s 512 256) (by decide) f2
    (by rw [fit_after_fit_state]; exact f3), after_fit_after_fit]
  exact width_loop_exit default_bounds 256 k _ _ (by decide)

/-- The row of height 512: the width 256 fails, the width 512 succeeds. -/
theorem scenario_a_row_512 (na nb nc : String) (s : state) (k : Nat)
    (hg : s.generated = false)
    (hfit : ∀ W H, fit s.textures s.start_texture W H = fit (scenario_a_sorted na nb nc) 0 W H) :
    width_loop default_bounds 512 (k + 2) 256 s = some (after_fit s 512 512) ∧
    (after_fit s 512 512).generated = true := by
  have f1 : (fit s.textures s.start_texture 256 512).success = false := by
    rw [hfit]; exact scenario_a_too_narrow na nb nc 512 (by decide)
  have f2 : (fit s.textures s.start_texture 512 512).success = true := by
    rw [hfit, scenario_a_fit]
  refine ⟨?_, f2⟩
  rw [width_loop_fail default_bounds 512 (k + 1) 256 s (by decide) hg f1]
  show width_loop default_bounds 512 (k + 1) 512 (after_fit s 256 512) = _
  rw [width_loop_success default_bounds 512 k 512 (after_fit s 256 512) (by decide) f1
    (by rw [fit_after_fit_state]; exact f2), after_fit_after_fit]

/-- The dimension loops of Scenario A end at 512 x 512 with all records placed. -/
theorem scenario_a_search (na nb nc : String) (k : Nat) (ow oh : Nat) :
    height_loop default_bounds (k + 3) (k + 3) 256
        ⟨scenario_a_sorted na nb nc, 1, 0, 0, false, ow, oh⟩
      = some ⟨scenario_a_placed na nb nc, 1, 3, 0, true, 512, 512⟩ := by
  obtain ⟨r1, g1⟩ := scenario_a_row_256 na nb nc
    ⟨scenario_a_sorted na nb nc, 1, 0, 0, false, ow, 256⟩ k rfl (fun _ _ => rfl)
  have hrow1 := height_loop_row default_bounds (k + 3) (k + 2) 256
    ⟨scenario_a_sorted na nb nc, 1, 0, 0, false, ow, oh⟩
    (after_fit ⟨scenario_a_sorted na nb nc, 1, 0, 0, false, ow, 256⟩ 1024 256)
    (by decide) rfl r1
  rw [g1] at hrow1
  simp only [Bool.false_eq_true, if_false] at hrow1
  obtain ⟨r2, g2⟩ := scenario_a_row_512 na nb nc
    { after_fit ⟨scenario_a_sorted na nb nc, 1, 0, 0, false, ow, 256⟩ 1024 256 with
      output_height := 512 } (k + 1) g1 (fun _ _ => fit_after_fit _ _ _ _ _ _)
  have hrow2 := height_loop_row default_bounds (k + 3) (k + 1) 512
    (after_fit ⟨scenario_a_sorted na nb nc, 1, 0, 0, false, ow, 256⟩ 1024 256)
    (after_fit { after_fit ⟨scenario_a_sorted na nb nc, 1, 0, 0, false, ow, 256⟩ 1024 256 with
      output_height := 512 } 512 512)
    (by decide) g1 r2
  rw [g2] at hrow2
  simp only [if_true] at hrow2
  have h512 : (256 * 2) % 4294967296 = 512 := by decide
  rw [h512] at hrow1
  rw [show k + 3 = k + 2 + 1 from rfl, hrow1, hrow2]
  simp only [after_fit, fit_after_fit, scenario_a_fit]

theorem perm_two {α : Type} (p q : α) (l : List α) (h : l.Perm [p, q]) :
    l = [p, q] ∨ l = [q, p] := by
  have hlen := h.length_eq
  match l, hlen with
  | [y, z], _ =>
    have hy : y ∈ [p, q] := h.subset (List.mem_cons_self _ _)
    simp only [List.mem_cons, List.mem_singleton, List.not_mem_nil, or_false] at hy
    rcases hy with e | e
    · subst e
      have := List.perm_singleton.mp (List.Perm.cons_inv h)
      left; rw [this]
    · subst e
      have h2 : List.Perm (y :: [z]) (y :: [p]) := h.trans (List.Perm.swap y p [])
      have := List.perm_singleton.mp (List.Perm.cons_inv h2)
      right; rw [this]

theorem perm_three {α : Type} (a b c : α) (l : List α) (h : l.Perm [a, b, c]) :
    l = [a, b, c] ∨ l = [a, c, b] ∨ l = [b, a, c] ∨ l = [b, c, a] ∨ l = [c, a, b] ∨
    l = [c, b, a] := by
  have hlen := h.length_eq
  match l, hlen with
  | [x, y, z], _ =>
    have hx : x ∈ [a, b, c] := h.subset (List.mem_cons_self _ _)
    simp only [List.mem_cons, List.mem_singleton, List.not_mem_nil, or_false] at hx
    rcases hx with e | e | e
    · subst e
      rcases perm_two b c [y, z] (List.Perm.cons_inv h) with e | e <;> rw [e] <;> simp
    · subst e
      have h2 : List.Perm (x :: [y, z]) (x :: [a, c]) := h.trans (List.Perm.swap x a [c])
      rcases perm_two a c [y, z] (List.Perm.cons_inv h2) with e | e <;> rw [e] <;> simp
    · subst e
      have h3 : List.Perm [a, b, x] (x :: [a, b]) :=
        (List.perm_append_comm : ([a, b] ++ [x]).Perm ([x] ++ [a, b]))
      have h2 : List.Perm (x :: [y, z]) (x :: [a, b]) := h.trans h3
      rcases perm_two a b [y, z] (List.Perm.cons_inv h2) with e | e <;> rw [e] <;> simp

/-- The validation of a loaded record within the bounds. -/
theorem validate_one_loaded (mw mh : Nat) (n : String) (w h : Nat) (hw : w ≤ mw) (hh : h ≤ mh)
    (hw1 : w < 2147483648) (hh1 : h < 2147483648) (hp : w * h < 2147483648) :
    validate_one mw mh (loaded n w h)
      = some ⟨n, ⟨w, h⟩, ((w * h : Nat) : Int), ⟨0, 0, (w : Int), (h : Int)⟩⟩ := by
  have hbig : ¬ (w > mw ∨ h > mh) := by omega
  have hmod : (w * h) % 4294967296 = w * h := Nat.mod_eq_of_lt (by omega)
  simp only [validate_one, loaded, if_neg hbig, hmod, toInt32_small _ hw1, toInt32_small _ hh1,
    toInt32_small _ hp]

theorem validate_three (na nb nc : String) (wa ha wb hb wc hc : Nat)
    (ha1 : wa ≤ 1024 ∧ ha ≤ 1024) (hb1 : wb ≤ 1024 ∧ hb ≤ 1024) (hc1 : wc ≤ 1024 ∧ hc ≤ 1024) :
    validate 1024 1024 [loaded na wa ha, loaded nb wb hb, loaded nc wc hc]
      = some [⟨na, ⟨wa, ha⟩, ((wa * ha : Nat) : Int), ⟨0, 0, (wa : Int), (ha : Int)⟩⟩,
              ⟨nb, ⟨wb, hb⟩, ((wb * hb : Nat) : Int), ⟨0, 0, (wb : Int), (hb : Int)⟩⟩,
              ⟨nc, ⟨wc, hc⟩, ((wc * hc : Nat) : Int), ⟨0, 0, (wc : Int), (hc : Int)⟩⟩] := by
  have h1 : ∀ w h : Nat, w ≤ 1024 → h ≤ 1024 → w * h < 2147483648 := by
    intro w h hw hh
    calc w * h ≤ 1024 * 1024 := Nat.mul_le_mul hw hh
      _ < 2147483648 := by decide
  simp only [validate,
    validate_one_loaded 1024 1024 na wa ha ha1.1 ha1.2 (by omega) (by omega) (h1 _ _ ha1.1 ha1.2),
    validate_one_loaded 1024 1024 nb wb hb hb1.1 hb1.2 (by omega) (by omega) (h1 _ _ hb1.1 hb1.2),
    validate_one_loaded 1024 1024 nc wc hc hc1.1 hc1.2 (by omega) (by omega) (h1 _ _ hc1.1 hc1.2)]

/-- In every input order the validation and `sort_textures` give the records
of Scenario A largest first. -/
theorem scenario_a_order (na nb nc : String) (l : List texture_t)
    (h : l.Perm (scenario_a na nb nc)) :
    ∃ ts0, validate 1024 1024 l = some ts0 ∧
      sort_textures ts0 ts0.length = scenario_a_sorted na nb nc := by
  rcases perm_three _ _ _ l h with e | e | e | e | e | e <;> subst e <;>
    exact ⟨_, validate_three _ _ _ _ _ _ _ _ _ (by decide) (by decide) (by decide), rfl⟩

theorem save_page_scenario_a (na nb nc : String) :
    save_page ⟨scenario_a_placed na nb nc, 1, 3, 0, true, 512, 512⟩ = scenario_a_page na nb nc :=
  rfl

/-- C11: Scenario A.  For the records 300 x 300, 200 x 200 and 100 x 100 in any
input order and the default bounds, the run finishes with exactly one page; its
dimensions are 512 x 512, its records are in the order 300 x 300, 200 x 200,
100 x 100 and the 300 x 300 record is its first member, at (0, 0). -/
theorem C11_scenario_a (na nb nc : String) (l : List texture_t)
    (hl : l.Perm (scenario_a na nb nc)) (dim_fuel fuel : Nat) (hdf : 3 ≤ dim_fuel)
    (hf : 1 ≤ fuel) :
    run default_bounds dim_fuel fuel l = ([scenario_a_page na nb nc], outcome.finished) := by
  obtain ⟨ts0, hv, hsort⟩ := scenario_a_order na nb nc l hl
  obtain ⟨k, rfl⟩ : ∃ k, dim_fuel = k + 3 := ⟨dim_fuel - 3, by omega⟩
  obtain ⟨f, rfl⟩ : ∃ f, fuel = f + 1 := ⟨fuel - 1, by omega⟩
  have hlen : l.length = 3 := hl.length_eq
  have hiter : page_iteration default_bounds (k + 3) (initial_state default_bounds l)
      = .ok (scenario_a_page na nb nc, ⟨scenario_a_placed na nb nc, 2, 3, 0, true, 512, 512⟩) := by
    have hv' : validate default_bounds.max_width default_bounds.max_height
        (initial_state default_bounds l).textures = some ts0 := hv
    simp only [page_iteration, hv', hsort]
    have hs := scenario_a_search na nb nc k 1024 1024
    have hs' : height_loop default_bounds (k + 3) (k + 3) default_bounds.min_height
        { textures := scenario_a_sorted na nb nc,
          atlas_count := (initial_state default_bounds l).atlas_count,
          current_texture := (initial_state default_bounds l).current_texture,
          start_texture := (initial_state default_bounds l).current_texture,
          generated := (initial_state default_bounds l).generated,
          output_width := (initial_state default_bounds l).output_width,
          output_height := (initial_state default_bounds l).output_height }
        = some ⟨scenario_a_placed na nb nc, 1, 3, 0, true, 512, 512⟩ := hs
    rw [hs']
    simp only [save_page_scenario_a]
  unfold run
  have hpos : (initial_state default_bounds l).current_texture
      < (initial_state default_bounds l).textures.length := by
    show 0 < l.length
    omega
  rw [page_loop, if_pos hpos, hiter]
  simp only
  rw [page_loop_done default_bounds (k + 3) f _ (by show ¬ 3 < 3; decide)]

/-! ## Minimum above maximum -/

theorem last_height_idem (m fuel h oh : Nat) :
    last_height m fuel h (last_height m fuel h oh) = last_height m fuel h oh := by
  cases fuel with
  | zero => rfl
  | succ fuel =>
    simp only [last_height]
    split <;> rfl

/-- With the minimum width above the maximum width no row of the loop over the
heights makes an attempt; the loop ends when the doubling leaves the bound. -/
theorem height_loop_empty_rows (b : bounds) (wf : Nat) (hw : b.max_width < b.min_width)
    (hmax : b.max_height < 2147483648) : ∀ (fuel h : Nat) (s : state),
    s.generated = false → 0 < h → b.max_height < h * 2 ^ fuel →
    height_loop b wf fuel h s
      = some { s with output_height := last_height b.max_height fuel h s.output_height } := by
  intro fuel
  induction fuel with
  | zero =>
    intro h s hg hpos hlt
    rw [height_loop_exit b wf 0 h s (by omega)]
    rfl
  | succ fuel ih =>
    intro h s hg hpos hlt
    by_cases hh : h ≤ b.max_height
    · have hrow := width_loop_exit b h wf b.min_width ({ s with output_height := h } : state) hw
      rw [height_loop_row b wf fuel h s _ hh hg hrow]
      have hmod : (h * 2) % 4294967296 = h * 2 := Nat.mod_eq_of_lt (by omega)
      have hih := ih (h * 2) ({ s with output_height := h } : state) hg (by omega)
        (by rw [Nat.pow_succ] at hlt; nlinarith)
      simp only [hg] at hih
      simp only [hg, Bool.false_eq_true, if_false, last_height, if_pos hh, hmod]
      exact hih
    · rw [height_loop_exit b wf (fuel + 1) h s (by omega)]
      simp only [last_height, if_neg hh]

/-- With a minimum above the maximum in either axis the dimension loops make no
attempt and change `output_height` at most. -/
theorem height_loop_no_attempt (b : bounds) (wf fuel : Nat) (s : state)
    (hb : b.max_width < b.min_width ∨ b.max_height < b.min_height)
    (hfuel : b.max_height < b.min_height ∨
      (0 < b.min_height ∧ b.max_height < 2147483648 ∧ b.max_height < b.min_height * 2 ^ fuel))
    (hg : s.generated = false) :
    height_loop b wf fuel b.min_height s = some
      { s with output_height := last_height b.max_height fuel b.min_height s.output_height } ∧
    (b.max_height < b.min_height →
      last_height b.max_height fuel b.min_height s.output_height = s.output_height) := by
  have hlast : b.max_height < b.min_height →
      last_height b.max_height fuel b.min_height s.output_height = s.output_height := by
    intro h
    cases fuel with
    | zero => rfl
    | succ fuel => simp only [last_height, if_neg (by omega : ¬ b.min_height ≤ b.max_height)]
  refine ⟨?_, hlast⟩
  by_cases hh : b.max_height < b.min_height
  · rw [height_loop_exit b wf fuel _ s hh, hlast hh]
  · have hw : b.max_width < b.min_width := by
      rcases hb with h | h
      · exact h
      · exact absurd h hh
    rcases hfuel with h | ⟨h1, h2, h3⟩
    · exact absurd h hh
    · exact height_loop_empty_rows b wf hw h2 fuel b.min_height s hg h1 h3

theorem validate_one_fixed (mw mh : Nat) (t t' : texture_t)
    (h : validate_one mw mh t = some t') : validate_one mw mh t' = some t' := by
  simp only [validate_one] at h
  by_cases hbig : t.dib.width > mw ∨ t.dib.height > mh
  · rw [if_pos hbig] at h; cases h
  · rw [if_neg hbig] at h
    simp only [Option.some.injEq] at h
    subst h
    simp only [validate_one, if_neg hbig]

theorem validate_all_fixed (mw mh : Nat) : ∀ ts : List texture_t,
    (∀ t ∈ ts, validate_one mw mh t = some t) → validate mw mh ts = some ts := by
  intro ts
  induction ts with
  | nil => intro _; rfl
  | cons t rest ih =>
    intro h
    simp only [validate, h t (List.mem_cons_self _ _),
      ih (fun t' ht' => h t' (List.mem_cons_of_mem _ ht'))]

theorem validate_mem_fixed (mw mh : Nat) : ∀ (ts ts' : List texture_t),
    validate mw mh ts = some ts' → ∀ t' ∈ ts', validate_one mw mh t' = some t' := by
  intro ts
  induction ts with
  | nil =>
    intro ts' h t' ht'
    simp only [validate, Option.some.injEq] at h
    subst h
    cases ht'
  | cons t rest ih =>
    intro ts' h t' ht'
    simp only [validate] at h
    cases h1 : validate_one mw mh t with
    | none => rw [h1] at h; cases h
    | some u =>
      rw [h1] at h
      simp only at h
      cases h2 : validate mw mh rest with
      | none => rw [h2] at h; cases h
      | some r =>
        rw [h2] at h
        simp only [Option.some.injEq] at h
        subst h
        rcases List.mem_cons.mp ht' with e | e
        · rw [e]; exact validate_one_fixed mw mh t u h1
        · exact ih r h2 t' e

/-- The validated and sorted array passes the validation unchanged and is
left alone by `sort_textures`. -/
theorem validate_sort_fixed (mw mh : Nat) (ts ts0 : List texture_t)
    (h : validate mw mh ts = some ts0) :
    validate mw mh (sort_textures ts0 ts0.length) = some (sort_textures ts0 ts0.length) := by
  apply validate_all_fixed
  intro t ht
  exact validate_mem_fixed mw mh ts ts0 h t ((sort_textures_perm ts0).mem_iff.mp ht)

/-- With a minimum above the maximum, an iteration of the page loop ends
with the array validated and sorted, the height at the last height tried and
the next page number. -/
theorem page_iteration_no_attempt (b : bounds) (dim_fuel : Nat) (s : state)
    (ts0 : List texture_t)
    (hb : b.max_width < b.min_width ∨ b.max_height < b.min_height)
    (hfuel : b.max_height < b.min_height ∨
      (0 < b.min_height ∧ b.max_height < 2147483648 ∧
        b.max_height < b.min_height * 2 ^ dim_fuel))
    (hg : s.generated = false)
    (hv : validate b.max_width b.max_height s.textures = some ts0) :
    page_iteration b dim_fuel s
      = .ok (save_page ⟨sort_textures ts0 ts0.length, s.atlas_count, s.current_texture,
                s.current_texture, s.generated, s.output_width,
                last_height b.max_height dim_fuel b.min_height s.output_height⟩,
             ⟨sort_textures ts0 ts0.length, s.atlas_count + 1, s.current_texture,
                s.current_texture, s.generated, s.output_width,
                last_height b.max_height dim_fuel b.min_height s.output_height⟩) := by
  obtain ⟨h1, _⟩ := height_loop_no_attempt b dim_fuel dim_fuel (search_start s ts0) hb hfuel hg
  simp only [search_start] at h1
  simp only [page_iteration, hv]
  rw [h1]

theorem last_height_above (m : Nat) (fuel h oh : Nat) (hh : m < h) :
    last_height m fuel h oh = oh := by
  cases fuel with
  | zero => rfl
  | succ fuel => rw [last_height, if_neg (by omega)]

/-- The last height that the loop over the heights goes through is the largest
`h * 2 ^ k` within the bound. -/
theorem last_height_spec (m : Nat) : ∀ (fuel h oh : Nat), 0 < h → m < 2147483648 → h ≤ m →
    m < h * 2 ^ fuel →
    ∃ k, last_height m fuel h oh = h * 2 ^ k ∧ h * 2 ^ k ≤ m ∧ m < h * 2 ^ (k + 1) := by
  intro fuel
  induction fuel with
  | zero => intro h oh _ _ h1 h2; omega
  | succ fuel ih =>
    intro h oh h0 hm h1 h2
    have hmod : (h * 2) % 4294967296 = h * 2 := Nat.mod_eq_of_lt (by omega)
    rw [last_height, if_pos h1, hmod]
    by_cases h3 : h * 2 ≤ m
    · have h4 : m < h * 2 * 2 ^ fuel := by
        rw [pow_succ] at h2
        calc m < h * (2 ^ fuel * 2) := h2
          _ = h * 2 * 2 ^ fuel := by ring
      obtain ⟨k, e1, e2, e3⟩ := ih (h * 2) h (by omega) hm h3 h4
      refine ⟨k + 1, ?_, ?_, ?_⟩
      · rw [e1]; ring
      · calc h * 2 ^ (k + 1) = h * 2 * 2 ^ k := by ring
          _ ≤ m := e2
      · calc m < h * 2 * 2 ^ (k + 1) := e3
          _ = h * 2 ^ (k + 1 + 1) := by ring
    · refine ⟨0, ?_, by omega, by omega⟩
      rw [last_height_above m fuel (h * 2) h (by omega)]
      omega

/-- C20 (amended): with a minimum above the maximum in either axis, a page
iteration on admissible records ends (given fuel for the height doubling, which
must not wrap) without entering the loop in which the placement attempt is made;
it leaves `current_texture`, the start index and `generated` alone (zero records
placed) and increments the page number; it leaves `output_width` unchanged, and
`output_height` unchanged when the minimum height is above the maximum,
otherwise at the largest `min_height * 2 ^ k` within the maximum; it leaves the
array validated and sorted; and a further iteration on the state it leaves
changes the page number only. -/
theorem C20_no_attempt_iteration (b : bounds) (dim_fuel : Nat) (s : state)
    (hb : b.max_width < b.min_width ∨ b.max_height < b.min_height)
    (hfuel : b.max_height < b.min_height ∨
      (0 < b.min_height ∧ b.max_height < 2147483648 ∧
        b.max_height < b.min_height * 2 ^ dim_fuel))
    (hg : s.generated = false)
    (hadm : ∀ t ∈ s.textures, t.dib.width ≤ b.max_width ∧ t.dib.height ≤ b.max_height) :
    (b.max_width < b.min_width → ∀ H fuel s', width_loop b H fuel b.min_width s' = some s') ∧
    (b.max_height < b.min_height →
      ∀ wf fuel s', height_loop b wf fuel b.min_height s' = some s') ∧
    ∃ p s2, page_iteration b dim_fuel s = .ok (p, s2) ∧
      p.start_texture = s.current_texture ∧ p.current_texture = s.current_texture ∧
      s2.current_texture = s.current_texture ∧ s2.start_texture = s.current_texture ∧
      s2.generated = false ∧ s2.atlas_count = s.atlas_count + 1 ∧
      s2.output_width = s.output_width ∧
      (b.max_height < b.min_height → s2.output_height = s.output_height) ∧
      (b.min_height ≤ b.max_height →
        ∃ k, s2.output_height = b.min_height * 2 ^ k ∧ b.min_height * 2 ^ k ≤ b.max_height ∧
          b.max_height < b.min_height * 2 ^ (k + 1)) ∧
      (validate b.max_width b.max_height s.textures).map
        (fun ts0 => sort_textures ts0 ts0.length) = some s2.textures ∧
      page_iteration b dim_fuel s2
        = .ok (save_page s2, { s2 with atlas_count := s2.atlas_count + 1 }) := by
  refine ⟨fun hw H fuel s' => width_loop_exit b H fuel _ s' hw,
    fun hh wf fuel s' => height_loop_exit b wf fuel _ s' hh, ?_⟩
  cases hv : validate b.max_width b.max_height s.textures with
  | none =>
    obtain ⟨t, ht, hbig⟩ := (validate_none_iff _ _ _).mp hv
    have := hadm t ht
    omega
  | some ts0 =>
    obtain ⟨_, h2⟩ := height_loop_no_attempt b dim_fuel dim_fuel (search_start s ts0) hb hfuel hg
    have hfix := validate_sort_fixed _ _ _ _ hv
    have hidem := sort_textures_idem ts0
    have hit := page_iteration_no_attempt b dim_fuel s ts0 hb hfuel hg hv
    have hit2 := page_iteration_no_attempt b dim_fuel
      ⟨sort_textures ts0 ts0.length, s.atlas_count + 1, s.current_texture,
        s.current_texture, s.generated, s.output_width,
        last_height b.max_height dim_fuel b.min_height s.output_height⟩
      (sort_textures ts0 ts0.length) hb hfuel hg hfix
    simp only [hidem, last_height_idem] at hit2
    refine ⟨_, _, hit, rfl, rfl, rfl, rfl, hg, rfl, rfl, h2, ?_, rfl, ?_⟩
    · intro hle
      rcases hfuel with hlt | ⟨h0, h1, h3⟩
      · omega
      · exact last_height_spec b.max_height dim_fuel b.min_height s.output_height h0 h1 hle h3
    · rw [hit2]

/-- C20 (counterexample): with minimum 256 x 256 and maximum 100 x 1000 the
first page iteration on one 50 x 50 record, which makes no attempt, changes
`output_height` from 1000 to 512, not only the page number. -/
theorem C20_state_differs :
    (initial_state narrow_bounds [loaded "a" 50 50]).output_height = 1000 ∧
    (page_iteration narrow_bounds 3 (initial_state narrow_bounds [loaded "a" 50 50])).map
        (fun r => (r.2.atlas_count, r.2.current_texture, r.2.start_texture, r.2.output_height))
      = .ok (2, 0, 0, 512) :=
  ⟨rfl, rfl⟩

theorem two_tiles_valid_sized : sized two_tiles_valid := by
  intro t ht
  simp only [two_tiles_valid, List.mem_cons, List.mem_singleton, List.not_mem_nil,
    or_false] at ht
  rcases ht with e | e <;> subst e <;> decide

/-- Witness of C11: Scenario A with the records given in the order 100 x 100,
300 x 300, 200 x 200. -/
theorem C11_scenario_a_witness :
    [loaded "c" 100 100, loaded "a" 300 300, loaded "b" 200 200].Perm (scenario_a "a" "b" "c") ∧
    3 ≤ 3 ∧ 1 ≤ 1 ∧
    run default_bounds 3 1 [loaded "c" 100 100, loaded "a" 300 300, loaded "b" 200 200]
      = ([scenario_a_page "a" "b" "c"], outcome.finished) := by
  have hp : [loaded "c" 100 100, loaded "a" 300 300, loaded "b" 200 200].Perm
      (scenario_a "a" "b" "c") :=
    (List.perm_append_comm : ([loaded "c" 100 100] ++ [loaded "a" 300 300, loaded "b" 200 200]).Perm
      ([loaded "a" 300 300, loaded "b" 200 200] ++ [loaded "c" 100 100]))
  exact ⟨hp, le_refl 3, le_refl 1,
    C11_scenario_a "a" "b" "c" _ hp 3 1 (le_refl 3) (le_refl 1)⟩

/-- Witness of C12: two one-pixel records on a 1 x 1 canvas; the first is
placed, the second overlaps it at its only candidate position. -/
theorem C12_placement_result_witness :
    0 ≤ two_tiles_valid.length ∧ sized two_tiles_valid ∧
    (fit two_tiles_valid 0 1 1).current_texture = 1 ∧
    (fit two_tiles_valid 0 1 1).success = false ∧
    ∃ i, i < (fit two_tiles_valid 0 1 1).current_texture ∧
      rect_overlaps
        ⟨((0 : Nat) : Int), ((0 : Nat) : Int),
         (tex (fit two_tiles_valid 0 1 1).textures
           (fit two_tiles_valid 0 1 1).current_texture).dest.width,
         (tex (fit two_tiles_valid 0 1 1).textures
           (fit two_tiles_valid 0 1 1).current_texture).dest.height⟩
        (tex (fit two_tiles_valid 0 1 1).textures i).dest = true := by
  have hf : (fit two_tiles_valid 0 1 1).success = false := by decide
  have hc : (fit two_tiles_valid 0 1 1).current_texture = 1 := by decide
  have hx : ((0 : Nat) : Int) + (tex (fit two_tiles_valid 0 1 1).textures
      (fit two_tiles_valid 0 1 1).current_texture).dest.width ≤ (1 : Nat) := by decide
  have hy : ((0 : Nat) : Int) + (tex (fit two_tiles_valid 0 1 1).textures
      (fit two_tiles_valid 0 1 1).current_texture).dest.height ≤ (1 : Nat) := by decide
  have h := C12_placement_result two_tiles_valid 0 1 1 (Nat.zero_le _) (by decide) (by decide)
    two_tiles_valid_sized
  exact ⟨Nat.zero_le _, two_tiles_valid_sized, hc, hf,
    h.2.2.2.2 hf 0 0 (by decide) (by decide) hx hy⟩

/-- Witness of C16: two one-pixel records on a 4 x 4 canvas; the first is at
(0, 0), and the candidate (0, 0) of the second, placed at (2, 0), overlaps the
first. -/
theorem C16_first_fit_row_major_witness :
    sized two_tiles_valid ∧
    (tex (fit two_tiles_valid 0 4 4).textures 1).dest.x = 2 ∧
    (tex (fit two_tiles_valid 0 4 4).textures 1).dest.y = 0 ∧
    (∃ i, i < 1 ∧ rect_overlaps
        ⟨((0 : Nat) : Int), ((0 : Nat) : Int),
          (tex (fit two_tiles_valid 0 4 4).textures 1).dest.width,
          (tex (fit two_tiles_valid 0 4 4).textures 1).dest.height⟩
        (tex (fit two_tiles_valid 0 4 4).textures i).dest = true) ∧
    (tex (fit two_tiles_valid 0 4 4).textures 0).dest.x = 0 ∧
    (tex (fit two_tiles_valid 0 4 4).textures 0).dest.y = 0 := by
  have hj : 1 < (fit two_tiles_valid 0 4 4).current_texture := by decide
  have h0 : 0 < (fit two_tiles_valid 0 4 4).current_texture := by decide
  have hw : 0 < (tex (fit two_tiles_valid 0 4 4).textures 1).dest.width := by decide
  have hh : 0 < (tex (fit two_tiles_valid 0 4 4).textures 1).dest.height := by decide
  have hx : ((0 : Nat) : Int) + (tex (fit two_tiles_valid 0 4 4).textures 1).dest.width
      ≤ (4 : Nat) := by decide
  have hy : ((0 : Nat) : Int) + (tex (fit two_tiles_valid 0 4 4).textures 1).dest.height
      ≤ (4 : Nat) := by decide
  have hp : ((0 : Nat) : Int) < (tex (fit two_tiles_valid 0 4 4).textures 1).dest.y ∨
      (((0 : Nat) : Int) = (tex (fit two_tiles_valid 0 4 4).textures 1).dest.y ∧
        ((0 : Nat) : Int) < (tex (fit two_tiles_valid 0 4 4).textures 1).dest.x) := by decide
  have h := C16_first_fit_row_major two_tiles_valid 4 4 (by decide) (by decide)
    two_tiles_valid_sized
  exact ⟨two_tiles_valid_sized, by decide, by decide, h.1 1 0 0 hj hw hh hx hy hp, h.2 h0⟩

/-- Witness of C20: minimum 256 x 256, maximum 100 x 1000 and one 50 x 50
record. -/
theorem C20_no_attempt_iteration_witness :
    (narrow_bounds.max_width < narrow_bounds.min_width ∨
      narrow_bounds.max_height < narrow_bounds.min_height) ∧
    (narrow_bounds.max_height < narrow_bounds.min_height ∨
      (0 < narrow_bounds.min_height ∧ narrow_bounds.max_height < 2147483648 ∧
        narrow_bounds.max_height < narrow_bounds.min_height * 2 ^ 3)) ∧
    (initial_state narrow_bounds [loaded "a" 50 50]).generated = false ∧
    (∀ t ∈ (initial_state narrow_bounds [loaded "a" 50 50]).textures,
      t.dib.width ≤ narrow_bounds.max_width ∧ t.dib.height ≤ narrow_bounds.max_height) ∧
    ∃ p s2, page_iteration narrow_bounds 3 (initial_state narrow_bounds [loaded "a" 50 50])
        = .ok (p, s2) ∧
      s2.current_texture = 0 ∧ s2.start_texture = 0 ∧ s2.atlas_count = 2 ∧
      (∃ k, s2.output_height = narrow_bounds.min_height * 2 ^ k ∧
        narrow_bounds.min_height * 2 ^ k ≤ narrow_bounds.max_height ∧
        narrow_bounds.max_height < narrow_bounds.min_height * 2 ^ (k + 1)) ∧
      page_iteration narrow_bounds 3 s2
        = .ok (save_page s2, { s2 with atlas_count := s2.atlas_count + 1 }) := by
  have hb : narrow_bounds.max_width < narrow_bounds.min_width ∨
      narrow_bounds.max_height < narrow_bounds.min_height := by decide
  have hfuel : narrow_bounds.max_height < narrow_bounds.min_height ∨
      (0 < narrow_bounds.min_height ∧ narrow_bounds.max_height < 2147483648 ∧
        narrow_bounds.max_height < narrow_bounds.min_height * 2 ^ 3) := by decide
  have hadm : ∀ t ∈ (initial_state narrow_bounds [loaded "a" 50 50]).textures,
      t.dib.width ≤ narrow_bounds.max_width ∧ t.dib.height ≤ narrow_bounds.max_height := by
    decide
  obtain ⟨_, _, p, s2, h1, _, _, h4, h5, _, h7, _, _, h10, _, h12⟩ :=
    C20_no_attempt_iteration narrow_bounds 3 (initial_state narrow_bounds [loaded "a" 50 50])
      hb hfuel rfl hadm
  exact ⟨hb, hfuel, rfl, hadm, p, s2, h1, h4, h5, h7, h10 (by decide), h12⟩

/-! ## The re-sort of a later page iteration -/

/-- Arrays that agree up to the positions agree in every other field. -/
theorem fields_of_reset_eq (ts ts' : List texture_t) (h : reset_xy ts' = reset_xy ts) (k : Nat) :
    (tex ts' k).dib = (tex ts k).dib ∧ (tex ts' k).pixel_size = (tex ts k).pixel_size ∧
    (tex ts' k).dest.width = (tex ts k).dest.width ∧
    (tex ts' k).dest.height = (tex ts k).dest.height := by
  have h1 := tex_reset_xy ts' k
  have h2 := tex_reset_xy ts k
  rw [h, h2] at h1
  simp only [texture_t.mk.injEq, rect_t.mk.injEq] at h1
  obtain ⟨_, a, b, _, _, c, d⟩ := h1
  exact ⟨a.symm, b.symm, c.symm, d.symm⟩

/-- A record is left as it is by the validation exactly when it is within the
bounds and carries the sizes of its bitmap. -/
theorem validate_one_fixed_iff (mw mh : Nat) (t : texture_t) :
    validate_one mw mh t = some t ↔
      ¬ (t.dib.width > mw ∨ t.dib.height > mh) ∧ t.dest.width = toInt32 t.dib.width ∧
      t.dest.height = toInt32 t.dib.height ∧
      t.pixel_size = toInt32 ((t.dib.width * t.dib.height) % 4294967296) := by
  obtain ⟨f, d, ps, ⟨x, y, w, h⟩⟩ := t
  simp only [validate_one]
  by_cases hbig : d.width > mw ∨ d.height > mh
  · rw [if_pos hbig]
    constructor
    · intro h; cases h
    · rintro ⟨hn, _⟩; exact absurd hbig hn
  · rw [if_neg hbig]
    simp only [Option.some.injEq, texture_t.mk.injEq, rect_t.mk.injEq, true_and]
    constructor
    · rintro ⟨a, b, c⟩
      exact ⟨hbig, b.symm, c.symm, a.symm⟩
    · rintro ⟨_, a, b, c⟩
      exact ⟨c.symm, a.symm, b.symm⟩

/-- The array left by a page iteration is validated and sorted: the
validation and `sort_textures` of the next iteration leave it as it is. -/
theorem page_iteration_settled (b : bounds) (df : Nat) (s : state) (p : page) (s2 : state)
    (h : page_iteration b df s = .ok (p, s2)) :
    validate b.max_width b.max_height s2.textures = some s2.textures ∧
    sort_textures s2.textures s2.textures.length = s2.textures := by
  obtain ⟨ts0, s', hv, hh, _, hs2⟩ := page_iteration_ok b df s p s2 h
  have hreset : reset_xy s'.textures = reset_xy (sort_textures ts0 ts0.length) := by
    rcases height_loop_result b _ _ _ _ _ hh with ⟨e1, _⟩ | ⟨W, H, _, _, _, e⟩
    · rw [e1]; rfl
    · rw [e]
      simp only [attempt_state, after_fit]
      rw [fit_reset]
      rfl
  have hlen : s'.textures.length = (sort_textures ts0 ts0.length).length := by
    have := congrArg List.length hreset
    rw [reset_xy_length, reset_xy_length] at this
    exact this
  have hs2t : s2.textures = s'.textures := by rw [hs2]
  rw [hs2t]
  constructor
  · apply validate_all_fixed
    intro t ht
    obtain ⟨k, hk, e⟩ := List.getElem_of_mem ht
    have hk2 : k < (sort_textures ts0 ts0.length).length := by omega
    have ht' : t = tex s'.textures k := by rw [tex_eq_getElem _ k hk]; exact e.symm
    have hmem : tex (sort_textures ts0 ts0.length) k ∈ sort_textures ts0 ts0.length := by
      rw [tex_eq_getElem _ k hk2]; exact List.getElem_mem _
    have hfix := validate_mem_fixed _ _ _ _ hv _ ((sort_textures_perm ts0).mem_iff.mp hmem)
    obtain ⟨f1, f2, f3, f4⟩ := fields_of_reset_eq _ _ hreset k
    rw [validate_one_fixed_iff] at hfix ⊢
    rw [ht', f1, f2, f3, f4]
    exact hfix
  · apply sort_textures_sorted_id
    intro i j hij hj
    rw [(fields_of_reset_eq _ _ hreset i).2.1, (fields_of_reset_eq _ _ hreset j).2.1]
    rw [hlen, sort_textures_length] at hj
    exact sort_loop_sorted ts0.length ts0.length 0 ts0 (by omega) (le_refl _)
      (by intro i j hi; omega) i j hij hj

theorem iteration_heads_head (b : bounds) (df fuel : Nat) (s : state) :
    iteration_heads b df fuel s = [] ∨ ∃ tl, iteration_heads b df fuel s = s :: tl := by
  cases fuel with
  | zero =>
    rw [iteration_heads]
    split
    · exact Or.inr ⟨[], rfl⟩
    · exact Or.inl rfl
  | succ fuel =>
    rw [iteration_heads]
    split
    · cases hi : page_iteration b df s with
      | error o => exact Or.inr ⟨[], rfl⟩
      | ok r => exact Or.inr ⟨_, rfl⟩
    · exact Or.inl rfl

/-- Every head of the page loop but the first is left by a page iteration. -/
theorem iteration_heads_tail (b : bounds) (df : Nat) : ∀ (fuel : Nat) (s0 s : state),
    s ∈ (iteration_heads b df fuel s0).tail →
    ∃ s1 p, page_iteration b df s1 = .ok (p, s) := by
  intro fuel
  induction fuel with
  | zero =>
    intro s0 s hs
    rw [iteration_heads] at hs
    split at hs <;> simp at hs
  | succ fuel ih =>
    intro s0 s hs
    rw [iteration_heads] at hs
    split at hs
    · cases hi : page_iteration b df s0 with
      | error o =>
        rw [hi] at hs
        simp at hs
      | ok r =>
        obtain ⟨p1, s1⟩ := r
        rw [hi] at hs
        simp only [List.tail_cons] at hs
        rcases iteration_heads_head b df fuel s1 with e | ⟨tl, e⟩
        · rw [e] at hs; simp at hs
        · have hs' := hs
          rw [e] at hs'
          rcases List.mem_cons.mp hs' with e1 | e1
          · exact ⟨s0, p1, by rw [e1]; exact hi⟩
          · apply ih s1 s
            rw [e]
            exact e1
    · simp at hs

/-- C18: on an array that is already in non-increasing order of `pixel_size`,
`sort_textures` changes nothing, every element stays at its index; hence
`sort_textures` is idempotent; and at the head of every page iteration of a run
but the first, the array is as the validation and `sort_textures` of that
iteration (lines 200-224) leave it, so the re-sort moves no record, neither
before nor after the start index. -/
theorem C18_sort_sorted_identity (textures : List texture_t) :
    (List.Pairwise (fun a b => b.pixel_size ≤ a.pixel_size) textures →
      sort_textures textures textures.length = textures) ∧
    sort_textures (sort_textures textures textures.length)
        (sort_textures textures textures.length).length
      = sort_textures textures textures.length ∧
    (∀ (b : bounds) (dim_fuel fuel : Nat) (s : state),
      s ∈ (iteration_heads b dim_fuel fuel (initial_state b textures)).tail →
      validate b.max_width b.max_height s.textures = some s.textures ∧
      sort_textures s.textures s.textures.length = s.textures ∧
      ∀ i, tex (search_start s s.textures).textures i = tex s.textures i) := by
  refine ⟨?_, sort_textures_idem textures, ?_⟩
  · intro hp
    apply sort_textures_sorted_id
    intro i j hij hj
    rw [List.pairwise_iff_getElem] at hp
    have := hp i j (by omega) hj hij
    rw [tex_eq_getElem _ j hj, tex_eq_getElem _ i (by omega)]
    exact this
  · intro b dim_fuel fuel s hs
    obtain ⟨s1, p, hi⟩ := iteration_heads_tail b dim_fuel fuel _ s hs
    obtain ⟨h1, h2⟩ := page_iteration_settled b dim_fuel s1 p s hi
    refine ⟨h1, h2, ?_⟩
    intro i
    show tex (sort_textures s.textures s.textures.length) i = tex s.textures i
    rw [h2]

/-- Witness of C18: a larger record followed by two records of equal size is
left as it is; and at the head of the second page iteration of `mixed_tiles`
with the bounds 5, 1, 5, 1 (page 1 holds `a` and `c`, the start index is 2
of 3) the validation and the re-sort leave the array as it is. -/
theorem C18_sort_sorted_identity_witness :
    List.Pairwise (fun a b => b.pixel_size ≤ a.pixel_size) larger_then_tie ∧
    sort_textures larger_then_tie larger_then_tie.length = larger_then_tie ∧
    mixed_tiles_second
      ∈ (iteration_heads ⟨5, 1, 5, 1⟩ 2 3 (initial_state ⟨5, 1, 5, 1⟩ mixed_tiles)).tail ∧
    (0 < mixed_tiles_second.current_texture ∧
      mixed_tiles_second.current_texture < mixed_tiles_second.textures.length) ∧
    validate 5 1 mixed_tiles_second.textures = some mixed_tiles_second.textures ∧
    sort_textures mixed_tiles_second.textures mixed_tiles_second.textures.length
      = mixed_tiles_second.textures := by
  have hm : mixed_tiles_second
      ∈ (iteration_heads ⟨5, 1, 5, 1⟩ 2 3 (initial_state ⟨5, 1, 5, 1⟩ mixed_tiles)).tail := by
    decide!
  have h := (C18_sort_sorted_identity mixed_tiles).2.2 ⟨5, 1, 5, 1⟩ 2 3 mixed_tiles_second hm
  exact ⟨by decide, (C18_sort_sorted_identity larger_then_tie).1 (by decide), hm,
    ⟨by decide, by decide⟩, h.1, h.2.1⟩

end TexturePacker
